import Mathlib

/-!
# EBoard sidecar firmware: battery monitor, mailboxes, bargraph level, power orchestrator

A shallow embedding of the firmware's C sources and the properties proved about it.

Conventions of the embedding
* A `float` or `double` value is the rational (`ℚ`) it denotes. In `v_sys_check` and in the level
  computation of `animate_bargraph` every conversion and every operation rounds its exact result
  to the nearest value of its type (`to_float`, `to_double`); the moving average of `run_monitor`
  is taken over exact rationals.
* `uint8_t`, `uint16_t`, `uint32_t` values are natural numbers, reduced modulo `2^8`, `2^16`,
  `2^32` wherever the C arithmetic can wrap; array indices and array cells whose C type bounds
  them are `Fin` values.
* An event-flag object is its 32-bit flag word, a natural number handled with `|||`, `&&&`, `^^^`.
* A message queue is a capacity and the list of queued messages, oldest first.
* A task body that loops forever is embedded as the function of one loop iteration; what other
  tasks, interrupt handlers and the hardware do during a blocking call is an explicit input.
-/

namespace EBoard

/-! ## RTOS primitives (event flags) -/

/-- Modelled from the spec: the RTOS call `osEventFlagsSet` is not part of the sources. Per §4.1
(`flags_set` is an atomic bitwise operation) it ORs the given bits into the flag word. -/
def osEventFlagsSet (ef flags : Nat) : Nat := ef ||| flags

/-- Modelled from the spec: the RTOS call `osEventFlagsClear` is not part of the sources. Per §4.1
(`flags_clear` is an atomic bitwise operation) it clears the given bits of the 32-bit flag word. -/
def osEventFlagsClear (ef flags : Nat) : Nat := ef &&& (0xFFFFFFFF ^^^ flags)

/-- Modelled from the spec: the RTOS call `osEventFlagsGet` is not part of the sources. Per §4.1
(`flags_get`) it returns the current flag word. -/
def osEventFlagsGet (ef : Nat) : Nat := ef

/-- Modelled from the spec: the error status of a wait that timed out (`timeout_error` of §4.1).
The sources recognise an error status by bit 31 (`status & (1<<31)`); the value is the RTOS's
`osFlagsErrorTimeout`. -/
def osFlagsErrorTimeout : Nat := 0xFFFFFFFE

/-- The RTOS constant `osWaitForever`, the timeout of a wait that has no bound. -/
def osWaitForever : Nat := 0xFFFFFFFF

/-- Modelled from the spec: the RTOS call `osEventFlagsWait` with option `osFlagsWaitAny`
(`noClear = false`) or `osFlagsNoClear` (`noClear = true`) is not part of the sources. Per §4.1,
`flags_wait(mask, mode, timeout) -> (matched_bits | timeout_error)` suspends the caller until at
least one requested bit is set or the timeout elapses, and `mode` selects whether the matched
bits are cleared on return. `arrived` are the bits that other tasks and interrupt handlers set
while the caller is blocked; with a timeout of 0 the caller does not block, so nothing arrives.
The result is the new flag word and the returned status. -/
def osEventFlagsWait (ef flags : Nat) (noClear : Bool) (timeout arrived : Nat) : Nat × Nat :=
  let cur := if timeout = 0 then ef else ef ||| arrived
  let matched := cur &&& flags
  if matched ≠ 0 then
    (if noClear then cur else osEventFlagsClear cur matched, matched)
  else
    (cur, osFlagsErrorTimeout)

/-! ## RTOS primitives (message queues) -/

/-- Modelled from the spec: the RTOS message queue is not part of the sources. A queue created by
`osMessageQueueNew(capacity, ...)` holds at most `capacity` messages, oldest first. -/
structure MsgQueue (α : Type) where
  capacity : Nat
  msgs : List α
deriving Repr, DecidableEq

/-- Status codes of the queue calls (`osOK`, `osErrorResource`). -/
inductive osStatus_t where
  | osOK
  | osErrorResource
deriving Repr, DecidableEq

/-- Modelled from the spec: `osMessageQueueNew(msg_count, msg_size, NULL)` creates an empty queue
of the given capacity. -/
def osMessageQueueNew (α : Type) (msg_count : Nat) : MsgQueue α :=
  { capacity := msg_count, msgs := [] }

/-- Modelled from the spec: `osMessageQueueReset` discards every queued message. -/
def osMessageQueueReset {α : Type} (q : MsgQueue α) : MsgQueue α :=
  { q with msgs := [] }

/-- Modelled from the spec: `osMessageQueuePut(q, &msg, 0, 0)`, a put with timeout 0, appends the
message when the queue has room and fails with `osErrorResource`, leaving the queue as it is,
when the queue is full. -/
def osMessageQueuePut {α : Type} (q : MsgQueue α) (msg : α) : MsgQueue α × osStatus_t :=
  if q.msgs.length < q.capacity then
    ({ q with msgs := q.msgs ++ [msg] }, osStatus_t.osOK)
  else
    (q, osStatus_t.osErrorResource)

/-- Modelled from the spec: `osMessageQueueGetCount` returns the number of queued messages. -/
def osMessageQueueGetCount {α : Type} (q : MsgQueue α) : Nat := q.msgs.length

/-- Modelled from the spec: `osMessageQueueGet(q, &dst, NULL, 0)`, a get with timeout 0, removes
the oldest message and stores it in `dst`; on an empty queue it fails with `osErrorResource` and
leaves `dst` as it was. The result is the new queue, the new value of `dst` and the status. -/
def osMessageQueueGet {α : Type} (q : MsgQueue α) (dst : α) : MsgQueue α × α × osStatus_t :=
  match q.msgs with
  | [] => (q, dst, osStatus_t.osErrorResource)
  | m :: rest => ({ q with msgs := rest }, m, osStatus_t.osOK)

/-! ## The C types `float` and `double` (IEEE 754 binary32 and binary64) -/

/-- Round a rational to the nearest integer, a tie going to the even one. -/
def round_half_even (x : ℚ) : ℤ :=
  if x - ⌊x⌋ < 1 / 2 then ⌊x⌋
  else if 1 / 2 < x - ⌊x⌋ then ⌊x⌋ + 1
  else if ⌊x⌋ % 2 = 0 then ⌊x⌋ else ⌊x⌋ + 1

/-- The value that a binary floating-point format with `p` significand bits and least normal
exponent `emin` holds for the exact result `x` of a conversion or of an operation: the multiple
of the quantum 2^(e - (p - 1)), with e = max(floor(log2 |x|), emin), that is nearest to `x`, a tie
going to the even multiple (the default rounding mode). Below 2^emin the quantum is fixed (the
subnormal numbers). The exponent has no upper bound here: overflow to infinity is not
represented. -/
def float_round (p : ℕ) (emin : ℤ) (x : ℚ) : ℚ :=
  let q : ℚ := 2 ^ (max (Int.log 2 |x|) emin - ((p : ℤ) - 1))
  (round_half_even (x / q) : ℚ) * q

/-- The value of type `float` (binary32: 24 significand bits, least normal exponent -126) that a
conversion or a `float` operation with exact result `x` yields. -/
def to_float (x : ℚ) : ℚ := float_round 24 (-126) x

/-- The value of type `double` (binary64: 53 significand bits, least normal exponent -1022) that
a conversion or a `double` operation with exact result `x` yields. -/
def to_double (x : ℚ) : ℚ := float_round 53 (-1022) x

/-! ## batt_monitor.h / batt_monitor.c -/

def DMA_COMPLETE_FLAG : Nat := 1 <<< 0
def ADC_READY_FLAG : Nat := 1 <<< 1
def SOC_LOW_FLAG : Nat := 1 <<< 2
def SOC_CRIT_FLAG : Nat := 1 <<< 3
def SOC_MEASURE_FAIL : Nat := 1 <<< 4

abbrev ADC_OVERSAMPLES : Nat := 16
abbrev SAMPLE_BUFFER_LEN : Nat := 256
def ADC_READ_TIMEOUT : Nat := 100
def ADC_MAX_READ_FAILS : Nat := 8
def DIVIDER_RATIO : ℚ := 887937 / 100000000

def MIN_VOLTAGE : ℚ := 24
def MAX_VOLTAGE : ℚ := 336 / 10
def SANE_VOLTAGE_UPPER_LIMIT : ℚ := 35
def SANE_VOLTAGE_LOWER_LIMIT : ℚ := 10
def SOC_VOLTAGE_LOW : ℚ := 26
def SOC_VOLTAGE_CRITICAL : ℚ := 24
def MAV_INIT_VALUE : ℚ := 10546875 / 100000000

/-- The array `uint16_t adc_results[ADC_OVERSAMPLES]`. -/
abbrev AdcBuffer := Fin ADC_OVERSAMPLES → Fin 65536

/-- What the rest of the system does during one call of `do_adc_dma`: the tick counter read on
entry and after the ADC has been locked, whether the other user of the ADC releases it (sets
ADC_READY) while the call waits for it, whether the conversion-complete interrupt handler
`HAL_ADC_ConvCpltCallback` sets DMA_COMPLETE while the call waits for it, and the contents of the
caller's sample array when the call returns (the DMA transfer's result, or whatever the array
held when no transfer completed). -/
structure AdcEnv where
  start_tick : Nat
  ready_released : Bool
  locked_tick : Nat
  dma_complete : Bool
  samples : AdcBuffer

/-- The function `do_adc_dma`: the new flag word of `monitor_util_flags` and the returned
status. -/
def do_adc_dma (monitor_util_flags timeout : Nat) (env : AdcEnv) : Nat × Nat :=
  let start_tick := env.start_tick % 2 ^ 32
  let w1 := osEventFlagsWait monitor_util_flags ADC_READY_FLAG false timeout
    (if env.ready_released then ADC_READY_FLAG else 0)
  let status := w1.2
  if status &&& (1 <<< 31) ≠ 0 then (w1.1, status)
  else
    let dma_timeout := ((timeout + start_tick) % 2 ^ 32 + 2 ^ 32 - env.locked_tick % 2 ^ 32) % 2 ^ 32
    let f2 := osEventFlagsClear w1.1 DMA_COMPLETE_FLAG
    let w2 := osEventFlagsWait f2 DMA_COMPLETE_FLAG false dma_timeout
      (if env.dma_complete then DMA_COMPLETE_FLAG else 0)
    let status := w2.2
    (osEventFlagsSet w2.1 ADC_READY_FLAG, status)

/-- The loop `for(i = 0; i < ADC_OVERSAMPLES; i++) adc_sum += adc_results[i];` on a `uint32_t`
accumulator that starts at 0. -/
def adc_sum_loop (adc_results : AdcBuffer) : Nat :=
  (List.finRange ADC_OVERSAMPLES).foldl
    (fun adc_sum i => (adc_sum + (adc_results i).val) % 2 ^ 32) 0

/-- The function `v_sys_check`: the returned verdict and the new flag word. The parameter
`float min_voltage` holds the argument converted to `float`. In
`v_sys = adc_sum * DIVIDER_RATIO / ADC_OVERSAMPLES;` the macro `DIVIDER_RATIO` is the `double`
constant 0.00887937, so the product and the quotient are `double` operations (on the exact
conversions of `adc_sum` and of 16), and the assignment converts the quotient to the
`float v_sys`; the limits `10.0f` and `35.0f` are `float` values. -/
def v_sys_check (min_voltage : ℚ) (monitor_util_flags : Nat) (env : AdcEnv) : Bool × Nat :=
  let min_voltage := to_float min_voltage
  let min_voltage :=
    if min_voltage < SANE_VOLTAGE_LOWER_LIMIT then SANE_VOLTAGE_LOWER_LIMIT else min_voltage
  let r := do_adc_dma monitor_util_flags ADC_READ_TIMEOUT env
  let adc_status := r.2
  if adc_status &&& (1 <<< 31) ≠ 0 then (false, r.1)
  else
    let adc_sum := adc_sum_loop env.samples
    let v_sys : ℚ :=
      to_float
        (to_double (to_double ((adc_sum : ℚ) * to_double DIVIDER_RATIO) / (ADC_OVERSAMPLES : ℚ)))
    (decide (v_sys > min_voltage) && decide (v_sys < SANE_VOLTAGE_UPPER_LIMIT), r.1)

/-- The accessor `monitor_soc_low`: the returned value and the new flag word. -/
def monitor_soc_low (monitor_util_flags : Nat) (clear_flag : Bool) : Bool × Nat :=
  let result := decide (osEventFlagsGet monitor_util_flags &&& SOC_LOW_FLAG ≠ 0)
  if result && clear_flag then (result, osEventFlagsClear monitor_util_flags SOC_LOW_FLAG)
  else (result, monitor_util_flags)

/-- The accessor `monitor_soc_crit`: the returned value and the new flag word. -/
def monitor_soc_crit (monitor_util_flags : Nat) (clear_flag : Bool) : Bool × Nat :=
  let result := decide (osEventFlagsGet monitor_util_flags &&& SOC_CRIT_FLAG ≠ 0)
  if result && clear_flag then (result, osEventFlagsClear monitor_util_flags SOC_CRIT_FLAG)
  else (result, monitor_util_flags)

/-- The accessor `monitor_read_fail`: the returned value and the new flag word. -/
def monitor_read_fail (monitor_util_flags : Nat) (clear_flag : Bool) : Bool × Nat :=
  let result := decide (osEventFlagsGet monitor_util_flags &&& SOC_MEASURE_FAIL ≠ 0)
  if result && clear_flag then (result, osEventFlagsClear monitor_util_flags SOC_MEASURE_FAIL)
  else (result, monitor_util_flags)

/-- The local variables of the thread function `run_monitor`. -/
structure MonitorLocals where
  sample_buffer : Fin SAMPLE_BUFFER_LEN → ℚ
  mav_voltage : ℚ
  soc : ℚ
  buffer_pointer : Fin SAMPLE_BUFFER_LEN
  read_fail_counter : Nat
  soc_low_asserted : Bool

/-- The module-level objects of batt_monitor.c that `run_monitor` works on. -/
structure MonitorShared where
  monitor_util_flags : Nat
  soc_buf : MsgQueue ℚ

/-- The state `monitor_init` leaves behind: a fresh flag object with ADC_READY set and an empty
SOC queue of capacity 1. -/
def monitor_init : MonitorShared :=
  { monitor_util_flags := osEventFlagsSet 0 ADC_READY_FLAG
    soc_buf := osMessageQueueNew ℚ 1 }

/-- The locals of `run_monitor` when it enters its loop. -/
def run_monitor_entry : MonitorLocals :=
  { sample_buffer := fun _ => MAV_INIT_VALUE
    mav_voltage := 0
    soc := 0
    buffer_pointer := ⟨0, by decide⟩
    read_fail_counter := 0
    soc_low_asserted := false }

/-- The loop `for(i = 0; i < SAMPLE_BUFFER_LEN; i++) mav_voltage += sample_buffer[i];` of
`run_monitor`, on an accumulator that starts at 0. -/
def sample_buffer_sum (sample_buffer : Fin SAMPLE_BUFFER_LEN → ℚ) : ℚ :=
  (List.finRange SAMPLE_BUFFER_LEN).foldl (fun mav_voltage i => mav_voltage + sample_buffer i) 0

/-- The threshold step of `run_monitor` (`if(mav_voltage < SOC_VOLTAGE_CRITICAL) ... else if ...`):
the new flag word and the new value of `soc_low_asserted`. -/
def run_monitor_thresholds (flags : Nat) (mav_voltage : ℚ) (soc_low_asserted : Bool) :
    Nat × Bool :=
  if mav_voltage < SOC_VOLTAGE_CRITICAL then
    (osEventFlagsSet flags SOC_CRIT_FLAG, soc_low_asserted)
  else if mav_voltage < SOC_VOLTAGE_LOW ∧ soc_low_asserted = false then
    (osEventFlagsSet flags SOC_LOW_FLAG, true)
  else (flags, soc_low_asserted)

/-- One iteration of the `while(1)` loop of `run_monitor`. The `float` arithmetic of the moving
average (`adc_voltage`, `scaled_voltage`, the sum of the 256 buffer cells, `soc`) is taken over
exact rationals. -/
def run_monitor_cycle (st : MonitorLocals) (sh : MonitorShared) (env : AdcEnv) :
    MonitorLocals × MonitorShared :=
  let r := do_adc_dma sh.monitor_util_flags ADC_READ_TIMEOUT env
  let adc_status := r.2
  let flags := r.1
  let adc_sum := adc_sum_loop env.samples
  let adc_voltage : ℚ := (adc_sum : ℚ) * DIVIDER_RATIO / (ADC_OVERSAMPLES : ℚ)
  if adc_status &&& (1 <<< 31) = 0 ∧ adc_voltage < SANE_VOLTAGE_UPPER_LIMIT
      ∧ adc_voltage > SANE_VOLTAGE_LOWER_LIMIT then
    let scaled_voltage := adc_voltage / (SAMPLE_BUFFER_LEN : ℚ)
    let sample_buffer := Function.update st.sample_buffer st.buffer_pointer scaled_voltage
    let mav_voltage := sample_buffer_sum sample_buffer
    let soc := (mav_voltage - MIN_VOLTAGE) / (MAX_VOLTAGE - MIN_VOLTAGE)
    let soc_buf := (osMessageQueuePut (osMessageQueueReset sh.soc_buf) soc).1
    let th := run_monitor_thresholds flags mav_voltage st.soc_low_asserted
    let buffer_pointer : Fin SAMPLE_BUFFER_LEN :=
      if h : st.buffer_pointer.val ≥ SAMPLE_BUFFER_LEN - 1 then ⟨0, by decide⟩
      else ⟨st.buffer_pointer.val + 1, by omega⟩
    ({ sample_buffer := sample_buffer
       mav_voltage := mav_voltage
       soc := soc
       buffer_pointer := buffer_pointer
       read_fail_counter := 0
       soc_low_asserted := th.2 },
     { monitor_util_flags := th.1, soc_buf := soc_buf })
  else
    let read_fail_counter := (st.read_fail_counter + 1) % 2 ^ 8
    let flags :=
      if read_fail_counter ≥ ADC_MAX_READ_FAILS then osEventFlagsSet flags SOC_MEASURE_FAIL
      else flags
    ({ st with read_fail_counter := read_fail_counter },
     { sh with monitor_util_flags := flags })

/-- The loop of `run_monitor` over a finite prefix of its iterations, one `AdcEnv` each. -/
def run_monitor_cycles (st : MonitorLocals) (sh : MonitorShared) :
    List AdcEnv → MonitorLocals × MonitorShared
  | [] => (st, sh)
  | env :: rest =>
    let r := run_monitor_cycle st sh env
    run_monitor_cycles r.1 r.2 rest

/-! ## bargraph.c -/

/-- The macro `Q_UPDATE(queue_name, data)`: reset, then put with timeout 0. The result is the new
queue and the status of the put. -/
def Q_UPDATE {α : Type} (queue_name : MsgQueue α) (data : α) : MsgQueue α × osStatus_t :=
  osMessageQueuePut (osMessageQueueReset queue_name) data

/-- The read of the SOC queue in `animate_bargraph`: the new queue and the new value of the
local `soc`. -/
def animate_bargraph_read (soc_queue : MsgQueue ℚ) (soc : ℚ) : MsgQueue ℚ × ℚ :=
  if osMessageQueueGetCount soc_queue > 0 then
    let g := osMessageQueueGet soc_queue soc
    (g.1, g.2.1)
  else (soc_queue, soc)

/-- The read of the draw-buffer queue in `draw_bargraph`: the new queue and the new value of the
local `draw_buffer`. -/
def draw_bargraph_read (drawbuf_queue : MsgQueue Nat) (draw_buffer : Nat) : MsgQueue Nat × Nat :=
  if osMessageQueueGetCount drawbuf_queue > 0 then
    let g := osMessageQueueGet drawbuf_queue draw_buffer
    (g.1, g.2.1)
  else (drawbuf_queue, draw_buffer)

/-- The conversion `(uint8_t)x` of a float: truncation toward zero, kept to 8 bits. -/
def float_to_uint8 (x : ℚ) : Nat := ((Int.tdiv x.num (x.den : Int)) % 256).toNat

/-- The statement `soc = soc >= 1 ? 0.999 : (soc < 0 ? 0 : soc);` of `animate_bargraph`. The
variable `float soc` holds the given value converted to `float`; the `double` constant 0.999 is
converted to `float` by the assignment, and a `float` value assigned back is unchanged. -/
def animate_bargraph_constrain (soc : ℚ) : ℚ :=
  let soc := to_float soc
  if soc ≥ 1 then to_float (999 / 1000) else (if soc < 0 then 0 else soc)

/-- The level `scaled_soc = (uint8_t)(soc*20)` that `animate_bargraph` computes from the SOC it
holds, after constraining it: the product is a `float` multiplication, rounded to `float` before
the conversion to `uint8_t` truncates it. -/
def animate_bargraph_scaled_soc (soc : ℚ) : Nat :=
  float_to_uint8 (to_float (animate_bargraph_constrain soc * 20))

def CRITICAL_FLASH_RATE : Nat := 75
def CRITICAL_FLASH_COUNT : Nat := 10
def BUILDUP_DELAY : Nat := 50
def FLASH_DELAY : Nat := 500
def FLASH_COUNT : Nat := 4

/-- The rendering part of `animate_bargraph`, from `if(scaled_soc < 1)` to the end of the `else`
branch: the list, in order, of the `uint16_t display_buffer` values written with `Q_UPDATE`,
each with the ticks of the `osDelay` that follows it. -/
def animate_bargraph_frames (scaled_soc : Nat) : List (Nat × Nat) :=
  if scaled_soc < 1 then
    (List.range CRITICAL_FLASH_COUNT).foldl
      (fun frames _ => frames ++ [(1, CRITICAL_FLASH_RATE), (0, CRITICAL_FLASH_RATE)]) []
  else
    let buildup : Nat × List (Nat × Nat) :=
      (List.range (scaled_soc >>> 1)).foldl
        (fun st i =>
          let display_buffer := (st.1 ||| (1 <<< i)) % 2 ^ 16
          (display_buffer, st.2 ++ [(display_buffer, BUILDUP_DELAY)]))
        (0, [])
    if scaled_soc &&& 0x01 ≠ 0 then
      let display_buffer := (buildup.1 ||| (1 <<< (scaled_soc >>> 1))) % 2 ^ 16
      buildup.2 ++ [(display_buffer, FLASH_DELAY * FLASH_COUNT * 2)]
    else
      ((List.range (FLASH_COUNT <<< 1)).foldl
        (fun st _ =>
          let display_buffer := (st.1 ^^^ (1 <<< (scaled_soc >>> 1))) % 2 ^ 16
          (display_buffer, st.2 ++ [(display_buffer, FLASH_DELAY)]))
        buildup).2

/-- One pass of the `while(true)` loop of `animate_bargraph` after it has been woken: the new SOC
queue, the new value of the local `soc`, and the display-buffer values written to the draw queue
with the delay that follows each, starting with the blank frame written before the drawer is
resumed (no delay follows that one). -/
def animate_bargraph_pass (soc_queue : MsgQueue ℚ) (soc : ℚ) :
    MsgQueue ℚ × ℚ × List (Nat × Nat) :=
  let display_buffer : Nat := 0
  let r := animate_bargraph_read soc_queue soc
  let soc := animate_bargraph_constrain r.2
  let scaled_soc := float_to_uint8 (to_float (soc * 20))
  (r.1, soc, (display_buffer, 0) :: animate_bargraph_frames scaled_soc)

/-- The local variables of the thread function `draw_bargraph`. -/
structure DrawLocals where
  draw_buffer : Nat
  polarity : Bool
deriving Repr, DecidableEq

/-- The locals of `draw_bargraph` when it enters its loop, at its first resume. -/
def draw_bargraph_entry : DrawLocals := { draw_buffer := 0, polarity := false }

/-- The function `bargraph_output` of pindefs.h: the state it writes to each of the pins
LED0..LED9 (`true` for `GPIO_PIN_SET`). -/
def bargraph_output (states : Nat) : Fin 10 → Bool :=
  fun i => decide (states &&& (1 <<< i.val) ≠ 0)

/-- One iteration of the `while(true)` loop of `draw_bargraph`: the new locals, the new
draw-buffer queue and the argument of the call of `bargraph_output`. -/
def draw_bargraph_cycle (st : DrawLocals) (drawbuf_queue : MsgQueue Nat) :
    DrawLocals × MsgQueue Nat × Nat :=
  let r := draw_bargraph_read drawbuf_queue st.draw_buffer
  let draw_buffer := r.2
  let out := if st.polarity then draw_buffer &&& 0x155 else draw_buffer &&& 0x2AA
  ({ draw_buffer := draw_buffer, polarity := !st.polarity }, r.1, out)

/-- The loop of `draw_bargraph` over a finite prefix of its iterations: the arguments of the
calls of `bargraph_output`, in order. Before each iteration the animator may have written a new
display buffer to the queue with `Q_UPDATE` (`some b`) or not (`none`). -/
def draw_bargraph_cycles (st : DrawLocals) (drawbuf_queue : MsgQueue Nat) :
    List (Option Nat) → List Nat
  | [] => []
  | update :: rest =>
    let q := match update with
      | some b => (Q_UPDATE drawbuf_queue b).1
      | none => drawbuf_queue
    let r := draw_bargraph_cycle st q
    r.2.2 :: draw_bargraph_cycles r.1 r.2.1 rest

def BARGRAPH_UPDATE_DELAY : Nat := 2
def ANIMATOR_READY : Nat := 1 <<< 0
def RUN_ANIMATION : Nat := 1 <<< 1

/-- The module-level objects of bargraph.c that `bargraph_draw_soc` can reach: the flag word of
`animator_run_flags` and the draw-buffer queue. -/
structure BargraphShared where
  animator_run_flags : Nat
  drawbuf_queue : MsgQueue Nat
deriving Repr, DecidableEq

/-- The function `bargraph_draw_soc`. -/
def bargraph_draw_soc (sh : BargraphShared) : BargraphShared :=
  if osEventFlagsGet sh.animator_run_flags &&& ANIMATOR_READY ≠ 0 then
    { sh with animator_run_flags := osEventFlagsSet sh.animator_run_flags RUN_ANIMATION }
  else sh

/-- The start of one pass of the `while(true)` loop of `animate_bargraph`, from
`osEventFlagsSet(animator_run_flags, ANIMATOR_READY)` to
`osEventFlagsClear(animator_run_flags, ANIMATOR_READY)`: the animator declares itself ready,
waits for RUN_ANIMATION (cleared on return, no bound) and withdraws its readiness. `arrived`
are the bits set by callers of `bargraph_draw_soc` while the animator is blocked. The result is
the flag word with which the animation runs, or `none` while the wait has not returned. -/
def animate_bargraph_wake (animator_run_flags arrived : Nat) : Option Nat :=
  let f1 := osEventFlagsSet animator_run_flags ANIMATOR_READY
  let w := osEventFlagsWait f1 RUN_ANIMATION false osWaitForever arrived
  if w.2 = osFlagsErrorTimeout then none
  else some (osEventFlagsClear w.1 ANIMATOR_READY)

/-! ## board_lights.c -/

/-- The read of the pulse-width queue in `run_lights_supervisor`: the new queue and the new
value of the local `pulse_width`. -/
def run_lights_supervisor_read (pulse_buf : MsgQueue Nat) (pulse_width : Nat) :
    MsgQueue Nat × Nat :=
  if osMessageQueueGetCount pulse_buf > 0 then
    let g := osMessageQueueGet pulse_buf pulse_width
    (g.1, g.2.1)
  else (pulse_buf, 0)

abbrev DEBOUNCER_SAMPLES : Nat := 5
def NUM_FLASH_PATTERNS : Nat := 4
def THRESHOLD_HIGH : Nat := 1700
def THRESHOLD_LOW : Nat := 1300

def LIGHTS_OFF : Nat := 1 <<< 0
def TAILLIGHT_ONLY : Nat := 1 <<< 1
def TAIL_SOLID_HEAD : Nat := 1 <<< 2
def TAIL_AND_HEAD : Nat := 1 <<< 3
def ALL_LIGHTS_FLAGS : Nat := 0x0F

/-- The function `board_lights_tim_overflow`: the new pulse-width queue. -/
def board_lights_tim_overflow (pulse_buf : MsgQueue Nat) : MsgQueue Nat :=
  let pulse_width : Nat := 0
  (osMessageQueuePut (osMessageQueueReset pulse_buf) pulse_width).1

/-- The falling-edge branch of `HAL_GPIO_EXTI_Callback`, with `cnt` the timer count it reads into
the `uint16_t pulse_width`: the new pulse-width queue. -/
def HAL_GPIO_EXTI_Callback_falling (pulse_buf : MsgQueue Nat) (cnt : Nat) : MsgQueue Nat :=
  let pulse_width : Nat := cnt % 2 ^ 16
  (osMessageQueuePut (osMessageQueueReset pulse_buf) pulse_width).1

/-- The local variables of the thread function `run_lights_supervisor`. The three `uint8_t`
variables `which_animation`, `timeout_latch` and `change_polarity` are numbers; the code tests
the last two for being non-zero. -/
structure SupervisorLocals where
  pulse_width : Nat
  p_widths : Fin DEBOUNCER_SAMPLES → Fin 65536
  buf_pointer : Fin DEBOUNCER_SAMPLES
  filt_p_width : Nat
  which_animation : Nat
  timeout_latch : Nat
  change_polarity : Nat

/-- The locals of `run_lights_supervisor` when it enters its loop (`pulse_width` is not
initialised there; it is written before it is read). -/
def run_lights_supervisor_entry : SupervisorLocals :=
  { pulse_width := 0
    p_widths := fun _ => ⟨0, by decide⟩
    buf_pointer := ⟨0, by decide⟩
    filt_p_width := 0
    which_animation := 0
    timeout_latch := 0
    change_polarity := 1 }

/-- The loop `for(int i = 0; i < DEBOUNCER_SAMPLES; i++) filt_p_width += p_widths[i];` on the
`uint32_t` accumulator `filt_p_width`, which starts at 0. -/
def p_widths_sum (p_widths : Fin DEBOUNCER_SAMPLES → Fin 65536) : Nat :=
  (List.finRange DEBOUNCER_SAMPLES).foldl
    (fun filt_p_width i => (filt_p_width + (p_widths i).val) % 2 ^ 32) 0

/-- The branch of the `if` that one iteration of `run_lights_supervisor` takes. -/
inductive SupervisorBranch where
  | lights_off
  | next_pattern
  | no_change
deriving Repr, DecidableEq

/-- What one iteration of `run_lights_supervisor` leaves behind: its locals, the pulse-width
queue and the flag word of `flash_flags`; and, for the record, the arguments of the calls of
`osEventFlagsSet(flash_flags, ...)` it made and the branch it took. -/
structure SupervisorStep where
  locals : SupervisorLocals
  pulse_buf : MsgQueue Nat
  flash_flags : Nat
  set_calls : List Nat
  branch : SupervisorBranch

/-- One iteration of the `while(true)` loop of `run_lights_supervisor`. -/
def run_lights_supervisor_cycle (st : SupervisorLocals) (pulse_buf : MsgQueue Nat)
    (flash_flags : Nat) : SupervisorStep :=
  let r := run_lights_supervisor_read pulse_buf st.pulse_width
  let pulse_width := r.2
  let p_widths := Function.update st.p_widths st.buf_pointer
    ⟨pulse_width % 65536, Nat.mod_lt _ (by decide)⟩
  let filt_p_width := p_widths_sum p_widths / DEBOUNCER_SAMPLES
  let buf_pointer : Fin DEBOUNCER_SAMPLES :=
    ⟨(st.buf_pointer.val + 1) % DEBOUNCER_SAMPLES, Nat.mod_lt _ (by decide)⟩
  if filt_p_width = 0 ∧ st.timeout_latch = 0 then
    { locals :=
        { pulse_width := pulse_width
          p_widths := p_widths
          buf_pointer := buf_pointer
          filt_p_width := filt_p_width
          which_animation := 0
          timeout_latch := 1
          change_polarity := st.change_polarity }
      pulse_buf := r.1
      flash_flags := osEventFlagsSet flash_flags LIGHTS_OFF
      set_calls := [LIGHTS_OFF]
      branch := SupervisorBranch.lights_off }
  else if (filt_p_width > THRESHOLD_HIGH ∧ st.change_polarity ≠ 0)
      ∨ (filt_p_width < THRESHOLD_LOW ∧ st.change_polarity = 0) then
    let which_animation := (st.which_animation + 1) % NUM_FLASH_PATTERNS
    { locals :=
        { pulse_width := pulse_width
          p_widths := p_widths
          buf_pointer := buf_pointer
          filt_p_width := filt_p_width
          which_animation := which_animation
          timeout_latch := 0
          change_polarity := if st.change_polarity = 0 then 1 else 0 }
      pulse_buf := r.1
      flash_flags := osEventFlagsSet flash_flags (1 <<< which_animation)
      set_calls := [1 <<< which_animation]
      branch := SupervisorBranch.next_pattern }
  else
    { locals :=
        { pulse_width := pulse_width
          p_widths := p_widths
          buf_pointer := buf_pointer
          filt_p_width := filt_p_width
          which_animation := st.which_animation
          timeout_latch := st.timeout_latch
          change_polarity := st.change_polarity }
      pulse_buf := r.1
      flash_flags := flash_flags
      set_calls := []
      branch := SupervisorBranch.no_change }

/-- What one iteration of `run_lights_supervisor` finds: the pulse-width queue as the interrupt
handlers left it and the flag word of `flash_flags` as the animator left it. -/
structure SupervisorEnv where
  pulse_buf : MsgQueue Nat
  flash_flags : Nat

/-- The loop of `run_lights_supervisor` over a finite prefix of its iterations: the steps, in
order. -/
def run_lights_supervisor_cycles (st : SupervisorLocals) :
    List SupervisorEnv → List SupervisorStep
  | [] => []
  | env :: rest =>
    let s := run_lights_supervisor_cycle st env.pulse_buf env.flash_flags
    s :: run_lights_supervisor_cycles s.locals rest

/-- The calls one pass of the dispatch of `run_board_lights` makes. -/
inductive LightsCall where
  | clear (flags : Nat)
  | do_lights_out
  | do_taillight_only
  | do_tail_solid_head
  | do_tail_and_head
deriving Repr, DecidableEq

/-- The `if`/`else if` chain of `run_board_lights` on the flag word it reads: the new flag word
and the calls made, in order (`clear m` is `osEventFlagsClear(flash_flags, m)`). The routines
only wait on `flash_flags` without clearing, so they leave the flag word alone. -/
def run_board_lights_dispatch (flash_flags : Nat) : Nat × List LightsCall :=
  if osEventFlagsGet flash_flags &&& LIGHTS_OFF ≠ 0 then
    (osEventFlagsClear flash_flags LIGHTS_OFF,
      [LightsCall.clear LIGHTS_OFF, LightsCall.do_lights_out])
  else if osEventFlagsGet flash_flags &&& TAILLIGHT_ONLY ≠ 0 then
    (osEventFlagsClear flash_flags TAILLIGHT_ONLY,
      [LightsCall.clear TAILLIGHT_ONLY, LightsCall.do_taillight_only])
  else if osEventFlagsGet flash_flags &&& TAIL_SOLID_HEAD ≠ 0 then
    (osEventFlagsClear flash_flags TAIL_SOLID_HEAD,
      [LightsCall.clear TAIL_SOLID_HEAD, LightsCall.do_tail_solid_head])
  else if osEventFlagsGet flash_flags &&& TAIL_AND_HEAD ≠ 0 then
    (osEventFlagsClear flash_flags TAIL_AND_HEAD,
      [LightsCall.clear TAIL_AND_HEAD, LightsCall.do_tail_and_head])
  else (flash_flags, [])

/-- One iteration of the `while(true)` loop of `run_board_lights`: the wait for any pattern flag
(without clearing, without a bound), then the dispatch. `arrived` are the bits set by the
supervisor while the animator is blocked. The result is `none` while the wait has not returned:
no pattern flag is set and none arrives. -/
def run_board_lights_step (flash_flags arrived : Nat) : Option (Nat × List LightsCall) :=
  let w := osEventFlagsWait flash_flags ALL_LIGHTS_FLAGS true osWaitForever arrived
  if w.2 = osFlagsErrorTimeout then none
  else some (run_board_lights_dispatch w.1)

/-! ## pushbutton.h / pushbutton.c (flag accessors) -/

def BUTTON_RELEASED : Nat := 1 <<< 0
def BUTTON_BUMPED : Nat := 1 <<< 1
def BUTTON_SHORT_PRESSED : Nat := 1 <<< 2
def BUTTON_LONG_PRESSED : Nat := 1 <<< 3
def BUTTON_FLAGS_ALL : Nat := 0x0F

/-- The accessor `pushbutton_released`: the returned value and the new flag word. -/
def pushbutton_released (pushbutton_flags : Nat) (clear_flag : Bool) : Bool × Nat :=
  let result := decide (osEventFlagsGet pushbutton_flags &&& BUTTON_RELEASED ≠ 0)
  if result && clear_flag then (result, osEventFlagsClear pushbutton_flags BUTTON_RELEASED)
  else (result, pushbutton_flags)

/-- The accessor `pushbutton_bumped`: the returned value and the new flag word. -/
def pushbutton_bumped (pushbutton_flags : Nat) (clear_flag : Bool) : Bool × Nat :=
  let result := decide (osEventFlagsGet pushbutton_flags &&& BUTTON_BUMPED ≠ 0)
  if result && clear_flag then (result, osEventFlagsClear pushbutton_flags BUTTON_BUMPED)
  else (result, pushbutton_flags)

/-- The accessor `pushbutton_short_pressed`: the returned value and the new flag word. -/
def pushbutton_short_pressed (pushbutton_flags : Nat) (clear_flag : Bool) : Bool × Nat :=
  let result := decide (osEventFlagsGet pushbutton_flags &&& BUTTON_SHORT_PRESSED ≠ 0)
  if result && clear_flag then (result, osEventFlagsClear pushbutton_flags BUTTON_SHORT_PRESSED)
  else (result, pushbutton_flags)

/-- The accessor `pushbutton_long_pressed`: the returned value and the new flag word. -/
def pushbutton_long_pressed (pushbutton_flags : Nat) (clear_flag : Bool) : Bool × Nat :=
  let result := decide (osEventFlagsGet pushbutton_flags &&& BUTTON_LONG_PRESSED ≠ 0)
  if result && clear_flag then (result, osEventFlagsClear pushbutton_flags BUTTON_LONG_PRESSED)
  else (result, pushbutton_flags)

/-! ## pushbutton.c (the button and LED threads) -/

def BUTTON_BOUNCE_TIME : Nat := 25
def BUTTON_SHORT_PRESS_TIME : Nat := 1000
def BUTTON_LONG_PRESS_TIME : Nat := 3000

def BIT_LED_ON : Nat := 1 <<< 0
def BIT_LED_OFF : Nat := 1 <<< 1
def BIT_LED_FADE : Nat := 1 <<< 2
def BIT_LED_FLASH : Nat := 1 <<< 3
def BIT_LED_ALL : Nat := 0x0F

/-- The difference `a - b` of two `uint32_t` values, as in `HAL_GetTick() - push_time`. -/
def uint32_sub (a b : Nat) : Nat := (a % 2 ^ 32 + 2 ^ 32 - b % 2 ^ 32) % 2 ^ 32

/-- The local variables of the thread function `button_thread`; none of them is initialised
when the loop is entered. A `GPIO_PinState` is `true` for `GPIO_PIN_SET`. -/
structure ButtonLocals where
  last_state : Bool
  last_button : Bool
  short_press : Bool
  long_press : Bool
  push_time : Nat
deriving Repr, DecidableEq

/-- What one iteration of `button_thread` reads: the level of the button pin and the value of
`HAL_GetTick()` at each of its four call sites (the store of `push_time`, the short-press test,
the long-press test, the bump test). -/
structure ButtonEnv where
  current_button_state : Bool
  tick_at_push : Nat
  tick_at_short : Nat
  tick_at_long : Nat
  tick_at_release : Nat
deriving Repr, DecidableEq

/-- What one iteration of `button_thread` leaves behind: its locals and the flag word of
`pushbutton_flags`; and, for the record, the arguments of the calls of
`osEventFlagsSet(pushbutton_flags, ...)` it made, in order. -/
structure ButtonStep where
  locals : ButtonLocals
  pushbutton_flags : Nat
  set_calls : List Nat
deriving Repr, DecidableEq

/-- One iteration of the `while(1)` loop of `button_thread`. -/
def button_thread_cycle (st : ButtonLocals) (pushbutton_flags : Nat) (env : ButtonEnv) :
    ButtonStep :=
  if env.current_button_state = st.last_state then
    if env.current_button_state = true then
      let push_time := if st.last_button = false then env.tick_at_push % 2 ^ 32 else st.push_time
      let short_now := !st.short_press
        && decide (uint32_sub env.tick_at_short push_time > BUTTON_SHORT_PRESS_TIME)
      let flags1 :=
        if short_now then osEventFlagsSet pushbutton_flags BUTTON_SHORT_PRESSED
        else pushbutton_flags
      let long_now := !st.long_press
        && decide (uint32_sub env.tick_at_long push_time > BUTTON_LONG_PRESS_TIME)
      let flags2 :=
        if long_now then osEventFlagsSet flags1 BUTTON_LONG_PRESSED else flags1
      { locals :=
          { last_state := env.current_button_state
            last_button := true
            short_press := st.short_press || short_now
            long_press := st.long_press || long_now
            push_time := push_time }
        pushbutton_flags := flags2
        set_calls := (if short_now then [BUTTON_SHORT_PRESSED] else [])
          ++ (if long_now then [BUTTON_LONG_PRESSED] else []) }
    else
      if st.last_button then
        let bumped := decide (uint32_sub env.tick_at_release st.push_time < BUTTON_SHORT_PRESS_TIME)
        let flags1 :=
          if bumped then osEventFlagsSet pushbutton_flags BUTTON_BUMPED else pushbutton_flags
        { locals :=
            { last_state := env.current_button_state
              last_button := false
              short_press := false
              long_press := false
              push_time := st.push_time }
          pushbutton_flags := osEventFlagsSet flags1 BUTTON_RELEASED
          set_calls := (if bumped then [BUTTON_BUMPED] else []) ++ [BUTTON_RELEASED] }
      else
        { locals := { st with last_state := env.current_button_state, last_button := false }
          pushbutton_flags := pushbutton_flags
          set_calls := [] }
  else
    { locals := { st with last_state := env.current_button_state }
      pushbutton_flags := pushbutton_flags
      set_calls := [] }

/-- The loop of `button_thread` over a finite prefix of its iterations, the flag word passed on
from one iteration to the next: the steps, in order. -/
def button_thread_cycles (st : ButtonLocals) (pushbutton_flags : Nat) :
    List ButtonEnv → List ButtonStep
  | [] => []
  | env :: rest =>
    let s := button_thread_cycle st pushbutton_flags env
    s :: button_thread_cycles s.locals s.pushbutton_flags rest

/-- The calls one pass of the dispatch of `led_thread` makes. -/
inductive LedCall where
  | clear (flags : Nat)
  | do_led_on
  | do_led_off
  | do_led_fade
  | do_led_flash
deriving Repr, DecidableEq

/-- The `if`/`else if` chain of `led_thread` on the flag word it reads: the new flag word and
the calls made, in order (`clear m` is `osEventFlagsClear(led_action_flags, m)`). The routines
read `led_action_flags` at most; they leave the flag word alone. -/
def led_thread_dispatch (led_action_flags : Nat) : Nat × List LedCall :=
  if osEventFlagsGet led_action_flags &&& BIT_LED_FLASH ≠ 0 then
    (osEventFlagsClear led_action_flags BIT_LED_FLASH,
      [LedCall.do_led_flash, LedCall.clear BIT_LED_FLASH])
  else if osEventFlagsGet led_action_flags &&& BIT_LED_FADE ≠ 0 then
    (osEventFlagsClear led_action_flags BIT_LED_FADE,
      [LedCall.clear BIT_LED_FADE, LedCall.do_led_fade])
  else if osEventFlagsGet led_action_flags &&& BIT_LED_ON ≠ 0 then
    (osEventFlagsClear led_action_flags BIT_LED_ON,
      [LedCall.do_led_on, LedCall.clear BIT_LED_ON])
  else if osEventFlagsGet led_action_flags &&& BIT_LED_OFF ≠ 0 then
    (osEventFlagsClear led_action_flags BIT_LED_OFF,
      [LedCall.do_led_off, LedCall.clear BIT_LED_OFF])
  else (led_action_flags, [])

/-- One iteration of the `while(1)` loop of `led_thread`: the wait for any command flag (without
clearing, without a bound), then the dispatch. `arrived` are the bits set by other tasks while
the LED task is blocked. The result is `none` while the wait has not returned: no command flag
is set and none arrives. -/
def led_thread_step (led_action_flags arrived : Nat) : Option (Nat × List LedCall) :=
  let w := osEventFlagsWait led_action_flags BIT_LED_ALL true osWaitForever arrived
  if w.2 = osFlagsErrorTimeout then none
  else some (led_thread_dispatch w.1)

def PWM_PERIOD : Nat := 999
def BLINK_PERIOD : Nat := 333333
def COUNT_STEP : Nat := 25
def FADE_DELAY : Nat := 10

/-- The variables the loop of `do_led_fade` works on: the compare register `htim5.Instance->CCR1`
(32 bits) and the local `int count_amount`. -/
structure FadeState where
  ccr1 : Nat
  count_amount : Int
deriving Repr, DecidableEq

/-- The state in which `do_led_fade` enters its loop: it has written 0 to the compare register;
`count_amount` is not initialised. -/
def do_led_fade_entry (count_amount : Int) : FadeState :=
  { ccr1 := 0, count_amount := count_amount }

/-- The body of the loop of `do_led_fade` up to the delay: the choice of the direction and
`htim5.Instance->CCR1 += count_amount;` in 32-bit unsigned arithmetic. -/
def do_led_fade_step (st : FadeState) : FadeState :=
  let count_amount : Int :=
    if st.ccr1 > 1000 then -(COUNT_STEP : Int)
    else if st.ccr1 < COUNT_STEP then (COUNT_STEP : Int)
    else st.count_amount
  { ccr1 := (((st.ccr1 : Int) + count_amount) % 2 ^ 32).toNat
    count_amount := count_amount }

/-- The loop of `do_led_fade` from state `st`, with the flag words that
`osEventFlagsGet(led_action_flags)` returns at the end of the successive passes: the compare
values after each step performed, and whether the loop has exited (`false` when the listed flag
words are used up and all were 0: the loop is still running). -/
def do_led_fade_loop (st : FadeState) : List Nat → List Nat × Bool
  | [] => ([], false)
  | flags :: rest =>
    let st1 := do_led_fade_step st
    if osEventFlagsGet flags ≠ 0 then ([st1.ccr1], true)
    else
      let r := do_led_fade_loop st1 rest
      (st1.ccr1 :: r.1, r.2)

/-- The function `do_led_fade`: the timer is set back to PWM mode with compare value 0, then
the loop runs. -/
def do_led_fade (count_amount : Int) (flags_read : List Nat) : List Nat × Bool :=
  do_led_fade_loop (do_led_fade_entry count_amount) flags_read

/-! ## state_machine.h (USB VCP Test): the power orchestrator -/

/-- The calls the orchestrator makes into other modules and the hardware, in the order made. -/
inductive Action where
  | pushbutton_init
  | monitor_init
  | buzzer_init
  | pushbutton_led_fade
  | pushbutton_led_on
  | pushbutton_led_off
  | pushbutton_led_flash
  | wait_long_pressed
  | fet_drv_write (pin_set : Bool)
  | monitor_start
  | bargraph_init
  | buzz_done_init
  | buzz_warn_critical
  | buzz_warn_low
  | buzz_shutdown
  | clear_button_flags
  | bargraph_draw_soc
  | osDelay (ticks : Nat)
  | HAL_DeInit
  | halt
deriving Repr, DecidableEq

/-- The function `shutdown`: LED off, shutdown buzz, FET_DRV written RESET, a delay of 1000
ticks, HAL_DeInit, and the final `while(true);`. It never returns. -/
def shutdown : List Action :=
  [Action.pushbutton_led_off, Action.buzz_shutdown, Action.fet_drv_write false,
   Action.osDelay 1000, Action.HAL_DeInit, Action.halt]

/-- The variables the poll loop of `doStateMachine` works on: the two flag words it reads through
the accessors and its locals `shutdown_tick` and `shutdown_latched`. -/
structure PollState where
  pb_flags : Nat
  monitor_util_flags : Nat
  shutdown_tick : Nat
  shutdown_latched : Bool
deriving Repr, DecidableEq

/-- What the rest of the system does around one iteration of the poll loop: the flag bits the
button task and the monitor task have set since the previous iteration, and the values
`HAL_GetTick()` returns at its three call sites. -/
structure PollEnv where
  pb_arrived : Nat
  monitor_arrived : Nat
  tick_crit : Nat
  tick_fail : Nat
  tick_deadline : Nat
deriving Repr, DecidableEq

/-- The outcome of a piece of `doStateMachine`: the calls made, and the state in which the poll
loop goes on, or `none` when the piece ended in `shutdown` (or blocked for ever). -/
structure Outcome where
  trace : List Action
  next : Option PollState
deriving Repr, DecidableEq

/-- The fault handling of one iteration of the poll loop, from `if(monitor_soc_crit(true) &&
!shutdown_latched)` to `if(monitor_soc_low(true)) buzz_warn_low();`: the calls made, the new flag
word of the monitor and the new values of `shutdown_tick` and `shutdown_latched`. -/
def poll_faults (monitor_util_flags shutdown_tick : Nat) (shutdown_latched : Bool)
    (tick_crit tick_fail : Nat) : List Action × Nat × Nat × Bool :=
  let crit := monitor_soc_crit monitor_util_flags true
  let c : List Action × Nat × Bool :=
    if crit.1 && !shutdown_latched then
      ([Action.buzz_warn_critical], (tick_crit % 2 ^ 32 + 10000) % 2 ^ 32, true)
    else ([], shutdown_tick, shutdown_latched)
  let fail := monitor_read_fail crit.2 true
  let f : List Action × Nat × Bool :=
    if fail.1 && !c.2.2 then
      (c.1 ++ [Action.buzz_warn_critical], (tick_fail % 2 ^ 32 + 10000) % 2 ^ 32, true)
    else c
  let low := monitor_soc_low fail.2 true
  let tr := if low.1 then f.1 ++ [Action.buzz_warn_low] else f.1
  (tr, low.2, f.2.1, f.2.2)

/-- One iteration of the `while(1)` loop of `doStateMachine`. -/
def poll_iteration (s : PollState) (env : PollEnv) : Outcome :=
  let pb := osEventFlagsSet s.pb_flags env.pb_arrived
  let mon := osEventFlagsSet s.monitor_util_flags env.monitor_arrived
  let bumped := pushbutton_bumped pb true
  let tr : List Action := if bumped.1 then [Action.bargraph_draw_soc] else []
  let short := pushbutton_short_pressed bumped.2 true
  let tr := if short.1 then tr ++ [Action.pushbutton_led_flash] else tr
  let long := pushbutton_long_pressed short.2 true
  if long.1 then { trace := tr ++ shutdown, next := none }
  else
    let released := pushbutton_released long.2 true
    let tr := if released.1 then tr ++ [Action.pushbutton_led_on] else tr
    let f := poll_faults mon s.shutdown_tick s.shutdown_latched env.tick_crit env.tick_fail
    let tr := tr ++ f.1
    if env.tick_deadline % 2 ^ 32 > f.2.2.1 then { trace := tr ++ shutdown, next := none }
    else
      { trace := tr
        next := some { pb_flags := released.2
                       monitor_util_flags := f.2.1
                       shutdown_tick := f.2.2.1
                       shutdown_latched := f.2.2.2 } }

/-- The poll loop of `doStateMachine` over a finite prefix of its iterations, one `PollEnv`
each; it stops at the iteration that ends in `shutdown`. -/
def poll_loop (s : PollState) : List PollEnv → Outcome
  | [] => { trace := [], next := some s }
  | env :: rest =>
    let o := poll_iteration s env
    match o.next with
    | none => o
    | some s1 =>
      let o1 := poll_loop s1 rest
      { trace := o.trace ++ o1.trace, next := o1.next }

/-- The function `doStateMachine` up to its poll loop. `pb_arrived` are the button flags the
button task sets while the orchestrator waits (without timeout) for BUTTON_LONG_PRESSED, and
`env` is what happens during the acquisition of `v_sys_check`. -/
def doStateMachine_start (pb_arrived : Nat) (env : AdcEnv) : Outcome :=
  let pb_flags : Nat := 0
  let mon := monitor_init
  let tr := [Action.pushbutton_init, Action.monitor_init, Action.buzzer_init,
             Action.pushbutton_led_fade, Action.wait_long_pressed]
  let w := osEventFlagsWait pb_flags BUTTON_LONG_PRESSED false 0xFFFFFFFF pb_arrived
  if w.2 = osFlagsErrorTimeout then { trace := tr, next := none }
  else
    let chk := v_sys_check 20 mon.monitor_util_flags env
    if !chk.1 then { trace := tr ++ shutdown, next := none }
    else
      { trace := tr ++ [Action.fet_drv_write true, Action.monitor_start, Action.bargraph_init,
                        Action.buzz_done_init, Action.pushbutton_led_on,
                        Action.clear_button_flags]
        next := some { pb_flags := osEventFlagsClear w.1 BUTTON_FLAGS_ALL
                       monitor_util_flags := chk.2
                       shutdown_tick := 0xFFFFFFFF
                       shutdown_latched := false } }

/-- The function `doStateMachine`: its start followed by a finite prefix of its poll loop. -/
def doStateMachine (pb_arrived : Nat) (env : AdcEnv) (polls : List PollEnv) : Outcome :=
  let o := doStateMachine_start pb_arrived env
  match o.next with
  | none => o
  | some s =>
    let o1 := poll_loop s polls
    { trace := o.trace ++ o1.trace, next := o1.next }

/-! ## Reference quantities of the stated properties -/

/-- The averaged voltage of a sample array over exact arithmetic:
(sum of the 16 samples) * 0.00887937 / 16. -/
def avg_voltage (samples : AdcBuffer) : ℚ :=
  ((∑ i, (samples i).val : Nat) : ℚ) * (887937 / 100000000) / 16

/-- A monitor cycle is successful when its acquisition status has bit 31 clear and the averaged
voltage lies strictly inside (10, 35); otherwise it is a failed cycle. `flags` is the flag word
at the start of the cycle. -/
def cycle_succeeds (flags : Nat) (env : AdcEnv) : Prop :=
  Nat.testBit (do_adc_dma flags ADC_READ_TIMEOUT env).2 31 = false
    ∧ 10 < avg_voltage env.samples ∧ avg_voltage env.samples < 35

instance (flags : Nat) (env : AdcEnv) : Decidable (cycle_succeeds flags env) := by
  unfold cycle_succeeds; infer_instance

/-- Every cycle of the run of the monitor from `st`, `sh` over `envs` is a failed cycle. -/
def all_cycles_fail (st : MonitorLocals) (sh : MonitorShared) : List AdcEnv → Prop
  | [] => True
  | env :: rest =>
    ¬ cycle_succeeds sh.monitor_util_flags env
      ∧ all_cycles_fail (run_monitor_cycle st sh env).1 (run_monitor_cycle st sh env).2 rest

/-- An acquisition in which the ADC is free but the DMA transfer never completes (a timeout). -/
def adc_timeout_env : AdcEnv :=
  { start_tick := 0, ready_released := false, locked_tick := 0, dma_complete := false,
    samples := fun _ => ⟨0, by decide⟩ }

instance all_cycles_fail_decidable :
    (st : MonitorLocals) → (sh : MonitorShared) → (envs : List AdcEnv) →
      Decidable (all_cycles_fail st sh envs)
  | _, _, [] => isTrue trivial
  | st, sh, env :: rest =>
    @instDecidableAnd _ _ _
      (all_cycles_fail_decidable (run_monitor_cycle st sh env).1 (run_monitor_cycle st sh env).2
        rest)

/-- An acquisition that completes with sixteen samples of 2478, an averaged voltage of about
22.0 V. -/
def adc_22v_env : AdcEnv :=
  { start_tick := 0, ready_released := false, locked_tick := 0, dma_complete := true,
    samples := fun _ => ⟨2478, by decide⟩ }

/-- The poll state right after power-up with SOC_CRITICAL set by the monitor: no deadline armed
(`shutdown_tick` is 0xFFFFFFFF). -/
def poll_state_crit : PollState :=
  { pb_flags := 0, monitor_util_flags := SOC_CRIT_FLAG, shutdown_tick := 0xFFFFFFFF,
    shutdown_latched := false }

/-- A poll state whose deadline was armed at tick 5000. -/
def poll_state_armed : PollState :=
  { pb_flags := 0, monitor_util_flags := 0, shutdown_tick := 15000, shutdown_latched := true }

/-- An iteration of the poll loop in which the tick counter reads `t` at every call site, the
button task has set nothing and the monitor task has set the bits `monitor_arrived`. -/
def poll_env_at (t monitor_arrived : Nat) : PollEnv :=
  { pb_arrived := 0, monitor_arrived := monitor_arrived, tick_crit := t, tick_fail := t,
    tick_deadline := t }

/-- An acquisition that completes with sixteen samples of 1689, an averaged voltage of about
15.0 V. -/
def adc_15v_env : AdcEnv :=
  { start_tick := 0, ready_released := false, locked_tick := 0, dma_complete := true,
    samples := fun _ => ⟨1689, by decide⟩ }

/-- The calls `doStateMachine` makes before it tests the voltage. -/
def start_calls : List Action :=
  [Action.pushbutton_init, Action.monitor_init, Action.buzzer_init, Action.pushbutton_led_fade,
   Action.wait_long_pressed]

/-- The read every consumer of a mailbox performs: test `osMessageQueueGetCount(q) > 0`, then
`osMessageQueueGet` with timeout 0. The result is the new queue and the value read, if any. -/
def consumer_read {α : Type} (q : MsgQueue α) (dst : α) : MsgQueue α × Option α :=
  if osMessageQueueGetCount q > 0 then
    let g := osMessageQueueGet q dst
    (g.1, if g.2.2 = osStatus_t.osOK then some g.2.1 else none)
  else (q, none)

/-- The values reported by `n` consecutive consumer reads with no write in between. -/
def consumer_reads {α : Type} (q : MsgQueue α) (dst : α) : Nat → List (Option α)
  | 0 => []
  | n + 1 => (consumer_read q dst).2 :: consumer_reads (consumer_read q dst).1 dst n

/-- The frames of an animation as the specification describes them, for a level `L` with
`h = L div 2`: for `L = 0` ten repetitions of (1, 75), (0, 75); otherwise the build-up frames
(2^(i+1) - 1, 50) for i = 0..h-1, then for odd `L` the frame (2^(h+1) - 1, 4000) and for even `L`
eight frames of 500 ticks that toggle bit `h`, starting with it set. -/
def frames_reference (L : Nat) : List (Nat × Nat) :=
  if L = 0 then (List.replicate 10 [(1, 75), (0, 75)]).flatten
  else
    (List.range (L / 2)).map (fun i => (2 ^ (i + 1) - 1, 50))
      ++ (if L % 2 = 1 then [(2 ^ (L / 2 + 1) - 1, 4000)]
          else (List.range 8).map
            (fun j => (if j % 2 = 0 then 2 ^ (L / 2 + 1) - 1 else 2 ^ (L / 2) - 1, 500)))

/-- The bound `dma_timeout = (timeout + start_tick) - HAL_GetTick()` that `do_adc_dma` passes to
its wait for DMA completion, in 32-bit unsigned arithmetic. -/
def dma_wait_bound (timeout : Nat) (env : AdcEnv) : Nat :=
  ((timeout + env.start_tick % 2 ^ 32) % 2 ^ 32 + 2 ^ 32 - env.locked_tick % 2 ^ 32) % 2 ^ 32

/-- The first wait of `do_adc_dma` succeeds, that is, the routine obtains the ADC: ADC_READY is
set on entry, or the wait can block (its timeout is not 0) and the other user of the ADC sets
ADC_READY while it does. -/
def adc_obtained (flags timeout : Nat) (env : AdcEnv) : Bool :=
  flags.testBit 1 || (decide (timeout ≠ 0) && env.ready_released)

/-- The wait of `do_adc_dma` for DMA completion succeeds: it can block (its bound is not 0) and
the conversion-complete interrupt arrives while it does. -/
def dma_completed (timeout : Nat) (env : AdcEnv) : Bool :=
  decide (dma_wait_bound timeout env ≠ 0) && env.dma_complete

/-- The flag word a wait sees at the moment it is decided: the word on entry, with the bits that
arrive while the caller is blocked when the wait can block (its timeout is not 0). -/
def flags_seen (ef timeout arrived : Nat) : Nat :=
  if timeout = 0 then ef else ef ||| arrived

/-- The averaged voltages of the successful (accepted) cycles of the run of the monitor from
`st`, `sh` over `envs`, oldest first. -/
def accepted_voltages (st : MonitorLocals) (sh : MonitorShared) : List AdcEnv → List ℚ
  | [] => []
  | env :: rest =>
    if cycle_succeeds sh.monitor_util_flags env then
      avg_voltage env.samples
        :: accepted_voltages (run_monitor_cycle st sh env).1 (run_monitor_cycle st sh env).2 rest
    else accepted_voltages (run_monitor_cycle st sh env).1 (run_monitor_cycle st sh env).2 rest

/-- The moving-average voltage the specification describes after the accepted voltages
`accepted` (oldest first): (sum of the last min(k,256) accepted voltages
+ (256 - min(k,256)) * 27) / 256, with k the number of accepted voltages. -/
def mav_reference (accepted : List ℚ) : ℚ :=
  ((accepted.reverse.take 256).sum + ((256 - min accepted.length 256 : ℕ) : ℚ) * 27) / 256

/-- An acquisition that completes with sixteen samples of 0, an averaged voltage of 0 V, which
is outside the sanity band. -/
def adc_0v_env : AdcEnv :=
  { start_tick := 0, ready_released := false, locked_tick := 0, dma_complete := true,
    samples := fun _ => ⟨0, by decide⟩ }

/-- The state of the monitor after 255 consecutive ADC timeouts from start-up. -/
@[irreducible]
def after_255_timeouts : MonitorLocals × MonitorShared :=
  run_monitor_cycles run_monitor_entry monitor_init (List.replicate 255 adc_timeout_env)

/-- What the consumer of the fault flags does between two monitor cycles: which of the three
accessors it calls with `clear_flag = true`. -/
structure ConsumerAct where
  read_crit : Bool
  read_fail : Bool
  read_low : Bool
deriving Repr, DecidableEq

/-- The flag word after the consumer's accessor calls, made in the order of the orchestrator's
poll loop: `monitor_soc_crit`, `monitor_read_fail`, `monitor_soc_low`. -/
def consume (flags : Nat) (c : ConsumerAct) : Nat :=
  let f1 := if c.read_crit then (monitor_soc_crit flags true).2 else flags
  let f2 := if c.read_fail then (monitor_read_fail f1 true).2 else f1
  if c.read_low then (monitor_soc_low f2 true).2 else f2

/-- The monitor cycle sets flag bit `k`: started with bit `k` cleared, the cycle ends with bit
`k` set. -/
def cycle_sets (k : Nat) (st : MonitorLocals) (sh : MonitorShared) (env : AdcEnv) : Prop :=
  (run_monitor_cycle st
      { sh with monitor_util_flags := osEventFlagsClear sh.monitor_util_flags (1 <<< k) }
      env).2.monitor_util_flags.testBit k = true

instance (k : Nat) (st : MonitorLocals) (sh : MonitorShared) (env : AdcEnv) :
    Decidable (cycle_sets k st sh env) := by
  unfold cycle_sets; infer_instance

/-- The number of cycles that set SOC_LOW in a run of the monitor in which the consumer acts
before each cycle. -/
def low_set_count (st : MonitorLocals) (sh : MonitorShared) :
    List (ConsumerAct × AdcEnv) → Nat
  | [] => 0
  | step :: rest =>
    (if cycle_sets 2 st
        { sh with monitor_util_flags := consume sh.monitor_util_flags step.1 } step.2
      then 1 else 0)
    + low_set_count
        (run_monitor_cycle st
          { sh with monitor_util_flags := consume sh.monitor_util_flags step.1 } step.2).1
        (run_monitor_cycle st
          { sh with monitor_util_flags := consume sh.monitor_util_flags step.1 } step.2).2
        rest

/-- The locals of `run_monitor` at loop entry, but with `soc_low_asserted` already true: the
monitor has asserted SOC_LOW before. -/
def entry_low_asserted : MonitorLocals :=
  { run_monitor_entry with soc_low_asserted := true }

/-- The consumer reads and clears all three fault flags. -/
def consume_all : ConsumerAct := { read_crit := true, read_fail := true, read_low := true }

/-- The state of the monitor after `n` cycles from start-up, each with a completed acquisition
of sixteen samples of 2478 (about 22.0 V). -/
@[irreducible]
def after_22v_cycles (n : Nat) : MonitorLocals × MonitorShared :=
  run_monitor_cycles run_monitor_entry monitor_init (List.replicate n adc_22v_env)

/-- The width one iteration of the light supervisor takes from its mailbox: the oldest queued
width, and 0 when the mailbox is empty. -/
def width_found (pulse_buf : MsgQueue Nat) : Nat :=
  match pulse_buf.msgs with
  | [] => 0
  | w :: _ => w

/-- The debounce buffer after the width found in the mailbox has been stored in the slot the
buffer pointer names. -/
def stored_widths (st : SupervisorLocals) (pulse_buf : MsgQueue Nat) :
    Fin DEBOUNCER_SAMPLES → Fin 65536 :=
  Function.update st.p_widths st.buf_pointer
    ⟨width_found pulse_buf % 65536, Nat.mod_lt _ (by decide)⟩

/-- The debounced average: the integer mean of the five slots of the debounce buffer. -/
def debounced_average (p_widths : Fin DEBOUNCER_SAMPLES → Fin 65536) : Nat :=
  (∑ i, (p_widths i).val) / 5

/-- The debounced average of the supervisor cycle that starts in `st` and finds `pulse_buf`. -/
def cycle_average (st : SupervisorLocals) (pulse_buf : MsgQueue Nat) : Nat :=
  debounced_average (stored_widths st pulse_buf)

/-- What a supervisor cycle finds when the last pulse measured by the edge interrupt had width
`w` and no pattern flag is pending. -/
def pulse_env (w : Nat) : SupervisorEnv :=
  { pulse_buf := HAL_GPIO_EXTI_Callback_falling (osMessageQueueNew Nat 1) w, flash_flags := 0 }

/-- The supervisor steps of Scenario C: widths 0, 0, 0, 1800, 1800, 1800, 1800, 1800 from the
state in which the supervisor enters its loop. -/
def scenario_c_steps : List SupervisorStep :=
  run_lights_supervisor_cycles run_lights_supervisor_entry
    ([0, 0, 0, 1800, 1800, 1800, 1800, 1800].map pulse_env)

/-- The debounced averages of a sequence of supervisor steps. -/
def step_averages (steps : List SupervisorStep) : List Nat :=
  steps.map (fun s => s.locals.filt_p_width)

/-- The maximal runs of consecutive supervisor steps whose debounced average is 0: the losses
of signal. -/
def loss_runs (steps : List SupervisorStep) : List (List SupervisorStep) :=
  (steps.splitBy (fun s t =>
      decide (s.locals.filt_p_width = 0) == decide (t.locals.filt_p_width = 0))).filter
    (fun run => run.all (fun s => decide (s.locals.filt_p_width = 0)))

/-- The number of steps of a run in which LIGHTS_OFF is asserted. -/
def lights_off_count (run : List SupervisorStep) : Nat :=
  run.countP (fun s => decide (LIGHTS_OFF ∈ s.set_calls))

/-- The number of steps in which the pattern index is incremented. -/
def increment_count (steps : List SupervisorStep) : Nat :=
  steps.countP (fun s => decide (s.branch = SupervisorBranch.next_pattern))

/-- The debounced averages of the steps in which the pattern index is incremented, in order. -/
def increment_averages (steps : List SupervisorStep) : List Nat :=
  (steps.filter (fun s => decide (s.branch = SupervisorBranch.next_pattern))).map
    (fun s => s.locals.filt_p_width)

/-- The supervisor locals after a sequence of cycles that starts in `st`. -/
def supervisor_locals_after (st : SupervisorLocals) : List SupervisorEnv → SupervisorLocals
  | [] => st
  | env :: rest =>
    supervisor_locals_after
      (run_lights_supervisor_cycle st env.pulse_buf env.flash_flags).locals rest

/-- A signal that is lost, returns at a width of 1000 for five cycles, is lost again for six
cycles and returns. -/
def signal_lost_twice : List SupervisorEnv :=
  [0, 1000, 1000, 1000, 1000, 1000, 0, 0, 0, 0, 0, 0, 1000].map pulse_env

/-- The supervisor locals after five pulses of width 1650 from the entry state: the debounced
average is 1650 and the polarity is rising. -/
def hovering_start : SupervisorLocals :=
  supervisor_locals_after run_lights_supervisor_entry
    ([1650, 1650, 1650, 1650, 1650].map pulse_env)

/-- A pulse that hovers around the upper threshold of 1700. -/
def hovering_pulses : List SupervisorEnv :=
  [1750, 1800, 1800, 1800, 1800, 1650, 1650, 1650, 1650, 1650, 1800, 1800, 1800].map pulse_env

/-- The routine of `run_board_lights` that belongs to pattern bit `k` (LIGHTS_OFF,
TAILLIGHT_ONLY, TAIL_SOLID_HEAD, TAIL_AND_HEAD for k = 0, 1, 2, 3). -/
def lights_routine (k : Nat) : LightsCall :=
  match k with
  | 0 => LightsCall.do_lights_out
  | 1 => LightsCall.do_taillight_only
  | 2 => LightsCall.do_tail_solid_head
  | _ => LightsCall.do_tail_and_head

/-- The routine of `led_thread` that belongs to command bit `k` (BIT_LED_ON, BIT_LED_OFF,
BIT_LED_FADE, BIT_LED_FLASH for k = 0, 1, 2, 3). -/
def led_routine (k : Nat) : LedCall :=
  match k with
  | 0 => LedCall.do_led_on
  | 1 => LedCall.do_led_off
  | 2 => LedCall.do_led_fade
  | _ => LedCall.do_led_flash

/-- The place of command bit `k` in the priority order flash > fade > on > off of the LED
commands; 0 is the highest priority. -/
def led_rank (k : Nat) : Nat :=
  match k with
  | 3 => 0
  | 2 => 1
  | 0 => 2
  | _ => 3

/-- The routines among the calls of one dispatch of `led_thread`. -/
def led_routines_run (calls : List LedCall) : List LedCall :=
  calls.filter (fun c => match c with
    | LedCall.clear _ => false
    | _ => true)

/-- The flag masks cleared by the calls of one dispatch of `led_thread`. -/
def led_masks_cleared (calls : List LedCall) : List Nat :=
  calls.filterMap (fun c => match c with
    | LedCall.clear m => some m
    | _ => none)

/-- What a button-task cycle reads when it samples `level` and every call of `HAL_GetTick()`
in the cycle returns `t`. -/
def at_tick (level : Bool) (t : Nat) : ButtonEnv :=
  { current_button_state := level
    tick_at_push := t
    tick_at_short := t
    tick_at_long := t
    tick_at_release := t }

/-- Marks the first element of a list that satisfies `p`, and no other element. -/
def first_marks {α : Type} (p : α → Bool) : List α → List Bool
  | [] => []
  | x :: xs => if p x then true :: xs.map (fun _ => false) else false :: first_marks p xs

/-- The calls of `osEventFlagsSet` of a pressed cycle in which SHORT_PRESSED is set (`s`) and
LONG_PRESSED is set (`l`). -/
def press_calls (s l : Bool) : List Nat :=
  (if s then [BUTTON_SHORT_PRESSED] else []) ++ (if l then [BUTTON_LONG_PRESSED] else [])

/-- The number of steps in which the flag with mask `m` is set. -/
def set_count (m : Nat) (steps : List ButtonStep) : Nat :=
  steps.countP (fun s => decide (m ∈ s.set_calls))

/-- No cycle of a sequence of sampled levels is a stable pressed cycle: no sample is pressed
with the sample before it pressed, `last` being the sample before the first. -/
def no_stable_press (last : Bool) : List Bool → Prop
  | [] => True
  | l :: rest => ¬ (l = true ∧ last = true) ∧ no_stable_press l rest

/-- The classifier state of a released button: the last sample was released, no press is
remembered, both latches are clear. -/
def button_released_state : ButtonLocals :=
  { last_state := false
    last_button := false
    short_press := false
    long_press := false
    push_time := 0 }

/-- The cycles of a button that is pressed from tick `from_tick` for `held` ticks and then
released, sampled every 25 ticks (`BUTTON_BOUNCE_TIME`): pressed samples at `from_tick`,
`from_tick + 25`, ..., `from_tick + held`, then two released samples. -/
def press_of (from_tick held : Nat) : List ButtonEnv :=
  (List.range (held / 25 + 1)).map (fun i => at_tick true (from_tick + 25 * i))
    ++ [at_tick false (from_tick + 25 * (held / 25 + 1)),
        at_tick false (from_tick + 25 * (held / 25 + 2))]

/-- The cycles of a run in which a flag is set: the tick of the cycle and the masks set. -/
def flag_events (envs : List ButtonEnv) (steps : List ButtonStep) : List (Nat × List Nat) :=
  ((envs.zip steps).filter (fun p => decide (p.2.set_calls ≠ []))).map
    (fun p => (p.1.tick_at_release, p.2.set_calls))

/-- The classifier locals and the flag word after a sequence of button-task cycles. -/
def button_state_after (st : ButtonLocals) (pushbutton_flags : Nat) :
    List ButtonEnv → ButtonLocals × Nat
  | [] => (st, pushbutton_flags)
  | env :: rest =>
    button_state_after (button_thread_cycle st pushbutton_flags env).locals
      (button_thread_cycle st pushbutton_flags env).pushbutton_flags rest

/-- The classifier state while the button is held: the last sample was pressed, the press is
remembered with its timestamp, and the latches are `sp` and `lp`. -/
def button_held_state (sp lp : Bool) (p : Nat) : ButtonLocals :=
  { last_state := true
    last_button := true
    short_press := sp
    long_press := lp
    push_time := p }

/-- The mask of the i-th half-cycle counted from a drawer state with the given `polarity`:
0x2AA and 0x155 in alternation, 0x2AA first when the polarity is `false`. -/
def half_cycle_mask (polarity : Bool) (i : Nat) : Nat :=
  if (i % 2 = 0 ↔ polarity = false) then 0x2AA else 0x155

/-- The latch accessors of batt_monitor.c and pushbutton.c, each with the number of the flag
bit it reads. -/
def latch_accessors : List ((Nat → Bool → Bool × Nat) × Nat) :=
  [(monitor_soc_low, 2), (monitor_soc_crit, 3), (monitor_read_fail, 4),
   (pushbutton_released, 0), (pushbutton_bumped, 1), (pushbutton_short_pressed, 2),
   (pushbutton_long_pressed, 3)]

/-- The triangle wave of the fade: the compare value after `n` steps from 0. It rises by 25 per
step to 1025 (41 steps), falls by 25 per step to 0 (41 steps), and repeats. -/
def fade_wave (n : Nat) : Nat :=
  if n % 82 ≤ 41 then 25 * (n % 82) else 25 * (82 - n % 82)

/-- The number of steps the fade loop performs when the flag words it reads after its
successive steps are `flags_read`: one more than the number of leading zero words, or all of
them when every word read is 0. -/
def fade_steps (flags_read : List Nat) : Nat :=
  min ((flags_read.takeWhile (fun f => decide (f = 0))).length + 1) flags_read.length

/-- A poll state with no deadline armed and no fault flag set (ADC_READY is set). -/
def poll_state_unarmed : PollState :=
  { pb_flags := 0, monitor_util_flags := 2, shutdown_tick := 0xFFFFFFFF,
    shutdown_latched := false }

/-- Two iterations of the poll loop without a fault and without a long press: the button task
sets RELEASED and BUMPED, the monitor sets SOC_LOW, and the tick counter reads its largest
value. -/
def polls_without_fault : List PollEnv :=
  [{ pb_arrived := 3, monitor_arrived := 4, tick_crit := 0, tick_fail := 0,
     tick_deadline := 0xFFFFFFFF },
   poll_env_at 0xFFFFFFFF 0]

/-- An acquisition during which the tick counter wraps: the call starts at tick 0xFFFFFFF0 and
has the ADC at tick 0x10, 32 ticks later. -/
def adc_wrap_env : AdcEnv :=
  { start_tick := 0xFFFFFFF0, ready_released := true, locked_tick := 0x10,
    dma_complete := false, samples := fun _ => ⟨0, by decide⟩ }

/-- The voltage that `v_sys_check` holds in its `float v_sys` when the 16 samples add up to
`adc_sum`: the product with the `double` constant and the quotient by 16 are rounded to
`double`, the assignment rounds to `float`. -/
def v_sys_float (adc_sum : Nat) : ℚ :=
  to_float
    (to_double (to_double ((adc_sum : ℚ) * to_double DIVIDER_RATIO) / (ADC_OVERSAMPLES : ℚ)))

/-! ## Auxiliary lemmas -/

theorem and_bit_ne_zero_iff (x k : Nat) : x &&& (1 <<< k) ≠ 0 ↔ x.testBit k = true := by
  rw [Nat.one_shiftLeft, Nat.and_two_pow]
  cases h : x.testBit k <;> simp

theorem and_bit_eq_zero_iff (x k : Nat) : x &&& (1 <<< k) = 0 ↔ x.testBit k = false := by
  rw [Nat.one_shiftLeft, Nat.and_two_pow]
  cases h : x.testBit k <;> simp

theorem adc_sum_fold (adc_results : AdcBuffer) (l : List (Fin ADC_OVERSAMPLES)) (acc : Nat)
    (h : acc + l.length * 65535 < 2 ^ 32) :
    l.foldl (fun adc_sum i => (adc_sum + (adc_results i).val) % 2 ^ 32) acc
      = acc + (l.map (fun i => (adc_results i).val)).sum := by
  induction l generalizing acc with
  | nil => simp
  | cons a t ih =>
    have ha : (adc_results a).val ≤ 65535 := by have := (adc_results a).isLt; omega
    simp only [List.length_cons] at h
    have hlt : acc + (adc_results a).val < 2 ^ 32 := by nlinarith
    simp only [List.foldl_cons, List.map_cons, List.sum_cons]
    rw [Nat.mod_eq_of_lt hlt, ih _ (by nlinarith)]
    omega

theorem adc_sum_loop_eq (adc_results : AdcBuffer) :
    adc_sum_loop adc_results = ∑ i, (adc_results i).val := by
  unfold adc_sum_loop
  rw [adc_sum_fold adc_results _ 0 (by rw [List.length_finRange]; decide), Fin.sum_univ_def]
  simp

/-! ## Floating point: rounding to nearest -/

theorem round_half_even_floor_le (x : ℚ) : ⌊x⌋ ≤ round_half_even x := by
  unfold round_half_even
  split_ifs <;> omega

theorem round_half_even_le_floor (x : ℚ) : round_half_even x ≤ ⌊x⌋ + 1 := by
  unfold round_half_even
  split_ifs <;> omega

theorem round_half_even_lower (x : ℚ) : x - 1 / 2 ≤ round_half_even x := by
  have h1 := Int.floor_le x
  have h2 := Int.lt_floor_add_one x
  unfold round_half_even
  split_ifs <;> push_cast <;> linarith

theorem round_half_even_upper (x : ℚ) : (round_half_even x : ℚ) ≤ x + 1 / 2 := by
  have h1 := Int.floor_le x
  have h2 := Int.lt_floor_add_one x
  unfold round_half_even
  split_ifs <;> push_cast <;> linarith

theorem round_half_even_intCast (n : ℤ) : round_half_even (n : ℚ) = n := by
  unfold round_half_even
  rw [Int.floor_intCast, sub_self, if_pos (by norm_num)]

theorem round_half_even_mono {x y : ℚ} (h : x ≤ y) : round_half_even x ≤ round_half_even y := by
  have hf : ⌊x⌋ ≤ ⌊y⌋ := Int.floor_mono h
  rcases lt_or_eq_of_le hf with hlt | heq
  · have h1 := round_half_even_le_floor x
    have h2 := round_half_even_floor_le y
    omega
  · unfold round_half_even
    rw [← heq]
    split_ifs <;> first | omega | (exfalso; linarith)

theorem round_half_even_neg (x : ℚ) : round_half_even (-x) = -round_half_even x := by
  have h1 := Int.floor_le x
  have h2 := Int.lt_floor_add_one x
  by_cases hx : (⌊x⌋ : ℚ) = x
  · rw [← hx, ← Int.cast_neg, round_half_even_intCast, round_half_even_intCast]
  · have hlt : (⌊x⌋ : ℚ) < x := lt_of_le_of_ne h1 hx
    have hf : ⌊-x⌋ = -⌊x⌋ - 1 := by
      rw [Int.floor_eq_iff]
      push_cast
      constructor <;> linarith
    unfold round_half_even
    rw [hf]
    push_cast
    split_ifs <;> first | omega | (exfalso; linarith)

theorem round_half_even_eq_of_lt (x : ℚ) (n : ℤ) (h1 : (n : ℚ) - 1 / 2 < x)
    (h2 : x < n + 1 / 2) : round_half_even x = n := by
  have l := round_half_even_lower x
  have u := round_half_even_upper x
  have a : (n : ℚ) - 1 < round_half_even x := by linarith
  have b : (round_half_even x : ℚ) < n + 1 := by linarith
  have a' : n - 1 < round_half_even x := by exact_mod_cast a
  have b' : round_half_even x < n + 1 := by exact_mod_cast b
  omega

theorem grid_round_mono {q : ℚ} (hq : 0 < q) {x y : ℚ} (h : x ≤ y) :
    (round_half_even (x / q) : ℚ) * q ≤ (round_half_even (y / q) : ℚ) * q := by
  have hm := round_half_even_mono (div_le_div_of_nonneg_right h hq.le)
  exact mul_le_mul_of_nonneg_right (by exact_mod_cast hm) hq.le

theorem grid_round_fix {q : ℚ} (hq : 0 < q) (n : ℤ) :
    (round_half_even ((n : ℚ) * q / q) : ℚ) * q = n * q := by
  rw [mul_div_assoc, div_self hq.ne', mul_one, round_half_even_intCast]

theorem int_log_two_eq {x : ℚ} {k : ℤ} (h1 : (2 : ℚ) ^ k ≤ x) (h2 : x < (2 : ℚ) ^ (k + 1)) :
    Int.log 2 x = k := by
  have hx : 0 < x := lt_of_lt_of_le (by positivity) h1
  have a : k ≤ Int.log 2 x := by
    rw [← Int.zpow_le_iff_le_log (by norm_num) hx]
    exact_mod_cast h1
  have b : Int.log 2 x < k + 1 := by
    rw [← Int.lt_zpow_iff_log_lt (by norm_num) hx]
    exact_mod_cast h2
  omega

theorem float_round_zero (p : ℕ) (emin : ℤ) : float_round p emin 0 = 0 := by
  unfold float_round
  simp only [zero_div]
  have h := round_half_even_intCast 0
  rw [Int.cast_zero] at h
  rw [h]
  simp

theorem float_round_neg (p : ℕ) (emin : ℤ) (x : ℚ) :
    float_round p emin (-x) = -float_round p emin x := by
  unfold float_round
  simp only [abs_neg, neg_div, round_half_even_neg]
  push_cast
  ring

theorem float_round_nonneg (p : ℕ) (emin : ℤ) {x : ℚ} (hx : 0 ≤ x) :
    0 ≤ float_round p emin x := by
  have h := grid_round_mono
    (show (0 : ℚ) < 2 ^ (max (Int.log 2 |x|) emin - ((p : ℤ) - 1)) by positivity) hx
  rw [zero_div] at h
  have h0 := round_half_even_intCast 0
  rw [Int.cast_zero] at h0
  rw [h0] at h
  simpa [float_round] using h

theorem float_round_mono_pos (p : ℕ) (emin : ℤ) (hp : 1 ≤ p) {x y : ℚ} (hx : 0 < x)
    (h : x ≤ y) : float_round p emin x ≤ float_round p emin y := by
  have hy : 0 < y := lt_of_lt_of_le hx h
  have hle : max (Int.log 2 x) emin ≤ max (Int.log 2 y) emin :=
    max_le_max (Int.log_mono_right hx h) le_rfl
  unfold float_round
  simp only [abs_of_pos hx, abs_of_pos hy]
  rcases eq_or_lt_of_le hle with heq | hlt
  · rw [heq]
    exact grid_round_mono (by positivity) h
  · have hey : max (Int.log 2 y) emin = Int.log 2 y := by
      rcases le_total (Int.log 2 y) emin with hc | hc
      · rw [max_eq_right hc] at hlt
        exact absurd hlt (not_lt.2 (le_max_right _ _))
      · exact max_eq_left hc
    generalize hex : max (Int.log 2 x) emin = ex at hlt hle
    rw [hey] at hlt ⊢
    generalize hey2 : Int.log 2 y = ey at hlt
    have hxl : Int.log 2 x ≤ ex := by rw [← hex]; exact le_max_left _ _
    have hB1 : x ≤ (2 : ℚ) ^ ey := by
      have h1 : x < ((2 : ℕ) : ℚ) ^ (Int.log 2 x + 1) := Int.lt_zpow_succ_log_self (by norm_num) x
      have h2 : ((2 : ℕ) : ℚ) ^ (Int.log 2 x + 1) ≤ (2 : ℚ) ^ ey := by
        rw [Nat.cast_ofNat]
        exact zpow_le_zpow_right₀ (by norm_num) (by omega)
      linarith
    have hB2 : (2 : ℚ) ^ ey ≤ y := by
      have h1 : ((2 : ℕ) : ℚ) ^ Int.log 2 y ≤ y := Int.zpow_log_le_self (by norm_num) hy
      rw [Nat.cast_ofNat, hey2] at h1
      exact h1
    have hpz : (1 : ℤ) ≤ (p : ℤ) := by exact_mod_cast hp
    have e1 : (2 : ℚ) ^ ey
        = ((2 ^ (ey - ex + ((p : ℤ) - 1)).toNat : ℤ) : ℚ) * 2 ^ (ex - ((p : ℤ) - 1)) := by
      have hn : (((ey - ex + ((p : ℤ) - 1)).toNat : ℕ) : ℤ) = ey - ex + ((p : ℤ) - 1) :=
        Int.toNat_of_nonneg (by omega)
      push_cast
      rw [← zpow_natCast, hn, ← zpow_add₀ (by norm_num)]
      congr 1
      ring
    have e2 : (2 : ℚ) ^ ey
        = ((2 ^ ((p : ℤ) - 1).toNat : ℤ) : ℚ) * 2 ^ (ey - ((p : ℤ) - 1)) := by
      have hn : ((((p : ℤ) - 1).toNat : ℕ) : ℤ) = (p : ℤ) - 1 :=
        Int.toNat_of_nonneg (by omega)
      push_cast
      rw [← zpow_natCast, hn, ← zpow_add₀ (by norm_num)]
      congr 1
      ring
    have g1 := grid_round_mono (show (0 : ℚ) < 2 ^ (ex - ((p : ℤ) - 1)) by positivity) hB1
    nth_rewrite 1 [e1] at g1
    rw [grid_round_fix (by positivity), ← e1] at g1
    have g2 := grid_round_mono (show (0 : ℚ) < 2 ^ (ey - ((p : ℤ) - 1)) by positivity) hB2
    nth_rewrite 1 [e2] at g2
    rw [grid_round_fix (by positivity), ← e2] at g2
    exact le_trans g1 g2

theorem float_round_mono (p : ℕ) (emin : ℤ) (hp : 1 ≤ p) {x y : ℚ} (h : x ≤ y) :
    float_round p emin x ≤ float_round p emin y := by
  rcases lt_trichotomy 0 x with hx | hx | hx
  · exact float_round_mono_pos p emin hp hx h
  · rw [← hx, float_round_zero]
    exact float_round_nonneg p emin (by rw [hx]; exact h)
  · have hxn : float_round p emin x ≤ 0 := by
      have := float_round_nonneg p emin (show 0 ≤ -x by linarith)
      rw [float_round_neg] at this
      linarith
    rcases le_or_lt 0 y with hy | hy
    · exact le_trans hxn (float_round_nonneg p emin hy)
    · have := float_round_mono_pos p emin hp (show 0 < -y by linarith) (show -y ≤ -x by linarith)
      rw [float_round_neg, float_round_neg] at this
      linarith

theorem float_round_eval (p : ℕ) (emin : ℤ) (x : ℚ) (k n : ℤ) (hk : emin ≤ k)
    (h1 : (2 : ℚ) ^ k ≤ |x|) (h2 : |x| < (2 : ℚ) ^ (k + 1))
    (hn1 : (n : ℚ) - 1 / 2 < x / 2 ^ (k - ((p : ℤ) - 1)))
    (hn2 : x / 2 ^ (k - ((p : ℤ) - 1)) < n + 1 / 2) :
    float_round p emin x = n * 2 ^ (k - ((p : ℤ) - 1)) := by
  unfold float_round
  simp only
  rw [int_log_two_eq h1 h2, max_eq_left hk, round_half_even_eq_of_lt _ n hn1 hn2]

theorem float_round_fix (p : ℕ) (emin : ℤ) (m j : ℤ) (hj : emin - ((p : ℤ) - 1) ≤ j)
    (hm : |m| < 2 ^ p) : float_round p emin ((m : ℚ) * 2 ^ j) = (m : ℚ) * 2 ^ j := by
  by_cases h0 : m = 0
  · rw [h0, Int.cast_zero, zero_mul, float_round_zero]
  · have hx : 0 < |(m : ℚ) * 2 ^ j| := abs_pos.2 (mul_ne_zero (by exact_mod_cast h0) (by positivity))
    have hlt : |(m : ℚ) * 2 ^ j| < ((2 : ℕ) : ℚ) ^ (j + (p : ℤ)) := by
      rw [abs_mul, abs_of_pos (show (0 : ℚ) < 2 ^ j by positivity), Nat.cast_ofNat,
        zpow_add₀ (by norm_num), mul_comm ((2 : ℚ) ^ j)]
      apply mul_lt_mul_of_pos_right _ (by positivity)
      rw [zpow_natCast]
      exact_mod_cast hm
    have hlog : Int.log 2 |(m : ℚ) * 2 ^ j| < j + (p : ℤ) :=
      (Int.lt_zpow_iff_log_lt (by norm_num) hx).1 hlt
    unfold float_round
    simp only
    generalize he : max (Int.log 2 |(m : ℚ) * 2 ^ j|) emin = e
    have hej : e - ((p : ℤ) - 1) ≤ j := by
      rw [← he]
      rcases le_total (Int.log 2 |(m : ℚ) * 2 ^ j|) emin with hc | hc
      · rw [max_eq_right hc]; exact hj
      · rw [max_eq_left hc]; omega
    have e1 : (m : ℚ) * 2 ^ j
        = ((m * 2 ^ (j - (e - ((p : ℤ) - 1))).toNat : ℤ) : ℚ) * 2 ^ (e - ((p : ℤ) - 1)) := by
      have hn : (((j - (e - ((p : ℤ) - 1))).toNat : ℕ) : ℤ) = j - (e - ((p : ℤ) - 1)) :=
        Int.toNat_of_nonneg (by omega)
      push_cast
      rw [← zpow_natCast, hn, mul_assoc, ← zpow_add₀ (by norm_num)]
      congr 2
      ring
    nth_rewrite 1 [e1]
    rw [grid_round_fix (by positivity), ← e1]

theorem float_round_idem (p : ℕ) (emin : ℤ) (hp : 1 ≤ p) (x : ℚ) :
    float_round p emin (float_round p emin x) = float_round p emin x := by
  have hpz : (1 : ℤ) ≤ (p : ℤ) := by exact_mod_cast hp
  generalize he : max (Int.log 2 |x|) emin = e
  have hx : |x| < (2 : ℚ) ^ (e + 1) := by
    have h1 : |x| < ((2 : ℕ) : ℚ) ^ (Int.log 2 |x| + 1) :=
      Int.lt_zpow_succ_log_self (by norm_num) |x|
    have h2 : ((2 : ℕ) : ℚ) ^ (Int.log 2 |x| + 1) ≤ (2 : ℚ) ^ (e + 1) := by
      rw [Nat.cast_ofNat]
      apply zpow_le_zpow_right₀ (by norm_num)
      have := le_max_left (Int.log 2 |x|) emin
      omega
    linarith
  have hemin : emin ≤ e := by rw [← he]; exact le_max_right _ _
  have hq : (0 : ℚ) < 2 ^ (e - ((p : ℤ) - 1)) := by positivity
  have hfr : float_round p emin x
      = (round_half_even (x / 2 ^ (e - ((p : ℤ) - 1))) : ℚ) * 2 ^ (e - ((p : ℤ) - 1)) := by
    unfold float_round
    simp only
    rw [he]
  have hpow : (2 : ℚ) ^ (e + 1) = ((2 ^ p : ℤ) : ℚ) * 2 ^ (e - ((p : ℤ) - 1)) := by
    push_cast
    rw [← zpow_natCast, ← zpow_add₀ (by norm_num)]
    congr 1
    ring
  have ht := abs_lt.1 hx
  have hu : x / 2 ^ (e - ((p : ℤ) - 1)) ≤ ((2 ^ p : ℤ) : ℚ) := by
    rw [div_le_iff₀ hq, ← hpow]
    exact ht.2.le
  have hl : ((-(2 ^ p) : ℤ) : ℚ) ≤ x / 2 ^ (e - ((p : ℤ) - 1)) := by
    rw [le_div_iff₀ hq]
    push_cast
    rw [neg_mul]
    push_cast at hpow
    rw [← hpow]
    exact ht.1.le
  have ru := round_half_even_mono hu
  have rl := round_half_even_mono hl
  rw [round_half_even_intCast] at ru rl
  rw [hfr]
  generalize round_half_even (x / 2 ^ (e - ((p : ℤ) - 1))) = r at ru rl
  rcases lt_or_eq_of_le ru with h1 | h1
  · rcases lt_or_eq_of_le rl with h2 | h2
    · exact float_round_fix p emin r _ (by omega) (abs_lt.2 ⟨h2, h1⟩)
    · have e1 : (r : ℚ) * 2 ^ (e - ((p : ℤ) - 1))
          = ((-(2 ^ (p - 1)) : ℤ) : ℚ) * 2 ^ (e - ((p : ℤ) - 1) + 1) := by
        rw [← h2, zpow_add₀ (by norm_num)]
        have : (2 : ℤ) ^ p = 2 ^ (p - 1) * 2 := by
          rw [← pow_succ]
          congr 1
          omega
        rw [this]
        push_cast
        ring
      rw [e1]
      refine float_round_fix p emin _ _ (by omega) ?_
      rw [abs_neg, abs_of_pos (by positivity)]
      exact pow_lt_pow_right₀ (by norm_num) (by omega)
  · have e1 : (r : ℚ) * 2 ^ (e - ((p : ℤ) - 1))
        = ((2 ^ (p - 1) : ℤ) : ℚ) * 2 ^ (e - ((p : ℤ) - 1) + 1) := by
      rw [h1, zpow_add₀ (by norm_num)]
      have : (2 : ℤ) ^ p = 2 ^ (p - 1) * 2 := by
        rw [← pow_succ]
        congr 1
        omega
      rw [this]
      push_cast
      ring
    rw [e1]
    refine float_round_fix p emin _ _ (by omega) ?_
    rw [abs_of_pos (by positivity)]
    exact pow_lt_pow_right₀ (by norm_num) (by omega)

theorem to_float_eval (x : ℚ) (k n : ℤ) (hk : -126 ≤ k)
    (h1 : (2 : ℚ) ^ k ≤ |x|) (h2 : |x| < (2 : ℚ) ^ (k + 1))
    (hn1 : (n : ℚ) - 1 / 2 < x / 2 ^ (k - 23)) (hn2 : x / 2 ^ (k - 23) < n + 1 / 2) :
    to_float x = n * 2 ^ (k - 23) := by
  have h := float_round_eval 24 (-126) x k n hk h1 h2 (by norm_num; linarith) (by norm_num; linarith)
  norm_num at h
  exact h

theorem to_double_eval (x : ℚ) (k n : ℤ) (hk : -1022 ≤ k)
    (h1 : (2 : ℚ) ^ k ≤ |x|) (h2 : |x| < (2 : ℚ) ^ (k + 1))
    (hn1 : (n : ℚ) - 1 / 2 < x / 2 ^ (k - 52)) (hn2 : x / 2 ^ (k - 52) < n + 1 / 2) :
    to_double x = n * 2 ^ (k - 52) := by
  have h := float_round_eval 53 (-1022) x k n hk h1 h2 (by norm_num; linarith) (by norm_num; linarith)
  norm_num at h
  exact h

theorem to_float_mono {x y : ℚ} (h : x ≤ y) : to_float x ≤ to_float y :=
  float_round_mono 24 (-126) (by norm_num) h

theorem to_double_mono {x y : ℚ} (h : x ≤ y) : to_double x ≤ to_double y :=
  float_round_mono 53 (-1022) (by norm_num) h

theorem to_float_zero : to_float 0 = 0 := float_round_zero 24 (-126)

theorem to_float_intCast (m : ℤ) (hm : |m| < 2 ^ 24) : to_float (m : ℚ) = m := by
  have h := float_round_fix 24 (-126) m 0 (by norm_num) hm
  simpa using h

/-- A `float` value converted to `float` is unchanged. -/
theorem to_float_idem (x : ℚ) : to_float (to_float x) = to_float x :=
  float_round_idem 24 (-126) (by norm_num) x

theorem to_float_one : to_float 1 = 1 := by
  have h := to_float_intCast 1 (by norm_num)
  simpa using h

theorem to_float_half : to_float (1 / 2) = 1 / 2 := by
  rw [to_float_eval (1 / 2) (-1) 8388608 (by norm_num) (by norm_num [abs_of_pos])
    (by norm_num [abs_of_pos]) (by norm_num) (by norm_num)]
  norm_num

/-! ## Battery monitor: the start-up voltage check -/

theorem v_sys_voltage_eq (samples : AdcBuffer) :
    ((adc_sum_loop samples : Nat) : ℚ) * DIVIDER_RATIO / ((ADC_OVERSAMPLES : Nat) : ℚ)
      = avg_voltage samples := by
  rw [adc_sum_loop_eq]
  simp [avg_voltage, DIVIDER_RATIO]

theorem v_sys_float_eq (samples : AdcBuffer) :
    to_float
        (to_double (to_double (((adc_sum_loop samples : Nat) : ℚ) * to_double DIVIDER_RATIO)
          / ((ADC_OVERSAMPLES : Nat) : ℚ)))
      = v_sys_float (∑ i, (samples i).val) := by
  rw [adc_sum_loop_eq]
  rfl

theorem to_double_divider :
    to_double DIVIDER_RATIO = 5118608310180449 / 576460752303423488 := by
  unfold DIVIDER_RATIO
  rw [to_double_eval (887937 / 100000000) (-7) 5118608310180449
    (by norm_num) (by norm_num [abs_of_pos]) (by norm_num [abs_of_pos]) (by norm_num)
    (by norm_num)]
  norm_num

theorem v_sys_float_18019 : v_sys_float 18019 = 2621397 / 262144 := by
  have ha : to_double (18019 * (5118608310180449 / 576460752303423488))
      = 5629406930001313 / 35184372088832 := by
    rw [to_double_eval (18019 * (5118608310180449 / 576460752303423488)) (7) 5629406930001313
      (by norm_num) (by norm_num [abs_of_pos]) (by norm_num [abs_of_pos]) (by norm_num)
      (by norm_num)]
    norm_num
  have hb : to_double (5629406930001313 / 35184372088832 / 16)
      = 5629406930001313 / 562949953421312 := by
    rw [to_double_eval (5629406930001313 / 35184372088832 / 16) (3) 5629406930001313
      (by norm_num) (by norm_num [abs_of_pos]) (by norm_num [abs_of_pos]) (by norm_num)
      (by norm_num)]
    norm_num
  have hc : to_float (5629406930001313 / 562949953421312)
      = 2621397 / 262144 := by
    rw [to_float_eval (5629406930001313 / 562949953421312) (3) 10485588
      (by norm_num) (by norm_num [abs_of_pos]) (by norm_num [abs_of_pos]) (by norm_num)
      (by norm_num)]
    norm_num
  unfold v_sys_float
  rw [to_double_divider]
  simp only [Nat.cast_ofNat]
  rw [ha, hb, hc]

theorem v_sys_float_18020 : v_sys_float 18020 = 10486169 / 1048576 := by
  have ha : to_double (18020 * (5118608310180449 / 576460752303423488))
      = 5629719345059307 / 35184372088832 := by
    rw [to_double_eval (18020 * (5118608310180449 / 576460752303423488)) (7) 5629719345059307
      (by norm_num) (by norm_num [abs_of_pos]) (by norm_num [abs_of_pos]) (by norm_num)
      (by norm_num)]
    norm_num
  have hb : to_double (5629719345059307 / 35184372088832 / 16)
      = 5629719345059307 / 562949953421312 := by
    rw [to_double_eval (5629719345059307 / 35184372088832 / 16) (3) 5629719345059307
      (by norm_num) (by norm_num [abs_of_pos]) (by norm_num [abs_of_pos]) (by norm_num)
      (by norm_num)]
    norm_num
  have hc : to_float (5629719345059307 / 562949953421312)
      = 10486169 / 1048576 := by
    rw [to_float_eval (5629719345059307 / 562949953421312) (3) 10486169
      (by norm_num) (by norm_num [abs_of_pos]) (by norm_num [abs_of_pos]) (by norm_num)
      (by norm_num)]
    norm_num
  unfold v_sys_float
  rw [to_double_divider]
  simp only [Nat.cast_ofNat]
  rw [ha, hb, hc]

theorem v_sys_float_36038 : v_sys_float 36038 = 2621397 / 131072 := by
  have ha : to_double (36038 * (5118608310180449 / 576460752303423488))
      = 5629406930001313 / 17592186044416 := by
    rw [to_double_eval (36038 * (5118608310180449 / 576460752303423488)) (8) 5629406930001313
      (by norm_num) (by norm_num [abs_of_pos]) (by norm_num [abs_of_pos]) (by norm_num)
      (by norm_num)]
    norm_num
  have hb : to_double (5629406930001313 / 17592186044416 / 16)
      = 5629406930001313 / 281474976710656 := by
    rw [to_double_eval (5629406930001313 / 17592186044416 / 16) (4) 5629406930001313
      (by norm_num) (by norm_num [abs_of_pos]) (by norm_num [abs_of_pos]) (by norm_num)
      (by norm_num)]
    norm_num
  have hc : to_float (5629406930001313 / 281474976710656)
      = 2621397 / 131072 := by
    rw [to_float_eval (5629406930001313 / 281474976710656) (4) 10485588
      (by norm_num) (by norm_num [abs_of_pos]) (by norm_num [abs_of_pos]) (by norm_num)
      (by norm_num)]
    norm_num
  unfold v_sys_float
  rw [to_double_divider]
  simp only [Nat.cast_ofNat]
  rw [ha, hb, hc]

theorem v_sys_float_36039 : v_sys_float 36039 = 5242939 / 262144 := by
  have ha : to_double (36039 * (5118608310180449 / 576460752303423488))
      = 2814781568765155 / 8796093022208 := by
    rw [to_double_eval (36039 * (5118608310180449 / 576460752303423488)) (8) 5629563137530310
      (by norm_num) (by norm_num [abs_of_pos]) (by norm_num [abs_of_pos]) (by norm_num)
      (by norm_num)]
    norm_num
  have hb : to_double (2814781568765155 / 8796093022208 / 16)
      = 2814781568765155 / 140737488355328 := by
    rw [to_double_eval (2814781568765155 / 8796093022208 / 16) (4) 5629563137530310
      (by norm_num) (by norm_num [abs_of_pos]) (by norm_num [abs_of_pos]) (by norm_num)
      (by norm_num)]
    norm_num
  have hc : to_float (2814781568765155 / 140737488355328)
      = 5242939 / 262144 := by
    rw [to_float_eval (2814781568765155 / 140737488355328) (4) 10485878
      (by norm_num) (by norm_num [abs_of_pos]) (by norm_num [abs_of_pos]) (by norm_num)
      (by norm_num)]
    norm_num
  unfold v_sys_float
  rw [to_double_divider]
  simp only [Nat.cast_ofNat]
  rw [ha, hb, hc]

theorem v_sys_float_63067 : v_sys_float 63067 = 4587481 / 131072 := by
  have ha : to_double (63067 * (5118608310180449 / 576460752303423488))
      = 2462885057816699 / 4398046511104 := by
    rw [to_double_eval (63067 * (5118608310180449 / 576460752303423488)) (9) 4925770115633398
      (by norm_num) (by norm_num [abs_of_pos]) (by norm_num [abs_of_pos]) (by norm_num)
      (by norm_num)]
    norm_num
  have hb : to_double (2462885057816699 / 4398046511104 / 16)
      = 2462885057816699 / 70368744177664 := by
    rw [to_double_eval (2462885057816699 / 4398046511104 / 16) (5) 4925770115633398
      (by norm_num) (by norm_num [abs_of_pos]) (by norm_num [abs_of_pos]) (by norm_num)
      (by norm_num)]
    norm_num
  have hc : to_float (2462885057816699 / 70368744177664)
      = 4587481 / 131072 := by
    rw [to_float_eval (2462885057816699 / 70368744177664) (5) 9174962
      (by norm_num) (by norm_num [abs_of_pos]) (by norm_num [abs_of_pos]) (by norm_num)
      (by norm_num)]
    norm_num
  unfold v_sys_float
  rw [to_double_divider]
  simp only [Nat.cast_ofNat]
  rw [ha, hb, hc]

theorem v_sys_float_63068 : v_sys_float 63068 = 9175107 / 262144 := by
  have ha : to_double (63068 * (5118608310180449 / 576460752303423488))
      = 4925848219397897 / 8796093022208 := by
    rw [to_double_eval (63068 * (5118608310180449 / 576460752303423488)) (9) 4925848219397897
      (by norm_num) (by norm_num [abs_of_pos]) (by norm_num [abs_of_pos]) (by norm_num)
      (by norm_num)]
    norm_num
  have hb : to_double (4925848219397897 / 8796093022208 / 16)
      = 4925848219397897 / 140737488355328 := by
    rw [to_double_eval (4925848219397897 / 8796093022208 / 16) (5) 4925848219397897
      (by norm_num) (by norm_num [abs_of_pos]) (by norm_num [abs_of_pos]) (by norm_num)
      (by norm_num)]
    norm_num
  have hc : to_float (4925848219397897 / 140737488355328)
      = 9175107 / 262144 := by
    rw [to_float_eval (4925848219397897 / 140737488355328) (5) 9175107
      (by norm_num) (by norm_num [abs_of_pos]) (by norm_num [abs_of_pos]) (by norm_num)
      (by norm_num)]
    norm_num
  unfold v_sys_float
  rw [to_double_divider]
  simp only [Nat.cast_ofNat]
  rw [ha, hb, hc]

theorem v_sys_float_39648 : v_sys_float 39648 = 5767975 / 262144 := by
  have ha : to_double (39648 * (5118608310180449 / 576460752303423488))
      = 6193316109681227 / 17592186044416 := by
    rw [to_double_eval (39648 * (5118608310180449 / 576460752303423488)) (8) 6193316109681227
      (by norm_num) (by norm_num [abs_of_pos]) (by norm_num [abs_of_pos]) (by norm_num)
      (by norm_num)]
    norm_num
  have hb : to_double (6193316109681227 / 17592186044416 / 16)
      = 6193316109681227 / 281474976710656 := by
    rw [to_double_eval (6193316109681227 / 17592186044416 / 16) (4) 6193316109681227
      (by norm_num) (by norm_num [abs_of_pos]) (by norm_num [abs_of_pos]) (by norm_num)
      (by norm_num)]
    norm_num
  have hc : to_float (6193316109681227 / 281474976710656)
      = 5767975 / 262144 := by
    rw [to_float_eval (6193316109681227 / 281474976710656) (4) 11535950
      (by norm_num) (by norm_num [abs_of_pos]) (by norm_num [abs_of_pos]) (by norm_num)
      (by norm_num)]
    norm_num
  unfold v_sys_float
  rw [to_double_divider]
  simp only [Nat.cast_ofNat]
  rw [ha, hb, hc]

theorem v_sys_float_mono {a b : ℕ} (h : a ≤ b) : v_sys_float a ≤ v_sys_float b := by
  unfold v_sys_float
  rw [to_double_divider]
  apply to_float_mono
  apply to_double_mono
  apply div_le_div_of_nonneg_right _ (by norm_num)
  apply to_double_mono
  exact mul_le_mul_of_nonneg_right (by exact_mod_cast h) (by norm_num)

theorem v_sys_float_gt_10 (S : ℕ) : 10 < v_sys_float S ↔ 18020 ≤ S := by
  constructor
  · intro h
    by_contra hc
    have hm := v_sys_float_mono (show S ≤ 18019 by omega)
    rw [v_sys_float_18019] at hm
    linarith
  · intro h
    have hm := v_sys_float_mono h
    rw [v_sys_float_18020] at hm
    linarith

theorem v_sys_float_gt_20 (S : ℕ) : 20 < v_sys_float S ↔ 36039 ≤ S := by
  constructor
  · intro h
    by_contra hc
    have hm := v_sys_float_mono (show S ≤ 36038 by omega)
    rw [v_sys_float_36038] at hm
    linarith
  · intro h
    have hm := v_sys_float_mono h
    rw [v_sys_float_36039] at hm
    linarith

theorem v_sys_float_lt_35 (S : ℕ) : v_sys_float S < 35 ↔ S ≤ 63067 := by
  constructor
  · intro h
    by_contra hc
    have hm := v_sys_float_mono (show 63068 ≤ S by omega)
    rw [v_sys_float_63068] at hm
    linarith
  · intro h
    have hm := v_sys_float_mono h
    rw [v_sys_float_63067] at hm
    linarith

theorem exact_voltage_gt_10 (S : ℕ) :
    10 < (S : ℚ) * (887937 / 100000000) / 16 ↔ 18020 ≤ S := by
  constructor
  · intro h
    by_contra hc
    have hS : (S : ℚ) ≤ 18019 := by exact_mod_cast (show S ≤ 18019 by omega)
    linarith
  · intro h
    have hS : (18020 : ℚ) ≤ S := by exact_mod_cast h
    linarith

theorem exact_voltage_gt_20 (S : ℕ) :
    20 < (S : ℚ) * (887937 / 100000000) / 16 ↔ 36039 ≤ S := by
  constructor
  · intro h
    by_contra hc
    have hS : (S : ℚ) ≤ 36038 := by exact_mod_cast (show S ≤ 36038 by omega)
    linarith
  · intro h
    have hS : (36039 : ℚ) ≤ S := by exact_mod_cast h
    linarith

theorem exact_voltage_lt_35 (S : ℕ) :
    (S : ℚ) * (887937 / 100000000) / 16 < 35 ↔ S ≤ 63067 := by
  constructor
  · intro h
    by_contra hc
    have hS : (63068 : ℚ) ≤ S := by exact_mod_cast (show 63068 ≤ S by omega)
    linarith
  · intro h
    have hS : (S : ℚ) ≤ 63067 := by exact_mod_cast h
    linarith

theorem to_float_10 : to_float 10 = 10 := by
  have h := to_float_intCast 10 (by norm_num)
  simpa using h

theorem to_float_20 : to_float 20 = 20 := by
  have h := to_float_intCast 20 (by norm_num)
  simpa using h

theorem v_sys_check_floor (min_voltage : ℚ) :
    (if to_float min_voltage < SANE_VOLTAGE_LOWER_LIMIT then SANE_VOLTAGE_LOWER_LIMIT
      else to_float min_voltage) = max (to_float min_voltage) 10 := by
  unfold SANE_VOLTAGE_LOWER_LIMIT
  by_cases hm : to_float min_voltage < 10
  · rw [if_pos hm, max_eq_right hm.le]
  · rw [if_neg hm, max_eq_left (not_lt.1 hm)]

theorem v_sys_check_floor_low {min_voltage : ℚ} (h : min_voltage ≤ 10) :
    max (to_float min_voltage) 10 = 10 := by
  have hm := to_float_mono h
  rw [to_float_10] at hm
  exact max_eq_right hm

theorem v_sys_check_eq (min_voltage : ℚ) (flags : Nat) (env : AdcEnv) :
    v_sys_check min_voltage flags env
      = if (do_adc_dma flags ADC_READ_TIMEOUT env).2 &&& (1 <<< 31) ≠ 0 then
          (false, (do_adc_dma flags ADC_READ_TIMEOUT env).1)
        else
          (decide (v_sys_float (∑ i, (env.samples i).val) > max (to_float min_voltage) 10)
            && decide (v_sys_float (∑ i, (env.samples i).val) < 35),
           (do_adc_dma flags ADC_READ_TIMEOUT env).1) := by
  unfold v_sys_check
  simp only [v_sys_float_eq, v_sys_check_floor, SANE_VOLTAGE_UPPER_LIMIT]

theorem v_sys_check_verdict (min_voltage : ℚ) (flags : Nat) (env : AdcEnv) :
    (v_sys_check min_voltage flags env).1 = true ↔
      (Nat.testBit (do_adc_dma flags ADC_READ_TIMEOUT env).2 31 = false
        ∧ max (to_float min_voltage) 10 < v_sys_float (∑ i, (env.samples i).val)
        ∧ v_sys_float (∑ i, (env.samples i).val) < 35) := by
  rw [v_sys_check_eq]
  by_cases hs : (do_adc_dma flags ADC_READ_TIMEOUT env).2 &&& (1 <<< 31) ≠ 0
  · have hb := (and_bit_ne_zero_iff _ 31).1 hs
    rw [if_pos hs]
    simp [hb]
  · have hb := (and_bit_eq_zero_iff _ 31).1 (not_not.1 hs)
    rw [if_neg hs]
    simp only [hb, true_and, Bool.and_eq_true, decide_eq_true_eq, gt_iff_lt]

theorem adc_22v_sum : (∑ i, (adc_22v_env.samples i).val) = 39648 := by
  have hv : ((2478 : Fin 65536) : ℕ) = 2478 := rfl
  simp [adc_22v_env, hv]
  rfl

theorem adc_22v_status :
    Nat.testBit (do_adc_dma ADC_READY_FLAG ADC_READ_TIMEOUT adc_22v_env).2 31 = false := by
  decide

theorem adc_22v_avg :
    avg_voltage adc_22v_env.samples = 39648 * (887937 / 100000000) / 16 := by
  unfold avg_voltage
  rw [adc_22v_sum]
  norm_num

/-- C1, as stated, fails: with sixteen samples of 2478 the exact averaged voltage is
v = 39648 * 0.00887937 / 16 = 22.00307886, but the `float v_sys` of the code holds the nearest
`float`, 5767975/262144 = 22.00307846...; for the `float` threshold min_voltage = 5767975/262144
the acquisition succeeds and max(min_voltage, 10) < v < 35 holds, yet `v_sys > min_voltage`
compares two equal `float` values and `v_sys_check` returns false. -/
theorem v_sys_check_exact_fails :
    Nat.testBit (do_adc_dma ADC_READY_FLAG ADC_READ_TIMEOUT adc_22v_env).2 31 = false
    ∧ to_float (5767975 / 262144) = 5767975 / 262144
    ∧ max (5767975 / 262144) 10 < avg_voltage adc_22v_env.samples
    ∧ avg_voltage adc_22v_env.samples < 35
    ∧ v_sys_float (∑ i, (adc_22v_env.samples i).val) = 5767975 / 262144
    ∧ (v_sys_check (5767975 / 262144) ADC_READY_FLAG adc_22v_env).1 = false
    ∧ ¬ ((v_sys_check (5767975 / 262144) ADC_READY_FLAG adc_22v_env).1 = true ↔
          (Nat.testBit (do_adc_dma ADC_READY_FLAG ADC_READ_TIMEOUT adc_22v_env).2 31 = false
            ∧ max (5767975 / 262144) 10 < avg_voltage adc_22v_env.samples
            ∧ avg_voltage adc_22v_env.samples < 35)) := by
  have hfl : to_float (5767975 / 262144) = 5767975 / 262144 := by
    rw [to_float_eval (5767975 / 262144) 4 11535950 (by norm_num) (by norm_num [abs_of_pos])
      (by norm_num [abs_of_pos]) (by norm_num) (by norm_num)]
    norm_num
  have havg : avg_voltage adc_22v_env.samples = 39648 * (887937 / 100000000) / 16 := by
    unfold avg_voltage
    rw [adc_22v_sum]
    norm_num
  have h1 : max (5767975 / 262144) 10 < avg_voltage adc_22v_env.samples := by
    rw [havg, max_eq_left (by norm_num)]
    norm_num
  have h2 : avg_voltage adc_22v_env.samples < 35 := by
    rw [havg]
    norm_num
  have hv : v_sys_float (∑ i, (adc_22v_env.samples i).val) = 5767975 / 262144 := by
    rw [adc_22v_sum, v_sys_float_39648]
  have hc : (v_sys_check (5767975 / 262144) ADC_READY_FLAG adc_22v_env).1 = false := by
    rw [Bool.eq_false_iff]
    intro h
    have h3 := ((v_sys_check_verdict _ _ _).1 h).2.1
    rw [hv, hfl, max_eq_left (by norm_num)] at h3
    exact lt_irrefl _ h3
  refine ⟨adc_22v_status, hfl, h1, h2, hv, hc, ?_⟩
  intro hiff
  have ht := hiff.2 ⟨adc_22v_status, h1, h2⟩
  rw [hc] at ht
  exact Bool.false_ne_true ht

/-- C1, amended: `v_sys_check` returns true iff the acquisition status has bit 31 clear and the
averaged voltage as the code holds it, the `float` value fl(v) nearest to
v = (sum of the 16 samples) * 0.00887937 / 16 (product and quotient computed in `double`),
satisfies max(min_voltage, 10) < fl(v) < 35 with min_voltage converted to `float`, both bounds
strict; for every min_voltage of at most 10 and for the threshold 20 that the orchestrator
passes, this is the same as max(min_voltage, 10) < v < 35 for the exact v; a min_voltage below
10 behaves exactly like 10; an acquisition that timed out returns false whatever the samples
are; and a reading of about 22.0 V (sixteen samples of 2478) passes the check against 20 V. -/
theorem v_sys_check_float_contract (min_voltage : ℚ) (flags : Nat) (env : AdcEnv) :
    ((v_sys_check min_voltage flags env).1 = true ↔
      (Nat.testBit (do_adc_dma flags ADC_READ_TIMEOUT env).2 31 = false
        ∧ max (to_float min_voltage) 10 < v_sys_float (∑ i, (env.samples i).val)
        ∧ v_sys_float (∑ i, (env.samples i).val) < 35))
    ∧ ((min_voltage ≤ 10 ∨ min_voltage = 20) →
        ((v_sys_check min_voltage flags env).1 = true ↔
          (Nat.testBit (do_adc_dma flags ADC_READ_TIMEOUT env).2 31 = false
            ∧ max min_voltage 10 < avg_voltage env.samples ∧ avg_voltage env.samples < 35)))
    ∧ (min_voltage < 10 → v_sys_check min_voltage flags env = v_sys_check 10 flags env)
    ∧ ((do_adc_dma flags ADC_READ_TIMEOUT env).2 = osFlagsErrorTimeout →
        (v_sys_check min_voltage flags env).1 = false)
    ∧ (v_sys_check 20 ADC_READY_FLAG adc_22v_env).1 = true := by
  refine ⟨v_sys_check_verdict min_voltage flags env, ?_, ?_, ?_, ?_⟩
  · intro hm
    rw [v_sys_check_verdict]
    have havg : avg_voltage env.samples
        = ((∑ i, (env.samples i).val : ℕ) : ℚ) * (887937 / 100000000) / 16 := rfl
    rw [havg, v_sys_float_lt_35, exact_voltage_lt_35]
    rcases hm with hm | hm
    · rw [v_sys_check_floor_low hm, max_eq_right hm, v_sys_float_gt_10, exact_voltage_gt_10]
    · rw [hm, to_float_20, max_eq_left (by norm_num), v_sys_float_gt_20, exact_voltage_gt_20]
  · intro hm
    rw [v_sys_check_eq, v_sys_check_eq, v_sys_check_floor_low hm.le,
      v_sys_check_floor_low (le_refl _)]
  · intro ht
    rw [v_sys_check_eq]
    have : (do_adc_dma flags ADC_READ_TIMEOUT env).2 &&& (1 <<< 31) ≠ 0 := by
      rw [ht]; decide
    rw [if_pos this]
  · rw [v_sys_check_verdict, adc_22v_sum, to_float_20, max_eq_left (by norm_num),
      v_sys_float_gt_20, v_sys_float_lt_35]
    exact ⟨adc_22v_status, by norm_num, by norm_num⟩

/-- Witness for C1: sixteen samples of 2478 (an exact average of 22.00307886 V) pass the check
against 20 V, by the exact bounds, and against 5 V, which behaves like 10 V. -/
theorem v_sys_check_float_contract_witness :
    (v_sys_check 20 ADC_READY_FLAG adc_22v_env).1 = true
    ∧ v_sys_check 5 ADC_READY_FLAG adc_22v_env = v_sys_check 10 ADC_READY_FLAG adc_22v_env
    ∧ (v_sys_check 20 ADC_READY_FLAG adc_timeout_env).1 = false :=
  ⟨((v_sys_check_float_contract 20 ADC_READY_FLAG adc_22v_env).2.1 (Or.inr rfl)).2
      ⟨adc_22v_status, by rw [adc_22v_avg]; norm_num, by rw [adc_22v_avg]; norm_num⟩,
   (v_sys_check_float_contract 5 ADC_READY_FLAG adc_22v_env).2.2.1 (by norm_num),
   (v_sys_check_float_contract 20 ADC_READY_FLAG adc_timeout_env).2.2.2.1 (by decide)⟩

/-! ## Battery monitor: flag words -/

theorem testBit_osEventFlagsSet (ef flags k : Nat) :
    (osEventFlagsSet ef flags).testBit k = (ef.testBit k || flags.testBit k) := by
  simp [osEventFlagsSet, Nat.testBit_or]

theorem testBit_osEventFlagsClear (ef flags k : Nat) (hk : k < 32) :
    (osEventFlagsClear ef flags).testBit k = (ef.testBit k && !flags.testBit k) := by
  have h : (0xFFFFFFFF : Nat) = 2 ^ 32 - 1 := by decide
  unfold osEventFlagsClear
  rw [Nat.testBit_and, Nat.testBit_xor, h, Nat.testBit_two_pow_sub_one]
  simp [hk]

theorem testBit_osEventFlagsWait (ef flags timeout arrived k : Nat) (noClear : Bool)
    (hk : k < 32) (hm : flags.testBit k = false) (ha : arrived.testBit k = false) :
    (osEventFlagsWait ef flags noClear timeout arrived).1.testBit k = ef.testBit k := by
  have hcur : (if timeout = 0 then ef else ef ||| arrived).testBit k = ef.testBit k := by
    split
    · rfl
    · simp [Nat.testBit_or, ha]
  simp only [osEventFlagsWait]
  generalize (if timeout = 0 then ef else ef ||| arrived) = cur at hcur
  by_cases hmz : cur &&& flags ≠ 0
  · rw [if_pos hmz]
    cases noClear <;>
      simp [testBit_osEventFlagsClear _ _ _ hk, Nat.testBit_and, hcur, hm]
  · rw [if_neg hmz]
    exact hcur

theorem flag_bits :
    DMA_COMPLETE_FLAG = 2 ^ 0 ∧ ADC_READY_FLAG = 2 ^ 1 ∧ SOC_LOW_FLAG = 2 ^ 2
      ∧ SOC_CRIT_FLAG = 2 ^ 3 ∧ SOC_MEASURE_FAIL = 2 ^ 4 := by decide

theorem testBit_do_adc_dma (flags timeout k : Nat) (env : AdcEnv) (h2 : 2 ≤ k) (hk : k < 32) :
    (do_adc_dma flags timeout env).1.testBit k = flags.testBit k := by
  have hr : ADC_READY_FLAG.testBit k = false := by
    rw [flag_bits.2.1, Nat.testBit_two_pow]; simp; omega
  have hd : DMA_COMPLETE_FLAG.testBit k = false := by
    rw [flag_bits.1, Nat.testBit_two_pow]; simp; omega
  have hra : (if env.ready_released then ADC_READY_FLAG else 0).testBit k = false := by
    split <;> simp [hr]
  have hda : (if env.dma_complete then DMA_COMPLETE_FLAG else 0).testBit k = false := by
    split <;> simp [hd]
  have e1 : (osEventFlagsWait flags ADC_READY_FLAG false timeout
      (if env.ready_released then ADC_READY_FLAG else 0)).1.testBit k = flags.testBit k :=
    testBit_osEventFlagsWait flags ADC_READY_FLAG timeout _ k false hk hr hra
  have e2 : ∀ t2 : Nat, (osEventFlagsWait (osEventFlagsClear (osEventFlagsWait flags
      ADC_READY_FLAG false timeout (if env.ready_released then ADC_READY_FLAG else 0)).1
      DMA_COMPLETE_FLAG) DMA_COMPLETE_FLAG false t2
      (if env.dma_complete then DMA_COMPLETE_FLAG else 0)).1.testBit k = flags.testBit k := by
    intro t2
    rw [testBit_osEventFlagsWait _ DMA_COMPLETE_FLAG t2 _ k false hk hd hda,
      testBit_osEventFlagsClear _ _ _ hk, hd, e1]
    simp
  simp only [do_adc_dma]
  by_cases hc : (osEventFlagsWait flags ADC_READY_FLAG false timeout
      (if env.ready_released then ADC_READY_FLAG else 0)).2 &&& (1 <<< 31) ≠ 0
  · rw [if_pos hc]
    exact e1
  · rw [if_neg hc, testBit_osEventFlagsSet, e2, hr]
    simp

/-! ## Battery monitor: one cycle -/

theorem cycle_cond_iff (flags : Nat) (env : AdcEnv) :
    ((do_adc_dma flags ADC_READ_TIMEOUT env).2 &&& (1 <<< 31) = 0
      ∧ ((adc_sum_loop env.samples : Nat) : ℚ) * DIVIDER_RATIO / ((ADC_OVERSAMPLES : Nat) : ℚ)
          < SANE_VOLTAGE_UPPER_LIMIT
      ∧ ((adc_sum_loop env.samples : Nat) : ℚ) * DIVIDER_RATIO / ((ADC_OVERSAMPLES : Nat) : ℚ)
          > SANE_VOLTAGE_LOWER_LIMIT)
      ↔ cycle_succeeds flags env := by
  rw [v_sys_voltage_eq, and_bit_eq_zero_iff]
  unfold cycle_succeeds SANE_VOLTAGE_UPPER_LIMIT SANE_VOLTAGE_LOWER_LIMIT
  constructor
  · rintro ⟨h1, h2, h3⟩
    exact ⟨h1, h3, h2⟩
  · rintro ⟨h1, h2, h3⟩
    exact ⟨h1, h3, h2⟩

theorem run_monitor_cycle_of_fail (st : MonitorLocals) (sh : MonitorShared) (env : AdcEnv)
    (h : ¬ cycle_succeeds sh.monitor_util_flags env) :
    (run_monitor_cycle st sh env).1
        = { st with read_fail_counter := (st.read_fail_counter + 1) % 2 ^ 8 }
    ∧ (run_monitor_cycle st sh env).2.soc_buf = sh.soc_buf
    ∧ (run_monitor_cycle st sh env).2.monitor_util_flags =
        (if (st.read_fail_counter + 1) % 2 ^ 8 ≥ ADC_MAX_READ_FAILS then
          osEventFlagsSet (do_adc_dma sh.monitor_util_flags ADC_READ_TIMEOUT env).1 SOC_MEASURE_FAIL
        else (do_adc_dma sh.monitor_util_flags ADC_READ_TIMEOUT env).1) := by
  unfold run_monitor_cycle
  rw [if_neg (mt (cycle_cond_iff _ _).1 h)]
  exact ⟨rfl, rfl, rfl⟩

theorem run_monitor_cycle_of_ok (st : MonitorLocals) (sh : MonitorShared) (env : AdcEnv)
    (h : cycle_succeeds sh.monitor_util_flags env) :
    run_monitor_cycle st sh env =
      ({ sample_buffer := Function.update st.sample_buffer st.buffer_pointer
            (avg_voltage env.samples / 256)
         mav_voltage := sample_buffer_sum (Function.update st.sample_buffer st.buffer_pointer
            (avg_voltage env.samples / 256))
         soc := (sample_buffer_sum (Function.update st.sample_buffer st.buffer_pointer
            (avg_voltage env.samples / 256)) - MIN_VOLTAGE) / (MAX_VOLTAGE - MIN_VOLTAGE)
         buffer_pointer :=
            if h : st.buffer_pointer.val ≥ SAMPLE_BUFFER_LEN - 1 then ⟨0, by decide⟩
            else ⟨st.buffer_pointer.val + 1, by omega⟩
         read_fail_counter := 0
         soc_low_asserted := (run_monitor_thresholds
            (do_adc_dma sh.monitor_util_flags ADC_READ_TIMEOUT env).1
            (sample_buffer_sum (Function.update st.sample_buffer st.buffer_pointer
              (avg_voltage env.samples / 256))) st.soc_low_asserted).2 },
       { monitor_util_flags := (run_monitor_thresholds
            (do_adc_dma sh.monitor_util_flags ADC_READ_TIMEOUT env).1
            (sample_buffer_sum (Function.update st.sample_buffer st.buffer_pointer
              (avg_voltage env.samples / 256))) st.soc_low_asserted).1
         soc_buf := (osMessageQueuePut (osMessageQueueReset sh.soc_buf)
            ((sample_buffer_sum (Function.update st.sample_buffer st.buffer_pointer
              (avg_voltage env.samples / 256)) - MIN_VOLTAGE)
                / (MAX_VOLTAGE - MIN_VOLTAGE))).1 }) := by
  unfold run_monitor_cycle
  rw [if_pos ((cycle_cond_iff _ _).2 h), v_sys_voltage_eq]
  simp only [Nat.cast_ofNat]

theorem testBit_run_monitor_thresholds (flags : Nat) (m : ℚ) (a : Bool) (k : Nat) :
    (run_monitor_thresholds flags m a).1.testBit k =
      (flags.testBit k
        || (decide (k = 3) && decide (m < 24))
        || (decide (k = 2) && decide (¬ m < 24) && decide (m < 26) && !a)) := by
  unfold run_monitor_thresholds SOC_VOLTAGE_CRITICAL SOC_VOLTAGE_LOW
  by_cases h1 : m < 24
  · rw [if_pos h1, testBit_osEventFlagsSet, flag_bits.2.2.2.1, Nat.testBit_two_pow]
    simp [h1, eq_comm]
  · rw [if_neg h1]
    by_cases h2 : m < 26 ∧ a = false
    · rw [if_pos h2, testBit_osEventFlagsSet, flag_bits.2.2.1, Nat.testBit_two_pow]
      simp [h1, h2.1, h2.2, eq_comm]
    · rw [if_neg h2]
      rw [not_and] at h2
      by_cases h3 : m < 26
      · simp [h1, h3, h2 h3]
      · simp [h1, h3]

theorem fail_counter_run (envs : List AdcEnv) (st : MonitorLocals) (sh : MonitorShared)
    (hf : all_cycles_fail st sh envs) (hc : st.read_fail_counter + envs.length < 256) :
    (run_monitor_cycles st sh envs).1.read_fail_counter = st.read_fail_counter + envs.length
    ∧ (run_monitor_cycles st sh envs).2.monitor_util_flags.testBit 4 =
        (sh.monitor_util_flags.testBit 4
          || decide (1 ≤ envs.length ∧ 8 ≤ st.read_fail_counter + envs.length)) := by
  induction envs generalizing st sh with
  | nil => simp [run_monitor_cycles]
  | cons env rest ih =>
    obtain ⟨h1, h2⟩ := hf
    obtain ⟨e1, -, e3⟩ := run_monitor_cycle_of_fail st sh env h1
    simp only [List.length_cons] at hc ⊢
    have hmod : (st.read_fail_counter + 1) % 2 ^ 8 = st.read_fail_counter + 1 :=
      Nat.mod_eq_of_lt (by omega)
    have hcnt : (run_monitor_cycle st sh env).1.read_fail_counter = st.read_fail_counter + 1 := by
      rw [e1, hmod]
    have hbit : (run_monitor_cycle st sh env).2.monitor_util_flags.testBit 4
        = (sh.monitor_util_flags.testBit 4 || decide (8 ≤ st.read_fail_counter + 1)) := by
      rw [e3, hmod]
      unfold ADC_MAX_READ_FAILS
      by_cases h8 : st.read_fail_counter + 1 ≥ 8
      · rw [if_pos h8, testBit_osEventFlagsSet, testBit_do_adc_dma _ _ _ _ (by omega) (by omega),
          flag_bits.2.2.2.2, Nat.testBit_two_pow_self]
        simp [h8]
      · rw [if_neg h8, testBit_do_adc_dma _ _ _ _ (by omega) (by omega)]
        simp [h8]
    obtain ⟨i1, i2⟩ := ih _ _ h2 (by rw [hcnt]; omega)
    unfold run_monitor_cycles
    simp only
    rw [i1, i2, hcnt, hbit]
    refine ⟨by omega, ?_⟩
    cases sh.monitor_util_flags.testBit 4
    · simp only [Bool.false_or, Bool.or_eq_true, decide_eq_true_eq, ← Bool.decide_or]
      congr 1
      apply propext
      constructor
      · rintro (h | h) <;> omega
      · intro h; omega
    · simp

theorem testBit_run_monitor_cycle_of_ok (st : MonitorLocals) (sh : MonitorShared) (env : AdcEnv)
    (h : cycle_succeeds sh.monitor_util_flags env) (k : Nat) (h2 : 2 ≤ k) (hk : k < 32) :
    (run_monitor_cycle st sh env).2.monitor_util_flags.testBit k =
      (sh.monitor_util_flags.testBit k
        || (decide (k = 3) && decide ((run_monitor_cycle st sh env).1.mav_voltage < 24))
        || (decide (k = 2) && decide (¬ (run_monitor_cycle st sh env).1.mav_voltage < 24)
            && decide ((run_monitor_cycle st sh env).1.mav_voltage < 26)
            && !st.soc_low_asserted)) := by
  have e := run_monitor_cycle_of_ok st sh env h
  have ef : (run_monitor_cycle st sh env).2.monitor_util_flags
      = (run_monitor_thresholds (do_adc_dma sh.monitor_util_flags ADC_READ_TIMEOUT env).1
          (run_monitor_cycle st sh env).1.mav_voltage st.soc_low_asserted).1 := by
    rw [e]
  rw [ef, testBit_run_monitor_thresholds, testBit_do_adc_dma _ _ _ _ h2 hk]

theorem adc_22v_succeeds : cycle_succeeds monitor_init.monitor_util_flags adc_22v_env := by
  have hv : ((2478 : Fin 65536) : ℕ) = 2478 := rfl
  refine ⟨by decide, ?_, ?_⟩ <;>
    · simp [avg_voltage, adc_22v_env, hv]
      norm_num

/-! ## Battery monitor: READ_FAIL after eight consecutive failures -/

/-- C2: from a failure counter of 0 and a clear READ_FAIL flag, a run of at most 8 failed cycles
leaves READ_FAIL set iff the run has 8 cycles (not set by any of the first 7, set by the 8th);
a successful cycle resets the counter to 0; a run of fewer than 8 failed cycles after a successful
one does not set READ_FAIL; and of 16 consecutive ADC timeouts after start-up, exactly the
cycles from the 8th on leave READ_FAIL set. -/
theorem read_fail_latches_on_eighth (st : MonitorLocals) (sh : MonitorShared) (env0 : AdcEnv)
    (envs : List AdcEnv) :
    (st.read_fail_counter = 0 → sh.monitor_util_flags.testBit 4 = false →
      all_cycles_fail st sh envs → envs.length ≤ 8 →
        (run_monitor_cycles st sh envs).2.monitor_util_flags.testBit 4
          = decide (envs.length = 8))
    ∧ (cycle_succeeds sh.monitor_util_flags env0 →
        (run_monitor_cycle st sh env0).1.read_fail_counter = 0)
    ∧ (sh.monitor_util_flags.testBit 4 = false → cycle_succeeds sh.monitor_util_flags env0 →
        all_cycles_fail (run_monitor_cycle st sh env0).1 (run_monitor_cycle st sh env0).2 envs →
        envs.length < 8 →
          (run_monitor_cycles st sh (env0 :: envs)).2.monitor_util_flags.testBit 4 = false)
    ∧ (∀ k, k ≤ 16 →
        (run_monitor_cycles run_monitor_entry monitor_init
          (List.replicate k adc_timeout_env)).2.monitor_util_flags.testBit 4 = decide (8 ≤ k)) := by
  refine ⟨?_, ?_, ?_, ?_⟩
  · intro hc hb hf hl
    rw [(fail_counter_run envs st sh hf (by omega)).2, hb, hc]
    simp only [Bool.false_or, Nat.zero_add]
    congr 1
    apply propext
    omega
  · intro h
    rw [run_monitor_cycle_of_ok st sh env0 h]
  · intro hb h hf hl
    have hcnt : (run_monitor_cycle st sh env0).1.read_fail_counter = 0 := by
      rw [run_monitor_cycle_of_ok st sh env0 h]
    have hbit := testBit_run_monitor_cycle_of_ok st sh env0 h 4 (by omega) (by omega)
    simp only [hb, Bool.false_or] at hbit
    have hbit' : (run_monitor_cycle st sh env0).2.monitor_util_flags.testBit 4 = false := by
      rw [hbit]; simp
    show (run_monitor_cycles (run_monitor_cycle st sh env0).1 (run_monitor_cycle st sh env0).2
      envs).2.monitor_util_flags.testBit 4 = false
    rw [(fail_counter_run envs _ _ hf (by rw [hcnt]; omega)).2, hbit', hcnt]
    simp only [Bool.false_or, Nat.zero_add, decide_eq_false_iff_not]
    omega
  · decide

/-- Witness for C2: eight consecutive ADC timeouts after start-up, and a run that follows a
successful 22 V cycle. -/
theorem read_fail_latches_on_eighth_witness :
    (run_monitor_cycles run_monitor_entry monitor_init
        (List.replicate 8 adc_timeout_env)).2.monitor_util_flags.testBit 4 = decide (8 = 8)
    ∧ (run_monitor_cycle run_monitor_entry monitor_init adc_22v_env).1.read_fail_counter = 0 :=
  ⟨(read_fail_latches_on_eighth run_monitor_entry monitor_init adc_22v_env
      (List.replicate 8 adc_timeout_env)).1 rfl (by decide) (by decide) (by decide),
   (read_fail_latches_on_eighth run_monitor_entry monitor_init adc_22v_env
      (List.replicate 8 adc_timeout_env)).2.1 adc_22v_succeeds⟩

theorem foldl_add_eq_sum {ι : Type} (f : ι → ℚ) (l : List ι) (acc : ℚ) :
    l.foldl (fun a i => a + f i) acc = acc + (l.map f).sum := by
  induction l generalizing acc with
  | nil => simp
  | cons a t ih => simp [ih, add_assoc]

theorem sample_buffer_sum_eq (sample_buffer : Fin SAMPLE_BUFFER_LEN → ℚ) :
    sample_buffer_sum sample_buffer = ∑ i, sample_buffer i := by
  unfold sample_buffer_sum
  rw [foldl_add_eq_sum, Fin.sum_univ_def, zero_add]

theorem sample_buffer_sum_update (sample_buffer : Fin SAMPLE_BUFFER_LEN → ℚ)
    (p : Fin SAMPLE_BUFFER_LEN) (x : ℚ) :
    sample_buffer_sum (Function.update sample_buffer p x)
      = sample_buffer_sum sample_buffer - sample_buffer p + x := by
  rw [sample_buffer_sum_eq, sample_buffer_sum_eq, Finset.sum_update_of_mem (Finset.mem_univ p),
    ← Finset.sum_erase_add _ _ (Finset.mem_univ p), Finset.sdiff_singleton_eq_erase]
  ring

theorem mav_voltage_of_ok (st : MonitorLocals) (sh : MonitorShared) (env : AdcEnv)
    (h : cycle_succeeds sh.monitor_util_flags env) :
    (run_monitor_cycle st sh env).1.mav_voltage
      = sample_buffer_sum (Function.update st.sample_buffer st.buffer_pointer
          (avg_voltage env.samples / 256)) := by
  rw [run_monitor_cycle_of_ok st sh env h]

theorem soc_low_asserted_of_ok (st : MonitorLocals) (sh : MonitorShared) (env : AdcEnv)
    (h : cycle_succeeds sh.monitor_util_flags env) :
    (run_monitor_cycle st sh env).1.soc_low_asserted
      = (run_monitor_thresholds (do_adc_dma sh.monitor_util_flags ADC_READ_TIMEOUT env).1
          (run_monitor_cycle st sh env).1.mav_voltage st.soc_low_asserted).2 := by
  rw [run_monitor_cycle_of_ok st sh env h]

theorem entry_22v_mav :
    (run_monitor_cycle run_monitor_entry monitor_init adc_22v_env).1.mav_voltage
      = 255 * (27 / 256) + 2478 * (887937 / 100000000) / 256 := by
  have hv : ((2478 : Fin 65536) : ℕ) = 2478 := rfl
  have hsum : ∑ i : Fin SAMPLE_BUFFER_LEN, run_monitor_entry.sample_buffer i
      = 256 * MAV_INIT_VALUE := by
    show ∑ _i : Fin 256, MAV_INIT_VALUE = 256 * MAV_INIT_VALUE
    rw [Finset.sum_const, Finset.card_univ, Fintype.card_fin, nsmul_eq_mul]
    norm_num
  have hp : run_monitor_entry.sample_buffer run_monitor_entry.buffer_pointer = MAV_INIT_VALUE :=
    rfl
  have ha : avg_voltage adc_22v_env.samples = 2478 * (887937 / 100000000) := by
    simp [avg_voltage, adc_22v_env, hv]
    norm_num
  rw [mav_voltage_of_ok _ _ _ adc_22v_succeeds, sample_buffer_sum_update, sample_buffer_sum_eq,
    hsum, hp, ha, MAV_INIT_VALUE]
  norm_num

theorem testBit_run_monitor_cycle_of_fail (st : MonitorLocals) (sh : MonitorShared)
    (env : AdcEnv) (h : ¬ cycle_succeeds sh.monitor_util_flags env) (k : Nat) (h2 : 2 ≤ k)
    (hk : k < 32) :
    (run_monitor_cycle st sh env).2.monitor_util_flags.testBit k =
      (sh.monitor_util_flags.testBit k
        || (decide (k = 4) && decide (8 ≤ (st.read_fail_counter + 1) % 2 ^ 8))) := by
  rw [(run_monitor_cycle_of_fail st sh env h).2.2]
  unfold ADC_MAX_READ_FAILS
  simp only [Nat.reducePow]
  by_cases h8 : (st.read_fail_counter + 1) % 256 ≥ 8
  · rw [if_pos h8, testBit_osEventFlagsSet, testBit_do_adc_dma _ _ _ _ h2 hk, flag_bits.2.2.2.2,
      Nat.testBit_two_pow]
    simp [h8, eq_comm]
  · rw [if_neg h8, testBit_do_adc_dma _ _ _ _ h2 hk]
    simp [h8]

/-! ## Battery monitor: the SOC thresholds -/

/-- C3: in a successful cycle with moving-average voltage m (the sum of the sample buffer after
the new sample is stored): if m < 24 the cycle leaves SOC_CRITICAL set, whatever the flag was
before, and changes neither SOC_LOW nor `soc_low_asserted`; otherwise, if m < 26 and
`soc_low_asserted` is false, it leaves SOC_LOW set, records it in `soc_low_asserted` and does not
change SOC_CRITICAL; otherwise it changes none of SOC_LOW, SOC_CRITICAL, `soc_low_asserted`. A
successful cycle never changes READ_FAIL, and no cycle, successful or failed, changes both
SOC_CRITICAL and SOC_LOW. -/
theorem thresholds_of_cycle (st : MonitorLocals) (sh : MonitorShared) (env : AdcEnv) :
    (cycle_succeeds sh.monitor_util_flags env →
      (run_monitor_cycle st sh env).1.mav_voltage
          = sample_buffer_sum (run_monitor_cycle st sh env).1.sample_buffer
      ∧ ((run_monitor_cycle st sh env).1.mav_voltage < 24 →
          (run_monitor_cycle st sh env).2.monitor_util_flags.testBit 3 = true
          ∧ (run_monitor_cycle st sh env).2.monitor_util_flags.testBit 2
              = sh.monitor_util_flags.testBit 2
          ∧ (run_monitor_cycle st sh env).1.soc_low_asserted = st.soc_low_asserted)
      ∧ (¬ (run_monitor_cycle st sh env).1.mav_voltage < 24 →
          (run_monitor_cycle st sh env).1.mav_voltage < 26 → st.soc_low_asserted = false →
          (run_monitor_cycle st sh env).2.monitor_util_flags.testBit 2 = true
          ∧ (run_monitor_cycle st sh env).1.soc_low_asserted = true
          ∧ (run_monitor_cycle st sh env).2.monitor_util_flags.testBit 3
              = sh.monitor_util_flags.testBit 3)
      ∧ (¬ (run_monitor_cycle st sh env).1.mav_voltage < 24 →
          ¬ ((run_monitor_cycle st sh env).1.mav_voltage < 26 ∧ st.soc_low_asserted = false) →
          (run_monitor_cycle st sh env).2.monitor_util_flags.testBit 2
              = sh.monitor_util_flags.testBit 2
          ∧ (run_monitor_cycle st sh env).2.monitor_util_flags.testBit 3
              = sh.monitor_util_flags.testBit 3
          ∧ (run_monitor_cycle st sh env).1.soc_low_asserted = st.soc_low_asserted)
      ∧ (run_monitor_cycle st sh env).2.monitor_util_flags.testBit 4
          = sh.monitor_util_flags.testBit 4)
    ∧ ((run_monitor_cycle st sh env).2.monitor_util_flags.testBit 2
          = sh.monitor_util_flags.testBit 2
        ∨ (run_monitor_cycle st sh env).2.monitor_util_flags.testBit 3
          = sh.monitor_util_flags.testBit 3) := by
  by_cases h : cycle_succeeds sh.monitor_util_flags env
  · have b2 := testBit_run_monitor_cycle_of_ok st sh env h 2 (by omega) (by omega)
    have b3 := testBit_run_monitor_cycle_of_ok st sh env h 3 (by omega) (by omega)
    have b4 := testBit_run_monitor_cycle_of_ok st sh env h 4 (by omega) (by omega)
    have ha := soc_low_asserted_of_ok st sh env h
    have hm : (run_monitor_cycle st sh env).1.mav_voltage
        = sample_buffer_sum (run_monitor_cycle st sh env).1.sample_buffer := by
      rw [run_monitor_cycle_of_ok st sh env h]
    generalize (run_monitor_cycle st sh env).1.mav_voltage = m at b2 b3 b4 ha hm ⊢
    unfold run_monitor_thresholds SOC_VOLTAGE_CRITICAL SOC_VOLTAGE_LOW at ha
    refine ⟨fun _ => ⟨hm, ?_, ?_, ?_, ?_⟩, ?_⟩
    · intro h1
      rw [b2, b3, ha, if_pos h1]
      simp [h1]
    · intro h1 h2 h3
      rw [b2, b3, ha, if_neg h1, if_pos ⟨h2, h3⟩]
      simp [h1, h2, h3]
    · intro h1 h2
      rw [b2, b3, ha, if_neg h1, if_neg h2]
      rw [not_and] at h2
      by_cases h3 : m < 26
      · simp [h1, h3, h2 h3]
      · simp [h1, h3]
    · rw [b4]
      simp
    · by_cases h1 : m < 24
      · left
        rw [b2]
        simp [h1]
      · right
        rw [b3]
        simp [h1]
  · refine ⟨fun hs => absurd hs h, Or.inl ?_⟩
    rw [testBit_run_monitor_cycle_of_fail st sh env h 2 (by omega) (by omega)]
    simp

/-- Witness for C3: the first cycle after start-up with a reading of about 22.0 V is successful;
its moving average is still above 26, so no fault flag changes. -/
theorem thresholds_of_cycle_witness :
    cycle_succeeds monitor_init.monitor_util_flags adc_22v_env
    ∧ (run_monitor_cycle run_monitor_entry monitor_init adc_22v_env).2.monitor_util_flags.testBit 2
        = monitor_init.monitor_util_flags.testBit 2
    ∧ (run_monitor_cycle run_monitor_entry monitor_init adc_22v_env).2.monitor_util_flags.testBit 3
        = monitor_init.monitor_util_flags.testBit 3 := by
  have hm := entry_22v_mav
  have h := ((thresholds_of_cycle run_monitor_entry monitor_init adc_22v_env).1
    adc_22v_succeeds).2.2.2.1 (by rw [hm]; norm_num) (by rw [hm]; norm_num)
  exact ⟨adc_22v_succeeds, h.1, h.2.1⟩

/-! ## Battery monitor: fault flags are sticky -/

theorem testBit_run_monitor_cycle_mono (st : MonitorLocals) (sh : MonitorShared) (env : AdcEnv)
    (k : Nat) (h2 : 2 ≤ k) (hk : k < 32) (hset : sh.monitor_util_flags.testBit k = true) :
    (run_monitor_cycle st sh env).2.monitor_util_flags.testBit k = true := by
  by_cases h : cycle_succeeds sh.monitor_util_flags env
  · rw [testBit_run_monitor_cycle_of_ok st sh env h k h2 hk, hset]
    simp
  · rw [testBit_run_monitor_cycle_of_fail st sh env h k h2 hk, hset]
    simp

theorem testBit_run_monitor_cycles_mono (envs : List AdcEnv) (st : MonitorLocals)
    (sh : MonitorShared) (k : Nat) (h2 : 2 ≤ k) (hk : k < 32)
    (hset : sh.monitor_util_flags.testBit k = true) :
    (run_monitor_cycles st sh envs).2.monitor_util_flags.testBit k = true := by
  induction envs generalizing st sh with
  | nil => exact hset
  | cons env rest ih =>
    exact ih _ _ (testBit_run_monitor_cycle_mono st sh env k h2 hk hset)

theorem monitor_accessor_bits (flags : Nat) :
    (monitor_soc_low flags true).2.testBit 2 = false
    ∧ (monitor_soc_crit flags true).2.testBit 3 = false
    ∧ (monitor_read_fail flags true).2.testBit 4 = false
    ∧ (monitor_soc_low flags true).1 = flags.testBit 2
    ∧ (monitor_soc_crit flags true).1 = flags.testBit 3
    ∧ (monitor_read_fail flags true).1 = flags.testBit 4 := by
  have key : ∀ (k : Nat), k < 32 →
      (if (decide (osEventFlagsGet flags &&& (1 <<< k) ≠ 0) && true) = true then
          (decide (osEventFlagsGet flags &&& (1 <<< k) ≠ 0), osEventFlagsClear flags (1 <<< k))
        else (decide (osEventFlagsGet flags &&& (1 <<< k) ≠ 0), flags)).2.testBit k = false
      ∧ (if (decide (osEventFlagsGet flags &&& (1 <<< k) ≠ 0) && true) = true then
          (decide (osEventFlagsGet flags &&& (1 <<< k) ≠ 0), osEventFlagsClear flags (1 <<< k))
        else (decide (osEventFlagsGet flags &&& (1 <<< k) ≠ 0), flags)).1 = flags.testBit k := by
    intro k hk
    have hd : decide (osEventFlagsGet flags &&& (1 <<< k) ≠ 0) = flags.testBit k := by
      unfold osEventFlagsGet
      cases hb : flags.testBit k
      · simpa using (and_bit_eq_zero_iff flags k).2 hb
      · simpa using (and_bit_ne_zero_iff flags k).2 hb
    rw [hd]
    cases hb : flags.testBit k
    · simp [hb]
    · simp only [Bool.and_self, if_true, and_true]
      rw [testBit_osEventFlagsClear _ _ _ hk, Nat.one_shiftLeft, Nat.testBit_two_pow_self]
      simp
  exact ⟨(key 2 (by omega)).1, (key 3 (by omega)).1, (key 4 (by omega)).1,
    (key 2 (by omega)).2, (key 3 (by omega)).2, (key 4 (by omega)).2⟩

/-- C4: a fault flag (SOC_LOW, bit 2; SOC_CRITICAL, bit 3; READ_FAIL, bit 4) that is set before
a monitor cycle is set after it, whether the cycle succeeds or fails, and so after any number of
cycles, whatever the voltages are; an accessor called with clear = false leaves the flag word as
it is, and only an accessor called with clear = true clears its flag. -/
theorem fault_flags_sticky (st : MonitorLocals) (sh : MonitorShared) (env : AdcEnv)
    (envs : List AdcEnv) (k : Nat) (hk : k = 2 ∨ k = 3 ∨ k = 4)
    (hset : sh.monitor_util_flags.testBit k = true) :
    (run_monitor_cycle st sh env).2.monitor_util_flags.testBit k = true
    ∧ (run_monitor_cycles st sh envs).2.monitor_util_flags.testBit k = true
    ∧ (monitor_soc_low sh.monitor_util_flags false).2 = sh.monitor_util_flags
    ∧ (monitor_soc_crit sh.monitor_util_flags false).2 = sh.monitor_util_flags
    ∧ (monitor_read_fail sh.monitor_util_flags false).2 = sh.monitor_util_flags
    ∧ (monitor_soc_low sh.monitor_util_flags true).2.testBit 2 = false
    ∧ (monitor_soc_crit sh.monitor_util_flags true).2.testBit 3 = false
    ∧ (monitor_read_fail sh.monitor_util_flags true).2.testBit 4 = false := by
  have h2 : 2 ≤ k := by omega
  have h32 : k < 32 := by omega
  have hb := monitor_accessor_bits sh.monitor_util_flags
  refine ⟨testBit_run_monitor_cycle_mono st sh env k h2 h32 hset,
    testBit_run_monitor_cycles_mono envs st sh k h2 h32 hset, ?_, ?_, ?_, hb.1, hb.2.1, hb.2.2.1⟩
  · simp [monitor_soc_low]
  · simp [monitor_soc_crit]
  · simp [monitor_read_fail]

/-- Witness for C4: with SOC_LOW set after start-up, a successful cycle whose moving average is
above 26 (a 22 V reading into the fresh buffer) and a run of timeouts leave SOC_LOW set. -/
theorem fault_flags_sticky_witness :
    (run_monitor_cycle run_monitor_entry
        { monitor_init with monitor_util_flags := 6 } adc_22v_env).2.monitor_util_flags.testBit 2
      = true
    ∧ (run_monitor_cycles run_monitor_entry { monitor_init with monitor_util_flags := 6 }
        [adc_22v_env, adc_timeout_env, adc_22v_env]).2.monitor_util_flags.testBit 2 = true :=
  have h := fault_flags_sticky run_monitor_entry { monitor_init with monitor_util_flags := 6 }
    adc_22v_env [adc_22v_env, adc_timeout_env, adc_22v_env] 2 (Or.inl rfl) (by decide)
  ⟨h.1, h.2.1⟩

/-! ## Flag accessors -/

theorem accessor_core (flags k : Nat) (clear : Bool) :
    (if (decide (osEventFlagsGet flags &&& (1 <<< k) ≠ 0) && clear) = true then
        (decide (osEventFlagsGet flags &&& (1 <<< k) ≠ 0), osEventFlagsClear flags (1 <<< k))
      else (decide (osEventFlagsGet flags &&& (1 <<< k) ≠ 0), flags))
    = (flags.testBit k,
        if flags.testBit k && clear then osEventFlagsClear flags (1 <<< k) else flags) := by
  have hd : decide (osEventFlagsGet flags &&& (1 <<< k) ≠ 0) = flags.testBit k := by
    unfold osEventFlagsGet
    cases hb : flags.testBit k
    · simpa using (and_bit_eq_zero_iff flags k).2 hb
    · simpa using (and_bit_ne_zero_iff flags k).2 hb
  rw [hd]
  cases flags.testBit k <;> cases clear <;> simp

theorem testBit_clear_bit (flags k j : Nat) (hj : j < 32) :
    (osEventFlagsClear flags (1 <<< k)).testBit j = (flags.testBit j && !decide (k = j)) := by
  rw [testBit_osEventFlagsClear _ _ _ hj, Nat.one_shiftLeft, Nat.testBit_two_pow]

theorem monitor_soc_crit_eq (flags : Nat) (clear : Bool) :
    monitor_soc_crit flags clear
      = (flags.testBit 3, if flags.testBit 3 && clear then osEventFlagsClear flags (1 <<< 3)
          else flags) :=
  accessor_core flags 3 clear

theorem monitor_read_fail_eq (flags : Nat) (clear : Bool) :
    monitor_read_fail flags clear
      = (flags.testBit 4, if flags.testBit 4 && clear then osEventFlagsClear flags (1 <<< 4)
          else flags) :=
  accessor_core flags 4 clear

theorem monitor_soc_low_eq (flags : Nat) (clear : Bool) :
    monitor_soc_low flags clear
      = (flags.testBit 2, if flags.testBit 2 && clear then osEventFlagsClear flags (1 <<< 2)
          else flags) :=
  accessor_core flags 2 clear

theorem testBit_accessor_clear (flags k j : Nat) (hj : j < 32) :
    (if flags.testBit k && true then osEventFlagsClear flags (1 <<< k) else flags).testBit j
      = (flags.testBit j && !decide (k = j)) := by
  by_cases hb : flags.testBit k = true
  · simp only [hb, Bool.and_self, if_true]
    exact testBit_clear_bit flags k j hj
  · have hb' : flags.testBit k = false := by simpa using hb
    simp only [hb', Bool.false_and, Bool.false_eq_true, if_false]
    by_cases hkj : k = j
    · subst hkj; simp [hb']
    · simp [hkj]

/-! ## Orchestrator: the shutdown deadline -/

theorem poll_faults_spec (mon tick : Nat) (latched : Bool) (tc tf : Nat) :
    (poll_faults mon tick latched tc tf).2.2.1 =
        (if mon.testBit 3 && !latched then (tc % 2 ^ 32 + 10000) % 2 ^ 32
          else if mon.testBit 4 && !latched then (tf % 2 ^ 32 + 10000) % 2 ^ 32
          else tick)
    ∧ (poll_faults mon tick latched tc tf).2.2.2 = (latched || mon.testBit 3 || mon.testBit 4)
    ∧ (∀ j, j < 32 → (poll_faults mon tick latched tc tf).2.1.testBit j =
        (mon.testBit j && !decide (j = 2) && !decide (j = 3) && !decide (j = 4))) := by
  unfold poll_faults
  simp only [monitor_soc_crit_eq, monitor_read_fail_eq, monitor_soc_low_eq]
  have b4 : (if mon.testBit 3 && true then osEventFlagsClear mon (1 <<< 3) else mon).testBit 4
      = mon.testBit 4 := by
    rw [testBit_accessor_clear _ _ _ (by omega)]; simp
  refine ⟨?_, ?_, ?_⟩
  · rw [b4]
    cases mon.testBit 3 <;> cases mon.testBit 4 <;> cases latched <;> simp
  · rw [b4]
    cases mon.testBit 3 <;> cases mon.testBit 4 <;> cases latched <;> simp
  · intro j hj
    rw [testBit_accessor_clear _ _ _ hj, testBit_accessor_clear _ _ _ hj,
      testBit_accessor_clear _ _ _ hj]
    cases mon.testBit j <;>
      simp [eq_comm, Bool.and_comm, Bool.and_left_comm, Bool.and_assoc]

theorem poll_iteration_next_eq (s : PollState) (env : PollEnv) :
    (poll_iteration s env).next =
      if (pushbutton_long_pressed (pushbutton_short_pressed (pushbutton_bumped
          (osEventFlagsSet s.pb_flags env.pb_arrived) true).2 true).2 true).1 = true then none
      else if env.tick_deadline % 2 ^ 32 >
          (poll_faults (osEventFlagsSet s.monitor_util_flags env.monitor_arrived) s.shutdown_tick
            s.shutdown_latched env.tick_crit env.tick_fail).2.2.1 then none
      else some
        { pb_flags := (pushbutton_released (pushbutton_long_pressed (pushbutton_short_pressed
            (pushbutton_bumped (osEventFlagsSet s.pb_flags env.pb_arrived) true).2 true).2
              true).2 true).2
          monitor_util_flags :=
            (poll_faults (osEventFlagsSet s.monitor_util_flags env.monitor_arrived)
              s.shutdown_tick s.shutdown_latched env.tick_crit env.tick_fail).2.1
          shutdown_tick :=
            (poll_faults (osEventFlagsSet s.monitor_util_flags env.monitor_arrived)
              s.shutdown_tick s.shutdown_latched env.tick_crit env.tick_fail).2.2.1
          shutdown_latched :=
            (poll_faults (osEventFlagsSet s.monitor_util_flags env.monitor_arrived)
              s.shutdown_tick s.shutdown_latched env.tick_crit env.tick_fail).2.2.2 } := by
  unfold poll_iteration
  by_cases hl : (pushbutton_long_pressed (pushbutton_short_pressed (pushbutton_bumped
      (osEventFlagsSet s.pb_flags env.pb_arrived) true).2 true).2 true).1 = true
  · rw [if_pos hl, if_pos hl]
  · rw [if_neg hl, if_neg hl]
    by_cases hd : env.tick_deadline % 2 ^ 32 >
        (poll_faults (osEventFlagsSet s.monitor_util_flags env.monitor_arrived) s.shutdown_tick
          s.shutdown_latched env.tick_crit env.tick_fail).2.2.1
    · rw [if_pos hd, if_pos hd]
    · rw [if_neg hd, if_neg hd]

theorem poll_iteration_next (s s1 : PollState) (env : PollEnv)
    (h : (poll_iteration s env).next = some s1) :
    s1.shutdown_tick =
        (if (osEventFlagsSet s.monitor_util_flags env.monitor_arrived).testBit 3
            && !s.shutdown_latched then (env.tick_crit % 2 ^ 32 + 10000) % 2 ^ 32
          else if (osEventFlagsSet s.monitor_util_flags env.monitor_arrived).testBit 4
            && !s.shutdown_latched then (env.tick_fail % 2 ^ 32 + 10000) % 2 ^ 32
          else s.shutdown_tick)
    ∧ s1.shutdown_latched =
        (s.shutdown_latched
          || (osEventFlagsSet s.monitor_util_flags env.monitor_arrived).testBit 3
          || (osEventFlagsSet s.monitor_util_flags env.monitor_arrived).testBit 4)
    ∧ (∀ j, j < 32 → s1.monitor_util_flags.testBit j =
        ((osEventFlagsSet s.monitor_util_flags env.monitor_arrived).testBit j
          && !decide (j = 2) && !decide (j = 3) && !decide (j = 4)))
    ∧ ¬ (env.tick_deadline % 2 ^ 32 > s1.shutdown_tick) := by
  rw [poll_iteration_next_eq] at h
  obtain ⟨p1, p2, p3⟩ := poll_faults_spec
    (osEventFlagsSet s.monitor_util_flags env.monitor_arrived) s.shutdown_tick
    s.shutdown_latched env.tick_crit env.tick_fail
  split at h
  · exact absurd h (by simp)
  · split at h
    · exact absurd h (by simp)
    · rename_i hd
      have hs := Option.some.inj h
      subst hs
      exact ⟨p1, p2, p3, hd⟩

theorem poll_loop_armed (envs : List PollEnv) (s s1 : PollState)
    (hl : s.shutdown_latched = true) (h : (poll_loop s envs).next = some s1) :
    s1.shutdown_tick = s.shutdown_tick ∧ s1.shutdown_latched = true := by
  induction envs generalizing s with
  | nil =>
    have hs : s = s1 := Option.some.inj h
    subst hs
    exact ⟨rfl, hl⟩
  | cons env rest ih =>
    cases hn : (poll_iteration s env).next with
    | none =>
      simp only [poll_loop, hn] at h
      exact absurd h (by simp)
    | some s2 =>
      simp only [poll_loop, hn] at h
      obtain ⟨p1, p2, -, -⟩ := poll_iteration_next s s2 env hn
      have hl2 : s2.shutdown_latched = true := by rw [p2, hl]; simp
      have ht2 : s2.shutdown_tick = s.shutdown_tick := by rw [p1, hl]; simp
      obtain ⟨q1, q2⟩ := ih s2 hl2 h
      exact ⟨q1.trans ht2, q2⟩

/-- C5: in an iteration of the poll loop that goes on to the next one, the shutdown deadline is
written only when no deadline is armed and SOC_CRITICAL or READ_FAIL is observed, and then it is
(tick + 10000) mod 2^32 for the tick read in that branch; with a deadline armed the iteration
leaves `shutdown_tick` and `shutdown_latched` as they are, whatever faults it observes; when
neither SOC_CRITICAL nor READ_FAIL is observed the deadline is unchanged, whether or not SOC_LOW
is observed; the three fault flags are clear after the iteration; and once a deadline is armed,
no number of later iterations changes it. -/
theorem shutdown_deadline_armed_once (s s1 : PollState) (env : PollEnv) (envs : List PollEnv) :
    ((poll_iteration s env).next = some s1 →
      (s.shutdown_latched = true →
        s1.shutdown_tick = s.shutdown_tick ∧ s1.shutdown_latched = true)
      ∧ (s.shutdown_latched = false →
          (osEventFlagsSet s.monitor_util_flags env.monitor_arrived).testBit 3 = true →
          s1.shutdown_tick = (env.tick_crit % 2 ^ 32 + 10000) % 2 ^ 32
            ∧ s1.shutdown_latched = true)
      ∧ (s.shutdown_latched = false →
          (osEventFlagsSet s.monitor_util_flags env.monitor_arrived).testBit 3 = false →
          (osEventFlagsSet s.monitor_util_flags env.monitor_arrived).testBit 4 = true →
          s1.shutdown_tick = (env.tick_fail % 2 ^ 32 + 10000) % 2 ^ 32
            ∧ s1.shutdown_latched = true)
      ∧ ((osEventFlagsSet s.monitor_util_flags env.monitor_arrived).testBit 3 = false →
          (osEventFlagsSet s.monitor_util_flags env.monitor_arrived).testBit 4 = false →
          s1.shutdown_tick = s.shutdown_tick ∧ s1.shutdown_latched = s.shutdown_latched)
      ∧ s1.monitor_util_flags.testBit 2 = false
      ∧ s1.monitor_util_flags.testBit 3 = false
      ∧ s1.monitor_util_flags.testBit 4 = false)
    ∧ (s.shutdown_latched = true → (poll_loop s envs).next = some s1 →
        s1.shutdown_tick = s.shutdown_tick ∧ s1.shutdown_latched = true) := by
  refine ⟨fun h => ?_, fun hl h => poll_loop_armed envs s s1 hl h⟩
  obtain ⟨p1, p2, p3, -⟩ := poll_iteration_next s s1 env h
  refine ⟨?_, ?_, ?_, ?_, ?_, ?_, ?_⟩
  · intro hl
    rw [p1, p2, hl]
    simp
  · intro hl h3
    rw [p1, p2, hl, h3]
    simp
  · intro hl h3 h4
    rw [p1, p2, hl, h3, h4]
    simp
  · intro h3 h4
    rw [p1, p2, h3, h4]
    simp
  · rw [p3 2 (by omega)]
    simp
  · rw [p3 3 (by omega)]
    simp
  · rw [p3 4 (by omega)]
    simp

/-- Witness for C5: with SOC_CRITICAL set and no deadline armed, the iteration at tick 5000 arms
the deadline 15000 and clears the flag; the next iteration, with READ_FAIL set at tick 6000,
keeps the deadline 15000. -/
theorem shutdown_deadline_armed_once_witness :
    (poll_iteration poll_state_crit (poll_env_at 5000 0)).next = some poll_state_armed
    ∧ (poll_state_armed.shutdown_tick = ((poll_env_at 5000 0).tick_crit % 2 ^ 32 + 10000) % 2 ^ 32
        ∧ poll_state_armed.shutdown_latched = true)
    ∧ (poll_iteration poll_state_armed (poll_env_at 6000 SOC_MEASURE_FAIL)).next
        = some poll_state_armed :=
  ⟨by decide,
   ((shutdown_deadline_armed_once poll_state_crit poll_state_armed (poll_env_at 5000 0) []).1
      (by decide)).2.1 rfl (by decide),
   by decide⟩

/-- C6: the deadline test `HAL_GetTick() > shutdown_tick` compares the raw tick with a deadline
computed modulo 2^32. Armed at tick 2^32 - 10000 the deadline is 0, and the very iteration that
arms it ends in `shutdown`, 0 ticks after arming; armed at tick 2^32 - 10001 the deadline is
0xFFFFFFFF, and the poll 10001 ticks later (tick 0) does not shut down. -/
theorem deadline_test_at_tick_wrap :
    poll_iteration poll_state_crit (poll_env_at 4294957296 0)
      = { trace := Action.buzz_warn_critical :: shutdown, next := none }
    ∧ (poll_iteration poll_state_crit (poll_env_at 4294957295 0)).next
      = some { pb_flags := 0, monitor_util_flags := 0, shutdown_tick := 4294967295,
               shutdown_latched := true }
    ∧ (poll_iteration { pb_flags := 0, monitor_util_flags := 0, shutdown_tick := 4294967295,
                        shutdown_latched := true }
        (poll_env_at (4294957295 + 10001) 0)).next
      = some { pb_flags := 0, monitor_util_flags := 0, shutdown_tick := 4294967295,
               shutdown_latched := true } := by
  decide

/-! ## Orchestrator: a failed voltage check -/

theorem long_press_wait (pb_arrived : Nat) (h : pb_arrived.testBit 3 = true) :
    (osEventFlagsWait 0 BUTTON_LONG_PRESSED false 0xFFFFFFFF pb_arrived).2
      ≠ osFlagsErrorTimeout := by
  have h8 : (0 ||| pb_arrived) &&& BUTTON_LONG_PRESSED = 8 := by
    have : BUTTON_LONG_PRESSED = 2 ^ 3 := by decide
    rw [Nat.zero_or, this, Nat.and_two_pow, h]
    rfl
  have hc : (if (4294967295 : ℕ) = 0 then 0 else 0 ||| pb_arrived) = 0 ||| pb_arrived :=
    if_neg (by decide)
  simp only [osEventFlagsWait]
  rw [hc, h8, if_pos (by decide)]
  show (8 : ℕ) ≠ osFlagsErrorTimeout
  decide

/-- C7: when the long press has arrived and `v_sys_check(20, ...)` returns false,
`doStateMachine` makes its start-up calls and then exactly the calls of `shutdown` (LED off,
shutdown buzz, FET_DRV written RESET, delay, HAL_DeInit, halt), never enters the poll loop,
never writes FET_DRV SET and starts neither the monitor task nor the bargraph engine. -/
theorem failed_check_never_powers (pb_arrived : Nat) (env : AdcEnv) (polls : List PollEnv)
    (hlp : pb_arrived.testBit 3 = true)
    (hchk : (v_sys_check 20 monitor_init.monitor_util_flags env).1 = false) :
    doStateMachine pb_arrived env polls = { trace := start_calls ++ shutdown, next := none }
    ∧ Action.fet_drv_write true ∉ (doStateMachine pb_arrived env polls).trace
    ∧ Action.monitor_start ∉ (doStateMachine pb_arrived env polls).trace
    ∧ Action.bargraph_init ∉ (doStateMachine pb_arrived env polls).trace
    ∧ Action.fet_drv_write false ∈ (doStateMachine pb_arrived env polls).trace := by
  have hs : doStateMachine_start pb_arrived env
      = { trace := start_calls ++ shutdown, next := none } := by
    unfold doStateMachine_start
    simp only
    rw [if_neg (long_press_wait pb_arrived hlp), hchk]
    rfl
  have hd : doStateMachine pb_arrived env polls
      = { trace := start_calls ++ shutdown, next := none } := by
    unfold doStateMachine
    rw [hs]
  rw [hd]
  refine ⟨rfl, ?_, ?_, ?_, ?_⟩ <;> decide

theorem adc_15v_check_fails : (v_sys_check 20 monitor_init.monitor_util_flags adc_15v_env).1
    = false := by
  have hv : ((1689 : Fin 65536) : ℕ) = 1689 := rfl
  have hsum : (∑ i, (adc_15v_env.samples i).val) = 27024 := by
    simp [adc_15v_env, hv]
    rfl
  rw [Bool.eq_false_iff]
  intro h
  have h3 := ((v_sys_check_verdict _ _ _).1 h).2.1
  rw [hsum, to_float_20, max_eq_left (by norm_num), v_sys_float_gt_20] at h3
  omega

/-- Witness for C7: the long press arrives and the pack reads about 15 V. -/
theorem failed_check_never_powers_witness :
    BUTTON_LONG_PRESSED.testBit 3 = true
    ∧ (v_sys_check 20 monitor_init.monitor_util_flags adc_15v_env).1 = false
    ∧ doStateMachine BUTTON_LONG_PRESSED adc_15v_env [poll_env_at 0 0]
        = { trace := start_calls ++ shutdown, next := none } :=
  ⟨by decide, adc_15v_check_fails,
   (failed_check_never_powers BUTTON_LONG_PRESSED adc_15v_env [poll_env_at 0 0] (by decide)
      adc_15v_check_fails).1⟩

/-! ## Mailboxes -/

theorem Q_UPDATE_eq {α : Type} (q : MsgQueue α) (data : α) (hcap : 0 < q.capacity) :
    Q_UPDATE q data = ({ q with msgs := [data] }, osStatus_t.osOK) := by
  simp [Q_UPDATE, osMessageQueueReset, osMessageQueuePut, hcap]

theorem consumer_reads_empty {α : Type} (q : MsgQueue α) (dst : α) (n : Nat)
    (h : q.msgs = []) : consumer_reads q dst n = List.replicate n none := by
  induction n with
  | zero => rfl
  | succ n ih =>
    have hr : consumer_read q dst = (q, none) := by
      simp [consumer_read, osMessageQueueGetCount, h]
    simp only [consumer_reads, hr, ih, List.replicate_succ]

theorem consumer_read_single {α : Type} (q : MsgQueue α) (dst v : α) (h : q.msgs = [v]) :
    consumer_read q dst = ({ q with msgs := [] }, some v) := by
  simp [consumer_read, osMessageQueueGetCount, osMessageQueueGet, h]

/-- C8: on a capacity-1 queue in any state, the mailbox write (reset, then put) of `a` followed
by the write of `b`, with no read in between, leaves exactly `b` queued; the queue is empty at
each put and both puts return osOK; the next read returns `b` and empties the queue; and of any
number of reads that follow the two writes, the first reports `b` and all the others report no
value, so `a` is not observed (and with `a = b` the value is read exactly once). -/
theorem mailbox_write_twice {α : Type} (q : MsgQueue α) (a b dst : α) (n : Nat)
    (hcap : q.capacity = 1) :
    (osMessageQueueReset q).msgs = []
    ∧ (Q_UPDATE q a).2 = osStatus_t.osOK
    ∧ (osMessageQueueReset (Q_UPDATE q a).1).msgs = []
    ∧ (Q_UPDATE (Q_UPDATE q a).1 b).2 = osStatus_t.osOK
    ∧ (Q_UPDATE (Q_UPDATE q a).1 b).1 = { capacity := 1, msgs := [b] }
    ∧ osMessageQueueGet (Q_UPDATE (Q_UPDATE q a).1 b).1 dst
        = ({ capacity := 1, msgs := [] }, b, osStatus_t.osOK)
    ∧ consumer_reads (Q_UPDATE (Q_UPDATE q a).1 b).1 dst (n + 1)
        = some b :: List.replicate n none := by
  have h1 : Q_UPDATE q a = ({ capacity := 1, msgs := [a] }, osStatus_t.osOK) := by
    rw [Q_UPDATE_eq q a (by omega), hcap]
  have h2 : Q_UPDATE (Q_UPDATE q a).1 b = ({ capacity := 1, msgs := [b] }, osStatus_t.osOK) := by
    rw [h1]
    exact Q_UPDATE_eq _ b Nat.one_pos
  refine ⟨rfl, by rw [h1], rfl, by rw [h2], by rw [h2], ?_, ?_⟩
  · rw [h2]
    rfl
  · rw [h2]
    simp only [consumer_reads]
    rw [consumer_read_single _ dst b rfl, consumer_reads_empty _ dst n rfl]

/-- Witness for C8: the SOC mailbox holding 1/2 is written with 3/10 twice and then read
three times. -/
theorem mailbox_write_twice_witness :
    consumer_reads (Q_UPDATE (Q_UPDATE ({ capacity := 1, msgs := [1 / 2] } : MsgQueue ℚ)
        (3 / 10)).1 (3 / 10)).1 0 (2 + 1)
      = some (3 / 10) :: List.replicate 2 none :=
  (mailbox_write_twice ({ capacity := 1, msgs := [1 / 2] } : MsgQueue ℚ) (3 / 10) (3 / 10) 0 2
    rfl).2.2.2.2.2.2

/-- C9: on an empty mailbox the consumer read reports no value and leaves the mailbox empty: the
animator keeps its `soc`, the drawer keeps its `draw_buffer`, the light supervisor takes
`pulse_width = 0`. On a mailbox holding `v` the read returns `v` and leaves the mailbox empty,
and a read that follows immediately reports no value. -/
theorem mailbox_read_contract (qs : MsgQueue ℚ) (qn : MsgQueue Nat) (soc vs : ℚ)
    (old vn : Nat) :
    (qs.msgs = [] →
      consumer_read qs soc = (qs, none) ∧ animate_bargraph_read qs soc = (qs, soc))
    ∧ (qn.msgs = [] →
      consumer_read qn old = (qn, none) ∧ draw_bargraph_read qn old = (qn, old)
      ∧ run_lights_supervisor_read qn old = (qn, 0))
    ∧ (qs.msgs = [vs] →
      consumer_read qs soc = ({ qs with msgs := [] }, some vs)
      ∧ animate_bargraph_read qs soc = ({ qs with msgs := [] }, vs)
      ∧ (consumer_read (consumer_read qs soc).1 soc).2 = none
      ∧ animate_bargraph_read (animate_bargraph_read qs soc).1 vs = ({ qs with msgs := [] }, vs))
    ∧ (qn.msgs = [vn] →
      consumer_read qn old = ({ qn with msgs := [] }, some vn)
      ∧ draw_bargraph_read qn old = ({ qn with msgs := [] }, vn)
      ∧ run_lights_supervisor_read qn old = ({ qn with msgs := [] }, vn)
      ∧ (consumer_read (consumer_read qn old).1 old).2 = none
      ∧ draw_bargraph_read (draw_bargraph_read qn old).1 vn = ({ qn with msgs := [] }, vn)
      ∧ run_lights_supervisor_read (run_lights_supervisor_read qn old).1 vn
          = ({ qn with msgs := [] }, 0)) := by
  refine ⟨fun h => ?_, fun h => ?_, fun h => ?_, fun h => ?_⟩
  · simp [consumer_read, animate_bargraph_read, osMessageQueueGetCount, h]
  · simp [consumer_read, draw_bargraph_read, run_lights_supervisor_read,
      osMessageQueueGetCount, h]
  · simp [consumer_read, animate_bargraph_read, osMessageQueueGetCount, osMessageQueueGet, h]
  · simp [consumer_read, draw_bargraph_read, run_lights_supervisor_read,
      osMessageQueueGetCount, osMessageQueueGet, h]

/-- Witness for C9: an SOC mailbox holding 1/2 and a pulse mailbox holding 1800. -/
theorem mailbox_read_contract_witness :
    animate_bargraph_read { capacity := 1, msgs := [1 / 2] } 0
        = ({ capacity := 1, msgs := [] }, 1 / 2)
    ∧ run_lights_supervisor_read { capacity := 1, msgs := [1800] } 7
        = ({ capacity := 1, msgs := [] }, 1800) :=
  ⟨((mailbox_read_contract { capacity := 1, msgs := [1 / 2] } { capacity := 1, msgs := [1800] }
      0 (1 / 2) 7 1800).2.2.1 rfl).2.1,
   ((mailbox_read_contract { capacity := 1, msgs := [1 / 2] } { capacity := 1, msgs := [1800] }
      0 (1 / 2) 7 1800).2.2.2 rfl).2.2.1⟩

/-! ## Bargraph: the level computed from the SOC -/

theorem float_to_uint8_eq (x : ℚ) (h0 : 0 ≤ x) (h1 : x < 256) :
    (float_to_uint8 x : ℤ) = ⌊x⌋ := by
  have hn : 0 ≤ x.num := Rat.num_nonneg.2 h0
  have hf0 : 0 ≤ ⌊x⌋ := Int.floor_nonneg.2 h0
  have hf1 : ⌊x⌋ < 256 := Int.floor_lt.2 (by exact_mod_cast h1)
  unfold float_to_uint8
  rw [Int.tdiv_eq_ediv hn (Int.natCast_nonneg _), ← Rat.floor_def,
    Int.emod_eq_of_lt hf0 hf1, Int.toNat_of_nonneg hf0]

theorem to_float_999 : to_float (999 / 1000) = 16760439 / 16777216 := by
  rw [to_float_eval (999 / 1000) (-1) 16760439 (by norm_num) (by norm_num [abs_of_pos])
    (by norm_num [abs_of_pos]) (by norm_num) (by norm_num)]
  norm_num

theorem to_float_96 : to_float (96 / 100) = 16106127 / 16777216 := by
  rw [to_float_eval (96 / 100) (-1) 16106127 (by norm_num) (by norm_num [abs_of_pos])
    (by norm_num [abs_of_pos]) (by norm_num) (by norm_num)]
  norm_num

theorem to_float_54 : to_float (54 / 100) = 9059697 / 16777216 := by
  rw [to_float_eval (54 / 100) (-1) 9059697 (by norm_num) (by norm_num [abs_of_pos])
    (by norm_num [abs_of_pos]) (by norm_num) (by norm_num)]
  norm_num

theorem to_float_product_54 : to_float (9059697 / 16777216 * 20) = 11324621 / 1048576 := by
  rw [to_float_eval (9059697 / 16777216 * 20) 3 11324621 (by norm_num)
    (by norm_num [abs_of_pos]) (by norm_num [abs_of_pos]) (by norm_num) (by norm_num)]
  norm_num

theorem to_float_product_96 : to_float (16106127 / 16777216 * 20) = 10066329 / 524288 := by
  rw [to_float_eval (16106127 / 16777216 * 20) 4 10066329 (by norm_num)
    (by norm_num [abs_of_pos]) (by norm_num [abs_of_pos]) (by norm_num) (by norm_num)]
  norm_num

theorem to_float_product_999 : to_float (999 / 1000 * 20) = 5237637 / 262144 := by
  rw [to_float_eval (999 / 1000 * 20) 4 10475274 (by norm_num)
    (by norm_num [abs_of_pos]) (by norm_num [abs_of_pos]) (by norm_num) (by norm_num)]
  norm_num

theorem to_float_product_top : to_float (16777215 / 16777216 * 20) = 10485759 / 524288 := by
  rw [to_float_eval (16777215 / 16777216 * 20) 4 10485759 (by norm_num)
    (by norm_num [abs_of_pos]) (by norm_num [abs_of_pos]) (by norm_num) (by norm_num)]
  norm_num

/-- The largest `float` value below 1 is 1 - 2^-24. -/
theorem to_float_lt_one {s : ℚ} (h : to_float s < 1) : to_float s ≤ 16777215 / 16777216 := by
  rcases lt_or_le s (1 / 2) with hs | hs
  · have := to_float_mono hs.le
    rw [to_float_half] at this
    linarith
  · have hs1 : s < 1 := by
      by_contra hc
      have := to_float_mono (not_lt.1 hc)
      rw [to_float_one] at this
      linarith
    have hpos : 0 < s := by linarith
    have hlog : Int.log 2 |s| = -1 :=
      int_log_two_eq (by rw [abs_of_pos hpos]; norm_num; linarith)
        (by rw [abs_of_pos hpos]; norm_num; linarith)
    have he : to_float s = (round_half_even (s / 2 ^ (-24 : ℤ)) : ℚ) * 2 ^ (-24 : ℤ) := by
      unfold to_float float_round
      simp only [hlog]
      norm_num
    rw [he] at h ⊢
    generalize round_half_even (s / 2 ^ (-24 : ℤ)) = r at h ⊢
    have hr : (r : ℚ) < 16777216 := by
      have h2 : (2 : ℚ) ^ (-24 : ℤ) = 1 / 16777216 := by norm_num
      rw [h2] at h
      linarith
    have hr' : r < 16777216 := by exact_mod_cast hr
    have hr2 : (r : ℚ) ≤ 16777215 := by exact_mod_cast (show r ≤ 16777215 by omega)
    have h2 : (2 : ℚ) ^ (-24 : ℤ) = 1 / 16777216 := by norm_num
    rw [h2]
    linarith

theorem animate_bargraph_constrain_bounds (s : ℚ) :
    0 ≤ animate_bargraph_constrain s ∧ animate_bargraph_constrain s ≤ 16777215 / 16777216 := by
  unfold animate_bargraph_constrain
  simp only
  split_ifs with h1 h2
  · rw [to_float_999]; norm_num
  · norm_num
  · exact ⟨not_lt.1 h2, to_float_lt_one (not_le.1 h1)⟩

theorem animate_bargraph_constrain_neg {s : ℚ} (hs : s < 0) :
    animate_bargraph_constrain s = 0 := by
  have h := to_float_mono hs.le
  rw [to_float_zero] at h
  unfold animate_bargraph_constrain
  simp only
  rw [if_neg (not_le.2 (by linarith))]
  split_ifs with h2
  · rfl
  · linarith [not_lt.1 h2]

theorem animate_bargraph_constrain_ge_one {s : ℚ} (hs : 1 ≤ s) :
    animate_bargraph_constrain s = 16760439 / 16777216 := by
  have h := to_float_mono hs
  rw [to_float_one] at h
  unfold animate_bargraph_constrain
  simp only
  rw [if_pos h, to_float_999]

theorem animate_bargraph_constrain_float {s : ℚ} (h0 : 0 ≤ s) (h1 : s < 1)
    (hf : to_float s = s) : animate_bargraph_constrain s = s := by
  unfold animate_bargraph_constrain
  simp only
  rw [hf, if_neg (not_le.2 h1), if_neg (not_lt.2 h0)]

/-- The constrained SOC, and with it the level, depends only on the `float` value that the
variable holds. -/
theorem animate_bargraph_constrain_to_float (s : ℚ) :
    animate_bargraph_constrain (to_float s) = animate_bargraph_constrain s := by
  unfold animate_bargraph_constrain
  simp only [to_float_idem]

theorem scaled_product_bounds (s : ℚ) :
    0 ≤ to_float (animate_bargraph_constrain s * 20)
    ∧ to_float (animate_bargraph_constrain s * 20) ≤ 10485759 / 524288 := by
  obtain ⟨h0, h1⟩ := animate_bargraph_constrain_bounds s
  refine ⟨float_round_nonneg 24 (-126) (by positivity), ?_⟩
  have h := to_float_mono (show animate_bargraph_constrain s * 20 ≤ 16777215 / 16777216 * 20 by
    linarith)
  rw [to_float_product_top] at h
  exact h

theorem scaled_soc_eq_floor (s : ℚ) :
    (animate_bargraph_scaled_soc s : ℤ) = ⌊to_float (animate_bargraph_constrain s * 20)⌋ := by
  obtain ⟨h0, h1⟩ := scaled_product_bounds s
  exact float_to_uint8_eq _ h0 (by linarith)

theorem scaled_soc_le (s : ℚ) : animate_bargraph_scaled_soc s ≤ 19 := by
  obtain ⟨h0, h1⟩ := scaled_product_bounds s
  have h := scaled_soc_eq_floor s
  have hf : ⌊to_float (animate_bargraph_constrain s * 20)⌋ < 20 := by
    rw [Int.floor_lt]
    push_cast
    linarith
  omega

theorem scaled_soc_full (s : ℚ) (hs : 96 / 100 ≤ s) : animate_bargraph_scaled_soc s = 19 := by
  have h := scaled_soc_eq_floor s
  obtain ⟨-, h1⟩ := scaled_product_bounds s
  have hc : 16106127 / 16777216 ≤ animate_bargraph_constrain s := by
    have h96 := to_float_mono hs
    rw [to_float_96] at h96
    unfold animate_bargraph_constrain
    simp only
    split_ifs with h1 h2
    · rw [to_float_999]; norm_num
    · linarith
    · exact h96
  have hp := to_float_mono (show 16106127 / 16777216 * 20 ≤ animate_bargraph_constrain s * 20 by
    linarith)
  rw [to_float_product_96] at hp
  have hf : ⌊to_float (animate_bargraph_constrain s * 20)⌋ = 19 := by
    rw [Int.floor_eq_iff]
    push_cast
    constructor <;> linarith
  omega

theorem scaled_soc_54 : animate_bargraph_scaled_soc (54 / 100) = 10 := by
  have h := scaled_soc_eq_floor (54 / 100)
  have hc : animate_bargraph_constrain (54 / 100) = 9059697 / 16777216 := by
    unfold animate_bargraph_constrain
    simp only
    rw [to_float_54]
    norm_num
  have hf : ⌊(11324621 / 1048576 : ℚ)⌋ = 10 := by
    rw [Int.floor_eq_iff]; norm_num
  rw [hc, to_float_product_54, hf] at h
  exact_mod_cast h

theorem to_float_soc_7 : to_float (11744051 / 33554432) = 11744051 / 33554432 := by
  rw [to_float_eval (11744051 / 33554432) (-2) 11744051 (by norm_num)
    (by norm_num [abs_of_pos]) (by norm_num [abs_of_pos]) (by norm_num) (by norm_num)]
  norm_num

theorem to_float_product_7 : to_float (11744051 / 33554432 * 20) = 7 := by
  rw [to_float_eval (11744051 / 33554432 * 20) 2 14680064 (by norm_num)
    (by norm_num [abs_of_pos]) (by norm_num [abs_of_pos]) (by norm_num) (by norm_num)]
  norm_num

theorem scaled_soc_zero : animate_bargraph_scaled_soc 0 = 0 := by
  have h := scaled_soc_eq_floor 0
  have hc : animate_bargraph_constrain 0 = 0 := by
    unfold animate_bargraph_constrain
    simp only
    rw [to_float_zero]
    norm_num
  rw [hc, zero_mul, to_float_zero, Int.floor_zero] at h
  exact_mod_cast h

theorem scaled_soc_soc_7 : animate_bargraph_scaled_soc (11744051 / 33554432) = 7 := by
  have h := scaled_soc_eq_floor (11744051 / 33554432)
  rw [animate_bargraph_constrain_float (by norm_num) (by norm_num) to_float_soc_7,
    to_float_product_7] at h
  have hf : ⌊(7 : ℚ)⌋ = 7 := by
    rw [Int.floor_eq_iff]; norm_num
  rw [hf] at h
  exact_mod_cast h

/-- C10, as stated, fails: the SOC 11744051/33554432 (about 0.35), a `float` value in [0,1), has
the exact product s*20 = 6.99999988..., whose floor is 6; the `float` product of the code is
rounded to 7.0 before it is truncated, so the animator computes the level 7. -/
theorem bargraph_level_exact_fails :
    (0 : ℚ) ≤ 11744051 / 33554432 ∧ (11744051 / 33554432 : ℚ) < 1
    ∧ to_float (11744051 / 33554432) = 11744051 / 33554432
    ∧ animate_bargraph_scaled_soc (11744051 / 33554432) = 7
    ∧ ⌊max 0 (min (11744051 / 33554432 : ℚ) (999 / 1000)) * 20⌋ = 6
    ∧ ¬ ((animate_bargraph_scaled_soc (11744051 / 33554432) : ℤ)
          = ⌊max 0 (min (11744051 / 33554432 : ℚ) (999 / 1000)) * 20⌋) := by
  have hf : ⌊max 0 (min (11744051 / 33554432 : ℚ) (999 / 1000)) * 20⌋ = 6 := by
    rw [min_eq_left (by norm_num), max_eq_right (by norm_num), Int.floor_eq_iff]
    norm_num
  refine ⟨by norm_num, by norm_num, to_float_soc_7, scaled_soc_soc_7, hf, ?_⟩
  rw [hf, scaled_soc_soc_7]
  norm_num

/-- C10, amended: for every SOC value s, the level L that the animator computes (the value is
held in a `float`, constrained, multiplied by 20 in `float` arithmetic, truncated to uint8)
satisfies 0 <= L <= 19; for every `float` value s in [0,1) it is
floor(fl(clamp(s,0,0.999)*20)), where fl rounds the product to the nearest `float`, which is
floor(clamp(s,0,0.999)*20) or one more; for s >= 1 it is the level of 0.999, which is 19; for
s < 0 it is the level of 0, which is 0. -/
theorem bargraph_level_rounded (s : ℚ) :
    (0 ≤ animate_bargraph_scaled_soc s ∧ animate_bargraph_scaled_soc s ≤ 19)
    ∧ (0 ≤ s → s < 1 → to_float s = s →
        (animate_bargraph_scaled_soc s : ℤ) = ⌊to_float (max 0 (min s (999 / 1000)) * 20)⌋
        ∧ ⌊max 0 (min s (999 / 1000)) * 20⌋ ≤ (animate_bargraph_scaled_soc s : ℤ)
        ∧ (animate_bargraph_scaled_soc s : ℤ) ≤ ⌊max 0 (min s (999 / 1000)) * 20⌋ + 1)
    ∧ (1 ≤ s →
        animate_bargraph_scaled_soc s = animate_bargraph_scaled_soc (999 / 1000)
        ∧ animate_bargraph_scaled_soc s = 19)
    ∧ (s < 0 →
        animate_bargraph_scaled_soc s = animate_bargraph_scaled_soc 0
        ∧ animate_bargraph_scaled_soc s = 0) := by
  refine ⟨⟨Nat.zero_le _, scaled_soc_le s⟩, ?_, ?_, ?_⟩
  · intro hs0 hs1 hfl
    have hL := scaled_soc_eq_floor s
    rw [animate_bargraph_constrain_float hs0 hs1 hfl] at hL
    by_cases hle : s ≤ 999 / 1000
    · rw [min_eq_left hle, max_eq_right hs0]
      refine ⟨hL, ?_, ?_⟩
      · rw [hL]
        apply Int.le_floor.2
        have hm := to_float_mono (Int.floor_le (s * 20))
        have h20 : s * 20 < 20 := by linarith
        have hfl0 : 0 ≤ ⌊s * 20⌋ := Int.floor_nonneg.2 (by positivity)
        have hfl1 : ⌊s * 20⌋ < 20 := Int.floor_lt.2 (by exact_mod_cast h20)
        rw [to_float_intCast _ (by rw [abs_of_nonneg hfl0]; omega)] at hm
        exact hm
      · rw [hL]
        have hm := to_float_mono (Int.lt_floor_add_one (s * 20)).le
        have h20 : s * 20 < 20 := by linarith
        have hfl0 : 0 ≤ ⌊s * 20⌋ := Int.floor_nonneg.2 (by positivity)
        have hfl1 : ⌊s * 20⌋ < 20 := Int.floor_lt.2 (by exact_mod_cast h20)
        have hc : ((⌊s * 20⌋ : ℚ) + 1) = ((⌊s * 20⌋ + 1 : ℤ) : ℚ) := by push_cast; rfl
        rw [hc, to_float_intCast _ (by rw [abs_of_nonneg (by omega)]; omega)] at hm
        have hle2 := Int.floor_le (to_float (s * 20))
        have : ((⌊to_float (s * 20)⌋ : ℤ) : ℚ) ≤ ((⌊s * 20⌋ + 1 : ℤ) : ℚ) := le_trans hle2 hm
        exact_mod_cast this
    · have hgt : (999 / 1000 : ℚ) < s := not_le.1 hle
      rw [min_eq_right hgt.le, max_eq_right (by norm_num), to_float_product_999]
      have h19 := scaled_soc_full s (by linarith)
      have e1 : ⌊(5237637 / 262144 : ℚ)⌋ = 19 := by
        rw [Int.floor_eq_iff]; norm_num
      have e2 : ⌊(999 / 1000 : ℚ) * 20⌋ = 19 := by
        rw [Int.floor_eq_iff]; norm_num
      rw [e1, e2, h19]
      norm_num
  · intro hs
    have h19 := scaled_soc_full s (by linarith)
    have h999 := scaled_soc_full (999 / 1000) (by norm_num)
    exact ⟨h19.trans h999.symm, h19⟩
  · intro hs
    have he : animate_bargraph_scaled_soc s = animate_bargraph_scaled_soc 0 := by
      have hc0 : animate_bargraph_constrain 0 = 0 := by
        unfold animate_bargraph_constrain
        simp only
        rw [to_float_zero]
        norm_num
      unfold animate_bargraph_scaled_soc
      rw [animate_bargraph_constrain_neg hs, hc0]
    exact ⟨he, he.trans scaled_soc_zero⟩

/-- Witness for C10: the `float` SOC 11744051/33554432 (about 0.35) gives level 7, the floor of
the rounded product, one above the floor 6 of the exact product; SOC 1.5 gives level 19; SOC
-0.2 gives level 0. -/
theorem bargraph_level_rounded_witness :
    ((animate_bargraph_scaled_soc (11744051 / 33554432) : ℤ)
        = ⌊to_float (max 0 (min (11744051 / 33554432 : ℚ) (999 / 1000)) * 20)⌋
      ∧ ⌊max 0 (min (11744051 / 33554432 : ℚ) (999 / 1000)) * 20⌋
          ≤ (animate_bargraph_scaled_soc (11744051 / 33554432) : ℤ)
      ∧ (animate_bargraph_scaled_soc (11744051 / 33554432) : ℤ)
          ≤ ⌊max 0 (min (11744051 / 33554432 : ℚ) (999 / 1000)) * 20⌋ + 1)
    ∧ animate_bargraph_scaled_soc (3 / 2) = 19
    ∧ animate_bargraph_scaled_soc (-1 / 5) = 0 :=
  ⟨(bargraph_level_rounded (11744051 / 33554432)).2.1 (by norm_num) (by norm_num) to_float_soc_7,
   ((bargraph_level_rounded (3 / 2)).2.2.1 (by norm_num)).2,
   ((bargraph_level_rounded (-1 / 5)).2.2.2 (by norm_num)).2⟩

/-! ## Bargraph: the frames of an animation -/

/-- C11: for every level L in 0..19 the frames the animator writes after its initial blank frame
are the reference frames: for L = 0 ten times (1, 75), (0, 75); for L >= 1 with h = L div 2 the
build-up frames (2^(i+1) - 1, 50), i = 0..h-1, then for odd L the frame (2^(h+1) - 1, 4000) and
for even L eight frames of 500 ticks toggling bit h, first set, last clear. An SOC of 0.54 read
from the mailbox gives level 10: the blank frame, bits 0..4 built up, bit 5 toggled 8 times. -/
theorem animation_frames (L : Nat) (hL : L ≤ 19) :
    animate_bargraph_frames L = frames_reference L
    ∧ (animate_bargraph_pass { capacity := 1, msgs := [54 / 100] } 0).2.2
        = (0, 0) :: frames_reference 10
    ∧ frames_reference 10
        = [(1, 50), (3, 50), (7, 50), (15, 50), (31, 50), (63, 500), (31, 500), (63, 500),
           (31, 500), (63, 500), (31, 500), (63, 500), (31, 500)] := by
  refine ⟨?_, ?_, by decide⟩
  · have hall : ∀ n, n < 20 → animate_bargraph_frames n = frames_reference n := by decide
    exact hall L (by omega)
  · have h10 : animate_bargraph_frames 10 = frames_reference 10 := by decide
    have hr : animate_bargraph_read { capacity := 1, msgs := [54 / 100] } 0
        = ({ capacity := 1, msgs := [] }, 54 / 100) := by
      simp [animate_bargraph_read, osMessageQueueGetCount, osMessageQueueGet]
    have hs := scaled_soc_54
    unfold animate_bargraph_scaled_soc at hs
    unfold animate_bargraph_pass
    simp only [hr, hs, h10]

/-- Witness for C11: level 7 (odd) builds up bits 0..2 and then holds bits 0..3 for 4000
ticks. -/
theorem animation_frames_witness :
    animate_bargraph_frames 7 = frames_reference 7
    ∧ frames_reference 7 = [(1, 50), (3, 50), (7, 50), (15, 4000)] :=
  ⟨(animation_frames 7 (by decide)).1, by decide⟩

/-! ## Battery monitor: the acquisition routine -/

theorem osEventFlagsWait_bit (ef k timeout arrived : Nat) :
    osEventFlagsWait ef (1 <<< k) false timeout arrived =
      if (flags_seen ef timeout arrived).testBit k = true then
        (osEventFlagsClear (flags_seen ef timeout arrived) (1 <<< k), 1 <<< k)
      else (flags_seen ef timeout arrived, osFlagsErrorTimeout) := by
  show (let cur := flags_seen ef timeout arrived
        let matched := cur &&& (1 <<< k)
        if matched ≠ 0 then
          (if false = true then cur else osEventFlagsClear cur matched, matched)
        else (cur, osFlagsErrorTimeout)) = _
  generalize flags_seen ef timeout arrived = cur
  simp only [Nat.one_shiftLeft, Nat.and_two_pow]
  cases h : cur.testBit k <;> simp

theorem ready_seen_testBit (flags timeout : Nat) (env : AdcEnv) :
    (flags_seen flags timeout (if env.ready_released then ADC_READY_FLAG else 0)).testBit 1
      = adc_obtained flags timeout env := by
  have h2 : Nat.testBit 2 1 = true := by decide
  unfold adc_obtained flags_seen
  by_cases ht : timeout = 0
  · simp [ht]
  · rw [if_neg ht, Nat.testBit_or]
    cases env.ready_released <;> simp [ht, ADC_READY_FLAG, h2]

theorem ready_seen_not_obtained (flags timeout : Nat) (env : AdcEnv)
    (h : adc_obtained flags timeout env = false) :
    flags_seen flags timeout (if env.ready_released then ADC_READY_FLAG else 0) = flags := by
  unfold flags_seen
  by_cases ht : timeout = 0
  · rw [if_pos ht]
  · rw [if_neg ht]
    unfold adc_obtained at h
    cases hrr : env.ready_released
    · simp
    · rw [hrr] at h
      simp [ht] at h

theorem do_adc_dma_not_obtained (flags timeout : Nat) (env : AdcEnv)
    (h : adc_obtained flags timeout env = false) :
    do_adc_dma flags timeout env = (flags, osFlagsErrorTimeout) := by
  have hw : osEventFlagsWait flags ADC_READY_FLAG false timeout
      (if env.ready_released then ADC_READY_FLAG else 0) = (flags, osFlagsErrorTimeout) := by
    have e := osEventFlagsWait_bit flags 1 timeout
      (if env.ready_released then ADC_READY_FLAG else 0)
    rw [ready_seen_testBit, h, ready_seen_not_obtained _ _ _ h] at e
    exact e
  have hbit : (flags, osFlagsErrorTimeout).2 &&& (1 <<< 31) ≠ 0 := by
    show osFlagsErrorTimeout &&& (1 <<< 31) ≠ 0
    decide
  simp only [do_adc_dma]
  rw [hw, if_pos hbit]
theorem testBit_clear_bit_all (ef k i : Nat) (hk : k < 32) :
    (osEventFlagsClear ef (1 <<< k)).testBit i
      = (ef.testBit i && decide (i < 32) && !decide (k = i)) := by
  have h : (0xFFFFFFFF : Nat) = 2 ^ 32 - 1 := by decide
  unfold osEventFlagsClear
  rw [Nat.testBit_and, Nat.testBit_xor, h, Nat.testBit_two_pow_sub_one, Nat.one_shiftLeft,
    Nat.testBit_two_pow]
  by_cases h32 : i < 32
  · simp [h32]
  · have hne : ¬ k = i := by omega
    simp [h32, hne]

theorem clear_ready_seen (flags timeout : Nat) (env : AdcEnv) :
    osEventFlagsClear (flags_seen flags timeout (if env.ready_released then ADC_READY_FLAG else 0))
        ADC_READY_FLAG
      = osEventFlagsClear flags ADC_READY_FLAG := by
  have h2 : ∀ i, Nat.testBit 2 i = decide (1 = i) := by
    intro i
    have := @Nat.testBit_two_pow 1 i
    simpa using this
  apply Nat.eq_of_testBit_eq
  intro i
  show (osEventFlagsClear _ (1 <<< 1)).testBit i = (osEventFlagsClear _ (1 <<< 1)).testBit i
  rw [testBit_clear_bit_all _ _ _ (by omega), testBit_clear_bit_all _ _ _ (by omega)]
  unfold flags_seen
  by_cases ht : timeout = 0
  · rw [if_pos ht]
  · rw [if_neg ht, Nat.testBit_or]
    cases env.ready_released
    · simp
    · by_cases h1 : 1 = i
      · simp [h1]
      · simp [ADC_READY_FLAG, h2, h1]

theorem dma_wait_result (f2 timeout : Nat) (env : AdcEnv) (h0 : f2.testBit 0 = false)
    (h32 : ∀ i, 32 ≤ i → f2.testBit i = false) :
    osEventFlagsWait f2 DMA_COMPLETE_FLAG false (dma_wait_bound timeout env)
        (if env.dma_complete then DMA_COMPLETE_FLAG else 0)
      = (f2, if dma_completed timeout env then DMA_COMPLETE_FLAG else osFlagsErrorTimeout) := by
  have h1 : ∀ i, Nat.testBit 1 i = decide (0 = i) := by
    intro i
    have := @Nat.testBit_two_pow 0 i
    simpa using this
  rw [show DMA_COMPLETE_FLAG = 1 <<< 0 from rfl,
    osEventFlagsWait_bit f2 0 (dma_wait_bound timeout env) (if env.dma_complete then 1 <<< 0 else 0)]
  unfold dma_completed flags_seen
  by_cases ht : dma_wait_bound timeout env = 0
  · simp [ht, h0]
  · cases hc : env.dma_complete
    · simp [ht, h0]
    · simp only [ht, if_false, if_true, Nat.testBit_or]
      have hb : (1 <<< 0 : Nat).testBit 0 = true := by decide
      simp only [hb, Bool.or_true, if_true, ne_eq, not_false_eq_true, decide_True, Bool.and_self]
      refine Prod.ext ?_ (by simp [ht])
      apply Nat.eq_of_testBit_eq
      intro i
      show (osEventFlagsClear (f2 ||| 1 <<< 0) (1 <<< 0)).testBit i = f2.testBit i
      rw [testBit_clear_bit_all _ _ _ (by omega), Nat.testBit_or]
      by_cases hi0 : 0 = i
      · subst hi0
        simp [h0]
      · by_cases hi : i < 32
        · simp [hi, hi0, h1]
        · simp [hi, h32 i (by omega)]
theorem do_adc_dma_obtained (flags timeout : Nat) (env : AdcEnv)
    (h : adc_obtained flags timeout env = true) :
    do_adc_dma flags timeout env =
      (osEventFlagsSet (osEventFlagsClear (osEventFlagsClear flags ADC_READY_FLAG)
          DMA_COMPLETE_FLAG) ADC_READY_FLAG,
        if dma_completed timeout env then DMA_COMPLETE_FLAG else osFlagsErrorTimeout) := by
  have hw : osEventFlagsWait flags ADC_READY_FLAG false timeout
      (if env.ready_released then ADC_READY_FLAG else 0)
      = (osEventFlagsClear flags ADC_READY_FLAG, ADC_READY_FLAG) := by
    have e := osEventFlagsWait_bit flags 1 timeout
      (if env.ready_released then ADC_READY_FLAG else 0)
    rw [ready_seen_testBit, h, if_pos rfl] at e
    rw [← clear_ready_seen flags timeout env]
    exact e
  have hbit : ¬ ((osEventFlagsClear flags ADC_READY_FLAG, ADC_READY_FLAG).2 &&& (1 <<< 31) ≠ 0) := by
    show ¬ (ADC_READY_FLAG &&& (1 <<< 31) ≠ 0)
    decide
  have h0 : (osEventFlagsClear (osEventFlagsClear flags ADC_READY_FLAG)
      DMA_COMPLETE_FLAG).testBit 0 = false := by
    show (osEventFlagsClear _ (1 <<< 0)).testBit 0 = false
    rw [testBit_clear_bit_all _ _ _ (by omega)]
    simp
  have h32 : ∀ i, 32 ≤ i → (osEventFlagsClear (osEventFlagsClear flags ADC_READY_FLAG)
      DMA_COMPLETE_FLAG).testBit i = false := by
    intro i hi
    show (osEventFlagsClear _ (1 <<< 0)).testBit i = false
    rw [testBit_clear_bit_all _ _ _ (by omega)]
    have : ¬ i < 32 := by omega
    simp [this]
  have hd := dma_wait_result _ timeout env h0 h32
  simp only [do_adc_dma]
  rw [hw, if_neg hbit]
  show (osEventFlagsSet (osEventFlagsWait (osEventFlagsClear (osEventFlagsClear flags
      ADC_READY_FLAG) DMA_COMPLETE_FLAG) DMA_COMPLETE_FLAG false (dma_wait_bound timeout env)
      (if env.dma_complete then DMA_COMPLETE_FLAG else 0)).1 ADC_READY_FLAG,
    (osEventFlagsWait (osEventFlagsClear (osEventFlagsClear flags
      ADC_READY_FLAG) DMA_COMPLETE_FLAG) DMA_COMPLETE_FLAG false (dma_wait_bound timeout env)
      (if env.dma_complete then DMA_COMPLETE_FLAG else 0)).2) = _
  rw [hd]

theorem do_adc_dma_status (flags timeout : Nat) (env : AdcEnv) :
    (do_adc_dma flags timeout env).2 =
      if adc_obtained flags timeout env && dma_completed timeout env then DMA_COMPLETE_FLAG
      else osFlagsErrorTimeout := by
  cases h : adc_obtained flags timeout env
  · rw [do_adc_dma_not_obtained _ _ _ h]
    simp
  · rw [do_adc_dma_obtained _ _ _ h]
    simp

theorem do_adc_dma_status_bit (flags timeout : Nat) (env : AdcEnv) :
    (do_adc_dma flags timeout env).2.testBit 31
      = !(adc_obtained flags timeout env && dma_completed timeout env) := by
  rw [do_adc_dma_status]
  cases adc_obtained flags timeout env && dma_completed timeout env
  · show osFlagsErrorTimeout.testBit 31 = true
    decide
  · show DMA_COMPLETE_FLAG.testBit 31 = false
    decide

theorem cycle_succeeds_iff (flags : Nat) (env : AdcEnv) :
    cycle_succeeds flags env ↔
      (adc_obtained flags ADC_READ_TIMEOUT env = true ∧ dma_completed ADC_READ_TIMEOUT env = true
        ∧ 10 < avg_voltage env.samples ∧ avg_voltage env.samples < 35) := by
  unfold cycle_succeeds
  rw [do_adc_dma_status_bit]
  cases adc_obtained flags ADC_READ_TIMEOUT env <;>
    cases dma_completed ADC_READ_TIMEOUT env <;> simp

/-! ## Battery monitor: the moving average -/

theorem sum_range_getD (H : List ℚ) (d : ℚ) (n : Nat) :
    ∑ t in Finset.range n, H.getD t d
      = (H.take n).sum + ((n - min H.length n : ℕ) : ℚ) * d := by
  induction H generalizing n with
  | nil => simp
  | cons a H ih =>
    cases n with
    | zero => simp
    | succ n =>
      rw [Finset.sum_range_succ', List.take_succ_cons, List.sum_cons]
      simp only [List.getD_cons_succ, List.getD_cons_zero, List.length_cons]
      rw [ih n]
      have : n + 1 - min (H.length + 1) (n + 1) = n - min H.length n := by omega
      rw [this]
      ring

theorem next_pointer_eq (p : Fin 256) (h0 : 0 < 256)
    (h1 : ¬ p.val ≥ 256 - 1 → p.val + 1 < 256) :
    (if h : p.val ≥ 256 - 1 then (⟨0, h0⟩ : Fin 256) else ⟨p.val + 1, h1 h⟩) = p + 1 := by
  apply Fin.ext
  rw [Fin.val_add]
  have hp := p.isLt
  split
  · simp only [Fin.val_one]
    omega
  · simp only [Fin.val_one]
    omega

theorem sample_buffer_of_ok (st : MonitorLocals) (sh : MonitorShared) (env : AdcEnv)
    (h : cycle_succeeds sh.monitor_util_flags env) :
    (run_monitor_cycle st sh env).1.sample_buffer
      = Function.update st.sample_buffer st.buffer_pointer (avg_voltage env.samples / 256) := by
  rw [run_monitor_cycle_of_ok st sh env h]

theorem buffer_pointer_of_ok (st : MonitorLocals) (sh : MonitorShared) (env : AdcEnv)
    (h : cycle_succeeds sh.monitor_util_flags env) :
    (run_monitor_cycle st sh env).1.buffer_pointer = st.buffer_pointer + 1 := by
  rw [run_monitor_cycle_of_ok st sh env h]
  exact next_pointer_eq st.buffer_pointer _ _
theorem window_step (st : MonitorLocals) (sh : MonitorShared) (env : AdcEnv) (H : List ℚ)
    (h : cycle_succeeds sh.monitor_util_flags env)
    (hinv : ∀ t : Fin 256, st.sample_buffer (st.buffer_pointer - 1 - t) = H.getD t.val 27 / 256)
    (t : Fin 256) :
    (run_monitor_cycle st sh env).1.sample_buffer
        ((run_monitor_cycle st sh env).1.buffer_pointer - 1 - t)
      = (avg_voltage env.samples :: H).getD t.val 27 / 256 := by
  rw [sample_buffer_of_ok st sh env h, buffer_pointer_of_ok st sh env h]
  have e1 : st.buffer_pointer + 1 - 1 - t = st.buffer_pointer - t := by ring
  rw [e1]
  by_cases ht : t = 0
  · subst ht
    rw [sub_zero, Function.update_same]
    simp
  · have hne : st.buffer_pointer - t ≠ st.buffer_pointer := by
      intro hc
      exact ht (sub_eq_self.1 hc)
    rw [Function.update_noteq hne]
    have e2 : st.buffer_pointer - t = st.buffer_pointer - 1 - (t - 1) := by ring
    rw [e2, hinv (t - 1)]
    have hv : (t - 1).val = t.val - 1 := by
      rw [Fin.coe_sub_one, if_neg ht]
    have hpos : t.val ≠ 0 := fun hc => ht (Fin.ext hc)
    obtain ⟨m, hm⟩ : ∃ m, t.val = m + 1 := ⟨t.val - 1, by omega⟩
    rw [hv, hm, List.getD_cons_succ]
    simp

theorem window_run (envs : List AdcEnv) (st : MonitorLocals) (sh : MonitorShared)
    (H : List ℚ)
    (hinv : ∀ t : Fin 256, st.sample_buffer (st.buffer_pointer - 1 - t) = H.getD t.val 27 / 256)
    (t : Fin 256) :
    (run_monitor_cycles st sh envs).1.sample_buffer
        ((run_monitor_cycles st sh envs).1.buffer_pointer - 1 - t)
      = ((accepted_voltages st sh envs).reverse ++ H).getD t.val 27 / 256 := by
  induction envs generalizing st sh H with
  | nil => simpa [run_monitor_cycles, accepted_voltages] using hinv t
  | cons env rest ih =>
    by_cases h : cycle_succeeds sh.monitor_util_flags env
    · have hstep := window_step st sh env H h hinv
      have := ih _ (run_monitor_cycle st sh env).2 _ hstep
      simp only [run_monitor_cycles, accepted_voltages, if_pos h, List.reverse_cons,
        List.append_assoc, List.singleton_append]
      exact this
    · have hl := (run_monitor_cycle_of_fail st sh env h).1
      have hinv2 : ∀ t : Fin 256, (run_monitor_cycle st sh env).1.sample_buffer
          ((run_monitor_cycle st sh env).1.buffer_pointer - 1 - t) = H.getD t.val 27 / 256 := by
        rw [hl]
        exact hinv
      have := ih _ (run_monitor_cycle st sh env).2 _ hinv2
      simp only [run_monitor_cycles, accepted_voltages, if_neg h]
      exact this

theorem sum_of_window (buf : Fin 256 → ℚ) (p : Fin 256) (H : List ℚ)
    (hinv : ∀ t : Fin 256, buf (p - 1 - t) = H.getD t.val 27 / 256) :
    sample_buffer_sum buf
      = ((H.take 256).sum + ((256 - min H.length 256 : ℕ) : ℚ) * 27) / 256 := by
  rw [sample_buffer_sum_eq, ← Equiv.sum_comp (Equiv.subLeft (p - 1)) buf]
  simp only [Equiv.subLeft_apply, hinv]
  rw [← Finset.sum_div, Fin.sum_univ_eq_sum_range (fun t => H.getD t 27) 256, sum_range_getD]
theorem locals_of_fail (st : MonitorLocals) (sh : MonitorShared) (env : AdcEnv)
    (h : ¬ cycle_succeeds sh.monitor_util_flags env) :
    (run_monitor_cycle st sh env).1.sample_buffer = st.sample_buffer
    ∧ (run_monitor_cycle st sh env).1.buffer_pointer = st.buffer_pointer
    ∧ (run_monitor_cycle st sh env).1.mav_voltage = st.mav_voltage
    ∧ (run_monitor_cycle st sh env).1.soc = st.soc
    ∧ (run_monitor_cycle st sh env).1.soc_low_asserted = st.soc_low_asserted := by
  rw [(run_monitor_cycle_of_fail st sh env h).1]
  exact ⟨rfl, rfl, rfl, rfl, rfl⟩

theorem mav_run (envs : List AdcEnv) (st : MonitorLocals) (sh : MonitorShared)
    (h0 : accepted_voltages st sh envs ≠ []
      ∨ st.mav_voltage = sample_buffer_sum st.sample_buffer) :
    (run_monitor_cycles st sh envs).1.mav_voltage
      = sample_buffer_sum (run_monitor_cycles st sh envs).1.sample_buffer := by
  induction envs generalizing st sh with
  | nil =>
    rcases h0 with h0 | h0
    · exact absurd rfl h0
    · exact h0
  | cons env rest ih =>
    by_cases h : cycle_succeeds sh.monitor_util_flags env
    · simp only [run_monitor_cycles]
      apply ih
      right
      rw [mav_voltage_of_ok st sh env h, sample_buffer_of_ok st sh env h]
    · simp only [run_monitor_cycles]
      apply ih
      simp only [accepted_voltages, if_neg h] at h0
      rcases h0 with h0 | h0
      · exact Or.inl h0
      · right
        rw [(locals_of_fail st sh env h).1, (locals_of_fail st sh env h).2.2.1]
        exact h0

theorem entry_window (t : Fin 256) :
    run_monitor_entry.sample_buffer (run_monitor_entry.buffer_pointer - 1 - t)
      = ([] : List ℚ).getD t.val 27 / 256 := by
  show MAV_INIT_VALUE = _
  unfold MAV_INIT_VALUE
  norm_num

theorem sample_sum_run (sh : MonitorShared) (envs : List AdcEnv) :
    sample_buffer_sum (run_monitor_cycles run_monitor_entry sh envs).1.sample_buffer
      = mav_reference (accepted_voltages run_monitor_entry sh envs) := by
  have hw := window_run envs run_monitor_entry sh [] entry_window
  have hs := sum_of_window _ _ _ hw
  rw [hs]
  unfold mav_reference
  simp only [List.append_nil, List.length_reverse]

theorem ready_wait_status (flags timeout : Nat) (env : AdcEnv) :
    (osEventFlagsWait flags ADC_READY_FLAG false timeout
        (if env.ready_released then ADC_READY_FLAG else 0)).2.testBit 31
      = !adc_obtained flags timeout env := by
  have e := osEventFlagsWait_bit flags 1 timeout
    (if env.ready_released then ADC_READY_FLAG else 0)
  rw [ready_seen_testBit] at e
  rw [show ADC_READY_FLAG = 1 <<< 1 from rfl] at e ⊢
  rw [e]
  cases adc_obtained flags timeout env
  · show osFlagsErrorTimeout.testBit 31 = true
    decide
  · show (1 <<< 1 : Nat).testBit 31 = false
    decide

theorem ready_wait_clears (flags timeout : Nat) (env : AdcEnv)
    (h : adc_obtained flags timeout env = true) :
    (osEventFlagsWait flags ADC_READY_FLAG false timeout
        (if env.ready_released then ADC_READY_FLAG else 0)).1.testBit 1 = false := by
  have e := osEventFlagsWait_bit flags 1 timeout
    (if env.ready_released then ADC_READY_FLAG else 0)
  rw [ready_seen_testBit, h, if_pos rfl] at e
  rw [show ADC_READY_FLAG = 1 <<< 1 from rfl] at e ⊢
  rw [e]
  show (osEventFlagsClear _ (1 <<< 1)).testBit 1 = false
  rw [testBit_clear_bit_all _ _ _ (by omega)]
  simp

theorem ready_bit_on_return (flags timeout : Nat) (env : AdcEnv) :
    (do_adc_dma flags timeout env).1.testBit 1 = adc_obtained flags timeout env := by
  cases h : adc_obtained flags timeout env
  · rw [do_adc_dma_not_obtained _ _ _ h]
    unfold adc_obtained at h
    cases hb : flags.testBit 1
    · rfl
    · rw [hb] at h
      simp at h
  · rw [do_adc_dma_obtained _ _ _ h, testBit_osEventFlagsSet]
    have : ADC_READY_FLAG.testBit 1 = true := by decide
    rw [this]
    simp

/-- C19: when the first wait of `do_adc_dma` succeeds (its status has bit 31 clear), that wait
leaves ADC_READY clear, and ADC_READY is set again in the flag word the routine returns with,
whether the interrupt for DMA completion arrived within the bound or not; the returned status
has bit 31 set iff the wait for DMA completion failed: it is DMA_COMPLETE_FLAG when the
completion arrived and the timeout error otherwise. -/
theorem adc_ready_restored (flags timeout : Nat) (env : AdcEnv)
    (h : (osEventFlagsWait flags ADC_READY_FLAG false timeout
        (if env.ready_released then ADC_READY_FLAG else 0)).2.testBit 31 = false) :
    (osEventFlagsWait flags ADC_READY_FLAG false timeout
        (if env.ready_released then ADC_READY_FLAG else 0)).1.testBit 1 = false
    ∧ (do_adc_dma flags timeout env).1.testBit 1 = true
    ∧ ((do_adc_dma flags timeout env).2.testBit 31 = true ↔ dma_completed timeout env = false)
    ∧ (dma_completed timeout env = true →
        (do_adc_dma flags timeout env).2 = DMA_COMPLETE_FLAG)
    ∧ (dma_completed timeout env = false →
        (do_adc_dma flags timeout env).2 = osFlagsErrorTimeout) := by
  have ho : adc_obtained flags timeout env = true := by
    rw [ready_wait_status] at h
    simpa using h
  refine ⟨ready_wait_clears flags timeout env ho, ?_, ?_, ?_, ?_⟩
  · rw [ready_bit_on_return, ho]
  · rw [do_adc_dma_status_bit, ho]
    cases dma_completed timeout env <;> simp
  · intro hd
    rw [do_adc_dma_status, ho, hd]
    rfl
  · intro hd
    rw [do_adc_dma_status, ho, hd]
    rfl

/-- Witness for C19: after `monitor_init` the ADC is free; a completed transfer returns status 1
and a transfer that never completes returns the timeout error, both with ADC_READY set. -/
theorem adc_ready_restored_witness :
    (do_adc_dma monitor_init.monitor_util_flags ADC_READ_TIMEOUT adc_22v_env).1.testBit 1 = true
    ∧ (do_adc_dma monitor_init.monitor_util_flags ADC_READ_TIMEOUT adc_timeout_env).1.testBit 1
        = true :=
  ⟨(adc_ready_restored monitor_init.monitor_util_flags ADC_READ_TIMEOUT adc_22v_env
      (by decide)).2.1,
   (adc_ready_restored monitor_init.monitor_util_flags ADC_READ_TIMEOUT adc_timeout_env
      (by decide)).2.1⟩

/-- C20, as stated, fails: with the ADC held by its other user (ADC_READY clear) and not
released within the bound, `do_adc_dma` returns the timeout error and ADC_READY is still clear
on return. -/
theorem ready_timeout_leaves_flag_clear :
    (do_adc_dma 0 ADC_READ_TIMEOUT adc_timeout_env).2.testBit 31 = true
    ∧ ¬ ((do_adc_dma 0 ADC_READ_TIMEOUT adc_timeout_env).1.testBit 1 = true) := by
  decide

/-- C20, amended: when the wait for ADC_READY fails (its status has bit 31 set), `do_adc_dma`
returns that error status at once and leaves the flag word as it found it, with ADC_READY
clear; the callers count it as a failure (`v_sys_check` returns false, the monitor cycle is a
failed cycle); and on every path ADC_READY is set on return exactly when the routine obtained
the ADC. -/
theorem ready_timeout_returns_error (flags timeout : Nat) (env : AdcEnv) (min_voltage : ℚ)
    (h : (osEventFlagsWait flags ADC_READY_FLAG false timeout
        (if env.ready_released then ADC_READY_FLAG else 0)).2.testBit 31 = true) :
    do_adc_dma flags timeout env = (flags, osFlagsErrorTimeout)
    ∧ (do_adc_dma flags timeout env).2.testBit 31 = true
    ∧ (do_adc_dma flags timeout env).1.testBit 1 = false
    ∧ (timeout = ADC_READ_TIMEOUT →
        ¬ cycle_succeeds flags env ∧ (v_sys_check min_voltage flags env).1 = false)
    ∧ (∀ f t e, (do_adc_dma f t e).1.testBit 1 = true ↔
        (osEventFlagsWait f ADC_READY_FLAG false t
          (if e.ready_released then ADC_READY_FLAG else 0)).2.testBit 31 = false) := by
  have ho : adc_obtained flags timeout env = false := by
    rw [ready_wait_status] at h
    simpa using h
  have hd := do_adc_dma_not_obtained flags timeout env ho
  have hs : (do_adc_dma flags timeout env).2.testBit 31 = true := by
    rw [do_adc_dma_status_bit, ho]
    rfl
  refine ⟨hd, hs, ?_, ?_, ?_⟩
  · rw [ready_bit_on_return, ho]
  · intro ht
    subst ht
    refine ⟨fun hc => ?_, ?_⟩
    · rw [hc.1] at hs
      exact absurd hs (by simp)
    · unfold v_sys_check
      simp only
      rw [if_pos ((and_bit_ne_zero_iff _ 31).2 hs)]
  · intro f t e
    rw [ready_bit_on_return, ready_wait_status]
    cases adc_obtained f t e <;> simp

/-- Witness for C20: the ADC is held (flag word 0) and is not released. -/
theorem ready_timeout_returns_error_witness :
    do_adc_dma 0 ADC_READ_TIMEOUT adc_timeout_env = (0, osFlagsErrorTimeout) :=
  (ready_timeout_returns_error 0 ADC_READ_TIMEOUT adc_timeout_env 20 (by decide)).1

/-! ## Battery monitor: failed cycles -/

theorem timeout_never_succeeds (flags : Nat) : ¬ cycle_succeeds flags adc_timeout_env := by
  rw [cycle_succeeds_iff]
  rintro ⟨-, hd, -⟩
  revert hd
  decide

theorem timeouts_all_fail (n : Nat) (st : MonitorLocals) (sh : MonitorShared) :
    all_cycles_fail st sh (List.replicate n adc_timeout_env) := by
  induction n generalizing st sh with
  | zero => exact trivial
  | succ n ih => exact ⟨timeout_never_succeeds _, ih _ _⟩

theorem timeouts_run (n : Nat) (hn : n < 256) :
    (run_monitor_cycles run_monitor_entry monitor_init
        (List.replicate n adc_timeout_env)).1.read_fail_counter = n
    ∧ (run_monitor_cycles run_monitor_entry monitor_init
        (List.replicate n adc_timeout_env)).2.monitor_util_flags.testBit 4 = decide (8 ≤ n) := by
  have hlen : (List.replicate n adc_timeout_env).length = n := List.length_replicate _ _
  have h0 : run_monitor_entry.read_fail_counter = 0 := rfl
  have hb0 : monitor_init.monitor_util_flags.testBit 4 = false := by decide
  have hrun := fail_counter_run (List.replicate n adc_timeout_env) run_monitor_entry
    monitor_init (timeouts_all_fail n _ _) (by rw [hlen, h0]; omega)
  rw [hlen, h0, hb0, Nat.zero_add] at hrun
  refine ⟨hrun.1, ?_⟩
  rw [hrun.2, Bool.false_or]
  congr 1
  apply propext
  omega

theorem wrap_step (st : MonitorLocals) (sh : MonitorShared) (env : AdcEnv)
    (hf : ¬ cycle_succeeds sh.monitor_util_flags env) (hc : st.read_fail_counter = 255)
    (hb : sh.monitor_util_flags.testBit 4 = false) :
    (run_monitor_cycle st sh env).1.read_fail_counter = 0
    ∧ (run_monitor_cycle st sh env).2.monitor_util_flags.testBit 4 = false := by
  constructor
  · rw [(run_monitor_cycle_of_fail st sh env hf).1, hc]
    show (255 + 1) % 2 ^ 8 = 0
    norm_num
  · rw [testBit_run_monitor_cycle_of_fail st sh env hf 4 (by omega) (by omega), hb, hc]
    decide

/-- C17: the failure counter is a `uint8_t`. After 255 consecutive ADC timeouts from start-up
the counter is 255 and READ_FAIL is set; when the consumer then clears READ_FAIL, the 256th
consecutive failed cycle wraps the counter to 0 and does not set READ_FAIL, although 256 >= 8
failures have occurred in a row. -/
theorem read_fail_counter_wraps :
    after_255_timeouts.1.read_fail_counter = 255
    ∧ after_255_timeouts.2.monitor_util_flags.testBit 4 = true
    ∧ (run_monitor_cycle after_255_timeouts.1
        { after_255_timeouts.2 with
            monitor_util_flags :=
              (monitor_read_fail after_255_timeouts.2.monitor_util_flags true).2 }
        adc_timeout_env).1.read_fail_counter = 0
    ∧ (run_monitor_cycle after_255_timeouts.1
        { after_255_timeouts.2 with
            monitor_util_flags :=
              (monitor_read_fail after_255_timeouts.2.monitor_util_flags true).2 }
        adc_timeout_env).2.monitor_util_flags.testBit 4 = false := by
  have hrun := timeouts_run 255 (by omega)
  have hc : after_255_timeouts.1.read_fail_counter = 255 := by
    unfold after_255_timeouts
    exact hrun.1
  have hb : after_255_timeouts.2.monitor_util_flags.testBit 4 = true := by
    unfold after_255_timeouts
    exact hrun.2.trans (by decide)
  have hw := wrap_step after_255_timeouts.1
    { after_255_timeouts.2 with
        monitor_util_flags := (monitor_read_fail after_255_timeouts.2.monitor_util_flags true).2 }
    adc_timeout_env (timeout_never_succeeds _) hc (monitor_accessor_bits _).2.2.1
  exact ⟨hc, hb, hw.1, hw.2⟩

theorem fail_of_status (flags : Nat) (env : AdcEnv)
    (h : (do_adc_dma flags ADC_READ_TIMEOUT env).2.testBit 31 = true) :
    ¬ cycle_succeeds flags env := by
  intro hc
  rw [hc.1] at h
  exact absurd h (by simp)

/-- C18: from the same monitor state, a cycle whose acquisition succeeded (status bit 31 clear)
but whose averaged voltage is not strictly inside (10, 35) and a cycle whose acquisition timed
out (status bit 31 set) give the same locals, the same SOC mailbox and the same fault flags
(all flag bits from bit 2 up); when the timeout is that of the DMA wait (the ADC was obtained)
the whole flag word is the same. In such a cycle the failure counter is incremented (modulo
2^8), READ_FAIL is set iff the new counter is at least 8, and the sample buffer, the buffer
index, the moving average, the SOC, the SOC mailbox, SOC_LOW and SOC_CRITICAL are unchanged. -/
theorem out_of_range_like_timeout (st : MonitorLocals) (sh : MonitorShared)
    (env1 env2 : AdcEnv)
    (h1 : (do_adc_dma sh.monitor_util_flags ADC_READ_TIMEOUT env1).2.testBit 31 = false)
    (hv : ¬ (10 < avg_voltage env1.samples ∧ avg_voltage env1.samples < 35))
    (h2 : (do_adc_dma sh.monitor_util_flags ADC_READ_TIMEOUT env2).2.testBit 31 = true) :
    (run_monitor_cycle st sh env1).1 = (run_monitor_cycle st sh env2).1
    ∧ (run_monitor_cycle st sh env1).2.soc_buf = (run_monitor_cycle st sh env2).2.soc_buf
    ∧ (∀ k, 2 ≤ k → k < 32 →
        (run_monitor_cycle st sh env1).2.monitor_util_flags.testBit k
          = (run_monitor_cycle st sh env2).2.monitor_util_flags.testBit k)
    ∧ (adc_obtained sh.monitor_util_flags ADC_READ_TIMEOUT env2 = true →
        (run_monitor_cycle st sh env1).2.monitor_util_flags
          = (run_monitor_cycle st sh env2).2.monitor_util_flags)
    ∧ (run_monitor_cycle st sh env1).1
        = { st with read_fail_counter := (st.read_fail_counter + 1) % 2 ^ 8 }
    ∧ (run_monitor_cycle st sh env1).2.soc_buf = sh.soc_buf
    ∧ (run_monitor_cycle st sh env1).2.monitor_util_flags.testBit 4
        = (sh.monitor_util_flags.testBit 4
            || decide (8 ≤ (run_monitor_cycle st sh env1).1.read_fail_counter))
    ∧ (run_monitor_cycle st sh env1).2.monitor_util_flags.testBit 2
        = sh.monitor_util_flags.testBit 2
    ∧ (run_monitor_cycle st sh env1).2.monitor_util_flags.testBit 3
        = sh.monitor_util_flags.testBit 3 := by
  have f1 : ¬ cycle_succeeds sh.monitor_util_flags env1 := fun hc => hv hc.2
  have f2 : ¬ cycle_succeeds sh.monitor_util_flags env2 := fail_of_status _ _ h2
  obtain ⟨a1, b1, c1⟩ := run_monitor_cycle_of_fail st sh env1 f1
  obtain ⟨a2, b2, c2⟩ := run_monitor_cycle_of_fail st sh env2 f2
  have ho1 : adc_obtained sh.monitor_util_flags ADC_READ_TIMEOUT env1 = true := by
    rw [do_adc_dma_status_bit] at h1
    cases h : adc_obtained sh.monitor_util_flags ADC_READ_TIMEOUT env1
    · rw [h] at h1
      simp at h1
    · rfl
  have hcnt : (run_monitor_cycle st sh env1).1.read_fail_counter
      = (st.read_fail_counter + 1) % 2 ^ 8 := by rw [a1]
  refine ⟨a1.trans a2.symm, b1.trans b2.symm, ?_, ?_, a1, b1, ?_, ?_, ?_⟩
  · intro k hk2 hk
    rw [testBit_run_monitor_cycle_of_fail st sh env1 f1 k hk2 hk,
      testBit_run_monitor_cycle_of_fail st sh env2 f2 k hk2 hk]
  · intro ho2
    rw [c1, c2, do_adc_dma_obtained _ _ _ ho1, do_adc_dma_obtained _ _ _ ho2]
  · rw [testBit_run_monitor_cycle_of_fail st sh env1 f1 4 (by omega) (by omega), hcnt]
    simp
  · rw [testBit_run_monitor_cycle_of_fail st sh env1 f1 2 (by omega) (by omega)]
    simp
  · rw [testBit_run_monitor_cycle_of_fail st sh env1 f1 3 (by omega) (by omega)]
    simp

/-- Witness for C18: right after start-up, a completed acquisition that reads 0 V and a DMA
timeout lead to the same locals. -/
theorem out_of_range_like_timeout_witness :
    (run_monitor_cycle run_monitor_entry monitor_init adc_0v_env).1
      = (run_monitor_cycle run_monitor_entry monitor_init adc_timeout_env).1
    ∧ (run_monitor_cycle run_monitor_entry monitor_init adc_0v_env).2.monitor_util_flags
      = (run_monitor_cycle run_monitor_entry monitor_init adc_timeout_env).2.monitor_util_flags :=
  have h := out_of_range_like_timeout run_monitor_entry monitor_init adc_0v_env adc_timeout_env
    (by decide)
    (by
      have hv : ((0 : Fin 65536) : ℕ) = 0 := rfl
      simp [avg_voltage, adc_0v_env, hv])
    (by decide)
  ⟨h.1, h.2.2.2.1 (by decide)⟩

/-! ## Battery monitor: SOC_LOW is asserted once -/

theorem cycle_succeeds_clear (flags k : Nat) (env : AdcEnv) (hk : 2 ≤ k) :
    cycle_succeeds (osEventFlagsClear flags (1 <<< k)) env ↔ cycle_succeeds flags env := by
  have hb : (osEventFlagsClear flags (1 <<< k)).testBit 1 = flags.testBit 1 := by
    rw [testBit_clear_bit _ _ _ (by omega)]
    have : ¬ k = 1 := by omega
    simp [this]
  rw [cycle_succeeds_iff, cycle_succeeds_iff]
  unfold adc_obtained
  rw [hb]

theorem mav_voltage_clear (st : MonitorLocals) (sh : MonitorShared) (env : AdcEnv) (f : Nat)
    (h : cycle_succeeds sh.monitor_util_flags env) (hf : cycle_succeeds f env) :
    (run_monitor_cycle st { sh with monitor_util_flags := f } env).1.mav_voltage
      = (run_monitor_cycle st sh env).1.mav_voltage := by
  rw [mav_voltage_of_ok st sh env h,
    mav_voltage_of_ok st { sh with monitor_util_flags := f } env hf]

theorem cycle_sets_iff (k : Nat) (st : MonitorLocals) (sh : MonitorShared) (env : AdcEnv)
    (h2 : 2 ≤ k) (hk : k < 32) :
    cycle_sets k st sh env ↔
      (cycle_succeeds sh.monitor_util_flags env
        ∧ ((k = 3 ∧ (run_monitor_cycle st sh env).1.mav_voltage < 24)
          ∨ (k = 2 ∧ ¬ (run_monitor_cycle st sh env).1.mav_voltage < 24
              ∧ (run_monitor_cycle st sh env).1.mav_voltage < 26
              ∧ st.soc_low_asserted = false)))
      ∨ (¬ cycle_succeeds sh.monitor_util_flags env ∧ k = 4
          ∧ 8 ≤ (st.read_fail_counter + 1) % 2 ^ 8) := by
  have hclr : (osEventFlagsClear sh.monitor_util_flags (1 <<< k)).testBit k = false := by
    rw [testBit_clear_bit _ _ _ hk]
    simp
  unfold cycle_sets
  by_cases h : cycle_succeeds sh.monitor_util_flags env
  · have h' : cycle_succeeds (osEventFlagsClear sh.monitor_util_flags (1 <<< k)) env :=
      (cycle_succeeds_clear _ k env h2).2 h
    rw [testBit_run_monitor_cycle_of_ok st
        { sh with monitor_util_flags := osEventFlagsClear sh.monitor_util_flags (1 <<< k) }
        env h' k h2 hk,
      mav_voltage_clear st sh env (osEventFlagsClear sh.monitor_util_flags (1 <<< k)) h h']
    simp only [hclr, Bool.false_or]
    simp [h, and_assoc]
  · have h' : ¬ cycle_succeeds (osEventFlagsClear sh.monitor_util_flags (1 <<< k)) env :=
      fun hc => h ((cycle_succeeds_clear _ k env h2).1 hc)
    rw [testBit_run_monitor_cycle_of_fail st
        { sh with monitor_util_flags := osEventFlagsClear sh.monitor_util_flags (1 <<< k) }
        env h' k h2 hk]
    simp only [hclr, Bool.false_or]
    simp [h]

theorem asserted_stays (st : MonitorLocals) (sh : MonitorShared) (env : AdcEnv)
    (ha : st.soc_low_asserted = true) :
    (run_monitor_cycle st sh env).1.soc_low_asserted = true := by
  by_cases h : cycle_succeeds sh.monitor_util_flags env
  · rw [soc_low_asserted_of_ok st sh env h]
    unfold run_monitor_thresholds
    split_ifs <;> simp [ha]
  · rw [(locals_of_fail st sh env h).2.2.2.2, ha]

theorem low_set_count_asserted (steps : List (ConsumerAct × AdcEnv)) (st : MonitorLocals)
    (sh : MonitorShared) (ha : st.soc_low_asserted = true) : low_set_count st sh steps = 0 := by
  induction steps generalizing st sh with
  | nil => rfl
  | cons step rest ih =>
    have hn : ¬ cycle_sets 2 st
        { sh with monitor_util_flags := consume sh.monitor_util_flags step.1 } step.2 := by
      rw [cycle_sets_iff 2 st
        { sh with monitor_util_flags := consume sh.monitor_util_flags step.1 } step.2
        (by omega) (by omega)]
      simp [ha]
    simp only [low_set_count, if_neg hn, Nat.zero_add]
    exact ih _ _ (asserted_stays st
      { sh with monitor_util_flags := consume sh.monitor_util_flags step.1 } step.2 ha)

theorem asserted_after_set (st : MonitorLocals) (sh : MonitorShared) (env : AdcEnv)
    (hs : cycle_sets 2 st sh env) :
    (run_monitor_cycle st sh env).1.soc_low_asserted = true := by
  rw [cycle_sets_iff 2 st sh env (by omega) (by omega)] at hs
  rcases hs with ⟨h, hs⟩ | ⟨-, h2, -⟩
  · rcases hs with ⟨h3, -⟩ | ⟨-, h1, h2, h3⟩
    · exact absurd h3 (by omega)
    · rw [soc_low_asserted_of_ok st sh env h]
      unfold run_monitor_thresholds SOC_VOLTAGE_CRITICAL SOC_VOLTAGE_LOW
      rw [if_neg h1, if_pos ⟨h2, h3⟩]
  · exact absurd h2 (by omega)

theorem low_set_count_le_one (steps : List (ConsumerAct × AdcEnv)) (st : MonitorLocals)
    (sh : MonitorShared) : low_set_count st sh steps ≤ 1 := by
  induction steps generalizing st sh with
  | nil => exact Nat.zero_le _
  | cons step rest ih =>
    by_cases hs : cycle_sets 2 st
        { sh with monitor_util_flags := consume sh.monitor_util_flags step.1 } step.2
    · simp only [low_set_count, if_pos hs]
      rw [low_set_count_asserted rest _ _ (asserted_after_set st
        { sh with monitor_util_flags := consume sh.monitor_util_flags step.1 } step.2 hs)]
    · simp only [low_set_count, if_neg hs, Nat.zero_add]
      exact ih _ _
/-- C16: over any run of the monitor, with any consumer activity before each cycle, at most one
cycle sets SOC_LOW. Once `soc_low_asserted` is true it stays true, no later cycle sets SOC_LOW
and every cycle leaves the SOC_LOW bit as it finds it, whatever the moving average does and
whether or not a consumer has cleared the flag; a cycle that sets SOC_LOW makes
`soc_low_asserted` true. SOC_CRITICAL is set by every successful cycle whose moving average is
below 24. -/
theorem soc_low_set_at_most_once (st : MonitorLocals) (sh : MonitorShared) (env : AdcEnv)
    (steps : List (ConsumerAct × AdcEnv)) :
    low_set_count st sh steps ≤ 1
    ∧ (st.soc_low_asserted = true →
        low_set_count st sh steps = 0
        ∧ ¬ cycle_sets 2 st sh env
        ∧ (run_monitor_cycle st sh env).1.soc_low_asserted = true
        ∧ (run_monitor_cycle st sh env).2.monitor_util_flags.testBit 2
            = sh.monitor_util_flags.testBit 2)
    ∧ (cycle_sets 2 st sh env → (run_monitor_cycle st sh env).1.soc_low_asserted = true)
    ∧ (cycle_sets 2 st sh env ↔
        cycle_succeeds sh.monitor_util_flags env
        ∧ ¬ (run_monitor_cycle st sh env).1.mav_voltage < 24
        ∧ (run_monitor_cycle st sh env).1.mav_voltage < 26
        ∧ st.soc_low_asserted = false)
    ∧ (cycle_succeeds sh.monitor_util_flags env →
        (run_monitor_cycle st sh env).1.mav_voltage < 24 →
        cycle_sets 3 st sh env
        ∧ (run_monitor_cycle st sh env).2.monitor_util_flags.testBit 3 = true) := by
  refine ⟨low_set_count_le_one steps st sh, ?_, asserted_after_set st sh env, ?_, ?_⟩
  · intro ha
    refine ⟨low_set_count_asserted steps st sh ha, ?_, asserted_stays st sh env ha, ?_⟩
    · rw [cycle_sets_iff 2 st sh env (by omega) (by omega)]
      simp [ha]
    · by_cases h : cycle_succeeds sh.monitor_util_flags env
      · rw [testBit_run_monitor_cycle_of_ok st sh env h 2 (by omega) (by omega), ha]
        simp
      · rw [testBit_run_monitor_cycle_of_fail st sh env h 2 (by omega) (by omega)]
        simp
  · rw [cycle_sets_iff 2 st sh env (by omega) (by omega)]
    constructor
    · rintro (⟨h, ⟨h3, -⟩ | ⟨-, h1, h2, h3⟩⟩ | ⟨-, h4, -⟩)
      · exact absurd h3 (by omega)
      · exact ⟨h, h1, h2, h3⟩
      · exact absurd h4 (by omega)
    · rintro ⟨h, h1, h2, h3⟩
      exact Or.inl ⟨h, Or.inr ⟨rfl, h1, h2, h3⟩⟩
  · intro h hm
    constructor
    · rw [cycle_sets_iff 3 st sh env (by omega) (by omega)]
      exact Or.inl ⟨h, Or.inl ⟨rfl, hm⟩⟩
    · rw [testBit_run_monitor_cycle_of_ok st sh env h 3 (by omega) (by omega)]
      simp [hm]

/-- Witness for C16: with SOC_LOW already asserted once, a run in which the consumer clears the
flags before each cycle sets SOC_LOW in no cycle. -/
theorem soc_low_set_at_most_once_witness :
    entry_low_asserted.soc_low_asserted = true
    ∧ low_set_count entry_low_asserted monitor_init
        [(consume_all, adc_22v_env), (consume_all, adc_timeout_env), (consume_all, adc_22v_env)]
      = 0 :=
  ⟨rfl, ((soc_low_set_at_most_once entry_low_asserted monitor_init adc_22v_env
      [(consume_all, adc_22v_env), (consume_all, adc_timeout_env),
        (consume_all, adc_22v_env)]).2.1 rfl).1⟩

/-! ## Battery monitor: a constant reading of about 22.0 V -/

theorem avg_22v : avg_voltage adc_22v_env.samples = 2478 * (887937 / 100000000) := by
  have hv : ((2478 : Fin 65536) : ℕ) = 2478 := rfl
  simp [avg_voltage, adc_22v_env, hv]
  norm_num

theorem run_monitor_cycles_append (l1 l2 : List AdcEnv) (st : MonitorLocals)
    (sh : MonitorShared) :
    run_monitor_cycles st sh (l1 ++ l2)
      = run_monitor_cycles (run_monitor_cycles st sh l1).1 (run_monitor_cycles st sh l1).2 l2 := by
  induction l1 generalizing st sh with
  | nil => rfl
  | cons env rest ih =>
    simp only [List.cons_append, run_monitor_cycles]
    exact ih _ _

theorem run_monitor_cycles_snoc (l : List AdcEnv) (env : AdcEnv) (st : MonitorLocals)
    (sh : MonitorShared) :
    run_monitor_cycles st sh (l ++ [env])
      = run_monitor_cycle (run_monitor_cycles st sh l).1 (run_monitor_cycles st sh l).2 env := by
  rw [run_monitor_cycles_append]
  rfl

theorem ready_after_ok (st : MonitorLocals) (sh : MonitorShared) (env : AdcEnv)
    (h : cycle_succeeds sh.monitor_util_flags env) :
    (run_monitor_cycle st sh env).2.monitor_util_flags.testBit 1 = true := by
  have ho := ((cycle_succeeds_iff _ _).1 h).1
  have e := run_monitor_cycle_of_ok st sh env h
  have ef : (run_monitor_cycle st sh env).2.monitor_util_flags
      = (run_monitor_thresholds (do_adc_dma sh.monitor_util_flags ADC_READ_TIMEOUT env).1
          (run_monitor_cycle st sh env).1.mav_voltage st.soc_low_asserted).1 := by
    rw [e]
  rw [ef, testBit_run_monitor_thresholds, ready_bit_on_return, ho]
  simp

theorem soc_buf_of_ok (st : MonitorLocals) (sh : MonitorShared) (env : AdcEnv)
    (h : cycle_succeeds sh.monitor_util_flags env) :
    (run_monitor_cycle st sh env).2.soc_buf
        = (osMessageQueuePut (osMessageQueueReset sh.soc_buf)
            (((run_monitor_cycle st sh env).1.mav_voltage - 24) / (336 / 10 - 24))).1
    ∧ (run_monitor_cycle st sh env).1.soc
        = ((run_monitor_cycle st sh env).1.mav_voltage - 24) / (336 / 10 - 24) := by
  have e := run_monitor_cycle_of_ok st sh env h
  have e1 : (run_monitor_cycle st sh env).2.soc_buf
      = (osMessageQueuePut (osMessageQueueReset sh.soc_buf)
          (((run_monitor_cycle st sh env).1.mav_voltage - MIN_VOLTAGE)
            / (MAX_VOLTAGE - MIN_VOLTAGE))).1 := by
    rw [e]
  have e2 : (run_monitor_cycle st sh env).1.soc
      = ((run_monitor_cycle st sh env).1.mav_voltage - MIN_VOLTAGE)
          / (MAX_VOLTAGE - MIN_VOLTAGE) := by
    rw [e]
  constructor
  · rw [e1]
    unfold MIN_VOLTAGE MAX_VOLTAGE
    rfl
  · rw [e2]
    unfold MIN_VOLTAGE MAX_VOLTAGE
    rfl

theorem soc_buf_capacity_cycle (st : MonitorLocals) (sh : MonitorShared) (env : AdcEnv) :
    (run_monitor_cycle st sh env).2.soc_buf.capacity = sh.soc_buf.capacity := by
  by_cases h : cycle_succeeds sh.monitor_util_flags env
  · rw [(soc_buf_of_ok st sh env h).1]
    unfold osMessageQueuePut osMessageQueueReset
    split <;> rfl
  · rw [(run_monitor_cycle_of_fail st sh env h).2.1]

theorem soc_buf_capacity_run (envs : List AdcEnv) (st : MonitorLocals) (sh : MonitorShared) :
    (run_monitor_cycles st sh envs).2.soc_buf.capacity = sh.soc_buf.capacity := by
  induction envs generalizing st sh with
  | nil => rfl
  | cons env rest ih =>
    simp only [run_monitor_cycles]
    rw [ih, soc_buf_capacity_cycle]

theorem published_of_ok (st : MonitorLocals) (sh : MonitorShared) (env : AdcEnv)
    (h : cycle_succeeds sh.monitor_util_flags env) (hcap : 0 < sh.soc_buf.capacity) :
    (run_monitor_cycle st sh env).2.soc_buf.msgs
      = [((run_monitor_cycle st sh env).1.mav_voltage - 24) / (336 / 10 - 24)] := by
  rw [(soc_buf_of_ok st sh env h).1]
  simp [osMessageQueuePut, osMessageQueueReset, hcap]
theorem adc_22v_succeeds_of_ready (flags : Nat) (h : flags.testBit 1 = true) :
    cycle_succeeds flags adc_22v_env := by
  rw [cycle_succeeds_iff]
  refine ⟨?_, by decide, ?_, ?_⟩
  · unfold adc_obtained
    rw [h]
    rfl
  · rw [avg_22v]; norm_num
  · rw [avg_22v]; norm_num

theorem const_run_ready (n : Nat) (st : MonitorLocals) (sh : MonitorShared)
    (h : sh.monitor_util_flags.testBit 1 = true) :
    (run_monitor_cycles st sh (List.replicate n adc_22v_env)).2.monitor_util_flags.testBit 1
        = true
    ∧ accepted_voltages st sh (List.replicate n adc_22v_env)
        = List.replicate n (avg_voltage adc_22v_env.samples) := by
  induction n generalizing st sh with
  | zero => exact ⟨h, rfl⟩
  | succ n ih =>
    have hs := adc_22v_succeeds_of_ready _ h
    have hr := ready_after_ok st sh adc_22v_env hs
    obtain ⟨i1, i2⟩ := ih (run_monitor_cycle st sh adc_22v_env).1
      (run_monitor_cycle st sh adc_22v_env).2 hr
    simp only [List.replicate_succ, run_monitor_cycles, accepted_voltages, if_pos hs]
    exact ⟨i1, by rw [i2]⟩

theorem mav_reference_replicate (n : Nat) (v : ℚ) :
    mav_reference (List.replicate n v)
      = (((min n 256 : ℕ) : ℚ) * v + ((256 - min n 256 : ℕ) : ℚ) * 27) / 256 := by
  unfold mav_reference
  rw [List.reverse_replicate, List.take_replicate, List.sum_replicate, List.length_replicate,
    nsmul_eq_mul, Nat.min_comm 256 n]

theorem const_run_mav (n : Nat) (hn : 1 ≤ n) :
    (run_monitor_cycles run_monitor_entry monitor_init
        (List.replicate n adc_22v_env)).1.mav_voltage
      = (((min n 256 : ℕ) : ℚ) * (2478 * (887937 / 100000000))
          + ((256 - min n 256 : ℕ) : ℚ) * 27) / 256 := by
  have hacc := (const_run_ready n run_monitor_entry monitor_init (by decide)).2
  have hne : accepted_voltages run_monitor_entry monitor_init (List.replicate n adc_22v_env)
      ≠ [] := by
    rw [hacc]
    intro hc
    have := congrArg List.length hc
    simp at this
    omega
  rw [mav_run _ _ _ (Or.inl hne), sample_sum_run, hacc, mav_reference_replicate, avg_22v]

theorem const_mav_lt_iff (n : Nat) :
    (((min n 256 : ℕ) : ℚ) * (2478 * (887937 / 100000000))
        + ((256 - min n 256 : ℕ) : ℚ) * 27) / 256 < 24 ↔ 154 ≤ n := by
  have hk : min n 256 ≤ 256 := Nat.min_le_right _ _
  have hcast : ((256 - min n 256 : ℕ) : ℚ) = 256 - ((min n 256 : ℕ) : ℚ) := by
    rw [Nat.cast_sub hk]
    norm_num
  rw [hcast, div_lt_iff₀ (by norm_num)]
  constructor
  · intro h
    by_contra hc
    have h1 : min n 256 ≤ 153 := by omega
    have h2 : ((min n 256 : ℕ) : ℚ) ≤ 153 := by exact_mod_cast h1
    linarith
  · intro h
    have h1 : 154 ≤ min n 256 := by omega
    have h2 : (154 : ℚ) ≤ ((min n 256 : ℕ) : ℚ) := by exact_mod_cast h1
    linarith

theorem const_run_crit (n : Nat) :
    (run_monitor_cycles run_monitor_entry monitor_init
        (List.replicate n adc_22v_env)).2.monitor_util_flags.testBit 3 = decide (154 ≤ n) := by
  induction n with
  | zero => decide
  | succ n ih =>
    have hr := (const_run_ready n run_monitor_entry monitor_init (by decide)).1
    have hs := adc_22v_succeeds_of_ready _ hr
    have hm := const_run_mav (n + 1) (by omega)
    rw [List.replicate_succ', run_monitor_cycles_snoc] at hm ⊢
    rw [testBit_run_monitor_cycle_of_ok _ _ _ hs 3 (by omega) (by omega), ih, hm]
    have hd : decide ((((min (n + 1) 256 : ℕ) : ℚ) * (2478 * (887937 / 100000000))
        + ((256 - min (n + 1) 256 : ℕ) : ℚ) * 27) / 256 < 24) = decide (154 ≤ n + 1) :=
      decide_eq_decide.2 (const_mav_lt_iff (n + 1))
    rw [hd]
    by_cases h154 : 154 ≤ n + 1
    · simp [h154]
    · have h2 : ¬ 154 ≤ n := by omega
      simp [h154, h2]

theorem after_22v_succ (n : Nat) :
    after_22v_cycles (n + 1)
        = run_monitor_cycle (after_22v_cycles n).1 (after_22v_cycles n).2 adc_22v_env
    ∧ cycle_succeeds (after_22v_cycles n).2.monitor_util_flags adc_22v_env
    ∧ 0 < (after_22v_cycles n).2.soc_buf.capacity := by
  unfold after_22v_cycles
  refine ⟨?_, ?_, ?_⟩
  · rw [List.replicate_succ', run_monitor_cycles_snoc]
  · exact adc_22v_succeeds_of_ready _
      (const_run_ready n run_monitor_entry monitor_init (by decide)).1
  · rw [soc_buf_capacity_run]
    decide

theorem after_22v_facts (n : Nat) (hn : 1 ≤ n) :
    (after_22v_cycles n).1.mav_voltage
        = (((min n 256 : ℕ) : ℚ) * (2478 * (887937 / 100000000))
            + ((256 - min n 256 : ℕ) : ℚ) * 27) / 256
    ∧ (after_22v_cycles n).2.monitor_util_flags.testBit 3 = decide (154 ≤ n)
    ∧ (after_22v_cycles n).1.soc = ((after_22v_cycles n).1.mav_voltage - 24) / (336 / 10 - 24)
    ∧ (after_22v_cycles n).2.soc_buf.msgs = [(after_22v_cycles n).1.soc] := by
  obtain ⟨m, rfl⟩ : ∃ m, n = m + 1 := ⟨n - 1, by omega⟩
  obtain ⟨e, hs, hcap⟩ := after_22v_succ m
  have hsoc : (after_22v_cycles (m + 1)).1.soc
      = ((after_22v_cycles (m + 1)).1.mav_voltage - 24) / (336 / 10 - 24) := by
    rw [e]
    exact (soc_buf_of_ok _ _ _ hs).2
  refine ⟨?_, ?_, hsoc, ?_⟩
  · unfold after_22v_cycles
    exact const_run_mav (m + 1) hn
  · unfold after_22v_cycles
    exact const_run_crit (m + 1)
  · rw [hsoc, e]
    exact published_of_ok _ _ _ hs hcap
/-! ## Battery monitor: the published SOC -/

/-- C14: for a freshly started monitor fed a completed acquisition of about 22.0 V in every
cycle, every cycle is accepted; SOC_CRITICAL is set after n cycles iff n >= 154, so it is set
within the first 256 successful cycles; and from the 154th cycle on the moving average is below
24, the SOC derived from it (and published) is below 0, and the animator constrains it to 0. -/
theorem critical_within_window (n : Nat) :
    accepted_voltages run_monitor_entry monitor_init (List.replicate n adc_22v_env)
        = List.replicate n (avg_voltage adc_22v_env.samples)
    ∧ ((after_22v_cycles n).2.monitor_util_flags.testBit 3 = true ↔ 154 ≤ n)
    ∧ (after_22v_cycles 256).2.monitor_util_flags.testBit 3 = true
    ∧ (154 ≤ n →
        (after_22v_cycles n).1.mav_voltage < 24
        ∧ (after_22v_cycles n).1.soc < 0
        ∧ (after_22v_cycles n).2.soc_buf.msgs = [(after_22v_cycles n).1.soc]
        ∧ animate_bargraph_constrain (after_22v_cycles n).1.soc = 0) := by
  refine ⟨(const_run_ready n run_monitor_entry monitor_init (by decide)).2, ?_, ?_, ?_⟩
  · have : (after_22v_cycles n).2.monitor_util_flags.testBit 3 = decide (154 ≤ n) := by
      unfold after_22v_cycles
      exact const_run_crit n
    rw [this]
    simp
  · rw [(after_22v_facts 256 (by omega)).2.1]
    decide
  · intro hn
    obtain ⟨hm, -, hsoc, hmsg⟩ := after_22v_facts n (by omega)
    have hlt : (after_22v_cycles n).1.mav_voltage < 24 := by
      rw [hm]
      exact (const_mav_lt_iff n).2 hn
    have hneg : (after_22v_cycles n).1.soc < 0 := by
      rw [hsoc]
      exact div_neg_of_neg_of_pos (by linarith) (by norm_num)
    exact ⟨hlt, hneg, hmsg, animate_bargraph_constrain_neg hneg⟩

/-- Witness for C14: the state after 154 cycles. -/
theorem critical_within_window_witness :
    (after_22v_cycles 154).2.monitor_util_flags.testBit 3 = true
    ∧ (after_22v_cycles 154).1.soc < 0 :=
  ⟨(critical_within_window 154).2.1.2 (le_refl _),
   ((critical_within_window 154).2.2.2 (le_refl _)).2.1⟩

theorem p_widths_sum_eq (p : Fin DEBOUNCER_SAMPLES → Fin 65536) :
    p_widths_sum p = ∑ i, (p i).val := by
  have h0 := (p 0).isLt
  have h1 := (p 1).isLt
  have h2 := (p 2).isLt
  have h3 := (p 3).isLt
  have h4 := (p 4).isLt
  unfold p_widths_sum
  rw [Fin.sum_univ_five]
  simp only [List.finRange, List.ofFn, Fin.foldr, Fin.foldr.loop, List.foldl]
  change (((((0 + (p 0).val) % 2 ^ 32 + (p 1).val) % 2 ^ 32 + (p 2).val) % 2 ^ 32
    + (p 3).val) % 2 ^ 32 + (p 4).val) % 2 ^ 32 = _
  omega

theorem supervisor_read_width (q : MsgQueue Nat) (w : Nat) :
    (run_lights_supervisor_read q w).2 = width_found q := by
  unfold run_lights_supervisor_read width_found osMessageQueueGetCount osMessageQueueGet
  cases h : q.msgs <;> simp

theorem supervisor_filt_eq (st : SupervisorLocals) (q : MsgQueue Nat) :
    p_widths_sum (Function.update st.p_widths st.buf_pointer
      ⟨(run_lights_supervisor_read q st.pulse_width).2 % 65536, Nat.mod_lt _ (by decide)⟩)
        / DEBOUNCER_SAMPLES = cycle_average st q := by
  rw [p_widths_sum_eq]
  simp only [supervisor_read_width]
  rfl

theorem supervisor_cycle_lights_off (st : SupervisorLocals) (q : MsgQueue Nat) (f : Nat)
    (h : cycle_average st q = 0 ∧ st.timeout_latch = 0) :
    run_lights_supervisor_cycle st q f =
      { locals :=
          { pulse_width := width_found q
            p_widths := stored_widths st q
            buf_pointer := ⟨(st.buf_pointer.val + 1) % DEBOUNCER_SAMPLES, Nat.mod_lt _ (by decide)⟩
            filt_p_width := cycle_average st q
            which_animation := 0
            timeout_latch := 1
            change_polarity := st.change_polarity }
        pulse_buf := (run_lights_supervisor_read q st.pulse_width).1
        flash_flags := osEventFlagsSet f LIGHTS_OFF
        set_calls := [LIGHTS_OFF]
        branch := SupervisorBranch.lights_off } := by
  unfold run_lights_supervisor_cycle
  simp only [supervisor_filt_eq]
  rw [if_pos h]
  simp only [supervisor_read_width]
  rfl

theorem supervisor_cycle_next_pattern (st : SupervisorLocals) (q : MsgQueue Nat) (f : Nat)
    (h : ¬ (cycle_average st q = 0 ∧ st.timeout_latch = 0))
    (h2 : (cycle_average st q > THRESHOLD_HIGH ∧ st.change_polarity ≠ 0)
      ∨ (cycle_average st q < THRESHOLD_LOW ∧ st.change_polarity = 0)) :
    run_lights_supervisor_cycle st q f =
      { locals :=
          { pulse_width := width_found q
            p_widths := stored_widths st q
            buf_pointer := ⟨(st.buf_pointer.val + 1) % DEBOUNCER_SAMPLES, Nat.mod_lt _ (by decide)⟩
            filt_p_width := cycle_average st q
            which_animation := (st.which_animation + 1) % NUM_FLASH_PATTERNS
            timeout_latch := 0
            change_polarity := if st.change_polarity = 0 then 1 else 0 }
        pulse_buf := (run_lights_supervisor_read q st.pulse_width).1
        flash_flags := osEventFlagsSet f (1 <<< ((st.which_animation + 1) % NUM_FLASH_PATTERNS))
        set_calls := [1 <<< ((st.which_animation + 1) % NUM_FLASH_PATTERNS)]
        branch := SupervisorBranch.next_pattern } := by
  unfold run_lights_supervisor_cycle
  simp only [supervisor_filt_eq]
  rw [if_neg h, if_pos h2]
  simp only [supervisor_read_width]
  rfl

theorem supervisor_cycle_no_change (st : SupervisorLocals) (q : MsgQueue Nat) (f : Nat)
    (h : ¬ (cycle_average st q = 0 ∧ st.timeout_latch = 0))
    (h2 : ¬ ((cycle_average st q > THRESHOLD_HIGH ∧ st.change_polarity ≠ 0)
      ∨ (cycle_average st q < THRESHOLD_LOW ∧ st.change_polarity = 0))) :
    run_lights_supervisor_cycle st q f =
      { locals :=
          { pulse_width := width_found q
            p_widths := stored_widths st q
            buf_pointer := ⟨(st.buf_pointer.val + 1) % DEBOUNCER_SAMPLES, Nat.mod_lt _ (by decide)⟩
            filt_p_width := cycle_average st q
            which_animation := st.which_animation
            timeout_latch := st.timeout_latch
            change_polarity := st.change_polarity }
        pulse_buf := (run_lights_supervisor_read q st.pulse_width).1
        flash_flags := f
        set_calls := []
        branch := SupervisorBranch.no_change } := by
  unfold run_lights_supervisor_cycle
  simp only [supervisor_filt_eq]
  rw [if_neg h, if_neg h2]
  simp only [supervisor_read_width]
  rfl

/-- C21: one supervisor cycle stores the width found in the mailbox (0 for an empty mailbox) in
the debounce buffer, advances the buffer pointer and computes the debounced average a, the
integer mean of the five slots. If a = 0 and the loss latch is clear it sets LIGHTS_OFF, resets
the pattern index to 0 and sets the latch, leaving the polarity; otherwise, if a > 1700 with the
polarity rising or a < 1300 with the polarity falling, it replaces the index by
(index + 1) mod 4, sets exactly bit `index` of the pattern flags, flips the polarity and clears
the latch; otherwise index, latch, polarity and flags are unchanged and no flag is set.
Scenario C: from the entry state the widths 0, 0, 0, 1800, 1800, 1800, 1800, 1800 give the
averages 0, 0, 0, 360, 720, 1080, 1440, 1800; the first cycle sets LIGHTS_OFF and the latch, the
eighth selects index 1 (bit 1) with the polarity falling, and no other cycle sets a flag. -/
theorem supervisor_cycle_contract (st : SupervisorLocals) (pulse_buf : MsgQueue Nat)
    (flash_flags : Nat) :
    (run_lights_supervisor_cycle st pulse_buf flash_flags).locals.p_widths
        = stored_widths st pulse_buf
    ∧ (run_lights_supervisor_cycle st pulse_buf flash_flags).locals.filt_p_width
        = cycle_average st pulse_buf
    ∧ (run_lights_supervisor_cycle st pulse_buf flash_flags).locals.buf_pointer.val
        = (st.buf_pointer.val + 1) % 5
    ∧ (cycle_average st pulse_buf = 0 ∧ st.timeout_latch = 0 →
        (run_lights_supervisor_cycle st pulse_buf flash_flags).set_calls = [LIGHTS_OFF]
        ∧ (run_lights_supervisor_cycle st pulse_buf flash_flags).flash_flags
            = flash_flags ||| 1
        ∧ (run_lights_supervisor_cycle st pulse_buf flash_flags).locals.which_animation = 0
        ∧ (run_lights_supervisor_cycle st pulse_buf flash_flags).locals.timeout_latch = 1
        ∧ (run_lights_supervisor_cycle st pulse_buf flash_flags).locals.change_polarity
            = st.change_polarity
        ∧ (run_lights_supervisor_cycle st pulse_buf flash_flags).branch
            = SupervisorBranch.lights_off)
    ∧ (¬ (cycle_average st pulse_buf = 0 ∧ st.timeout_latch = 0) →
        ((1700 < cycle_average st pulse_buf ∧ st.change_polarity ≠ 0)
          ∨ (cycle_average st pulse_buf < 1300 ∧ st.change_polarity = 0)) →
        (run_lights_supervisor_cycle st pulse_buf flash_flags).locals.which_animation
            = (st.which_animation + 1) % 4
        ∧ (run_lights_supervisor_cycle st pulse_buf flash_flags).set_calls
            = [1 <<< ((st.which_animation + 1) % 4)]
        ∧ (∀ k, (run_lights_supervisor_cycle st pulse_buf flash_flags).flash_flags.testBit k
            = (flash_flags.testBit k || decide (k = (st.which_animation + 1) % 4)))
        ∧ (run_lights_supervisor_cycle st pulse_buf flash_flags).locals.change_polarity
            = (if st.change_polarity = 0 then 1 else 0)
        ∧ (run_lights_supervisor_cycle st pulse_buf flash_flags).locals.timeout_latch = 0
        ∧ (run_lights_supervisor_cycle st pulse_buf flash_flags).branch
            = SupervisorBranch.next_pattern)
    ∧ (¬ (cycle_average st pulse_buf = 0 ∧ st.timeout_latch = 0) →
        ¬ ((1700 < cycle_average st pulse_buf ∧ st.change_polarity ≠ 0)
          ∨ (cycle_average st pulse_buf < 1300 ∧ st.change_polarity = 0)) →
        (run_lights_supervisor_cycle st pulse_buf flash_flags).locals.which_animation
            = st.which_animation
        ∧ (run_lights_supervisor_cycle st pulse_buf flash_flags).locals.timeout_latch
            = st.timeout_latch
        ∧ (run_lights_supervisor_cycle st pulse_buf flash_flags).locals.change_polarity
            = st.change_polarity
        ∧ (run_lights_supervisor_cycle st pulse_buf flash_flags).flash_flags = flash_flags
        ∧ (run_lights_supervisor_cycle st pulse_buf flash_flags).set_calls = []
        ∧ (run_lights_supervisor_cycle st pulse_buf flash_flags).branch
            = SupervisorBranch.no_change)
    ∧ scenario_c_steps.map (fun s => (s.locals.filt_p_width, s.set_calls,
          s.locals.which_animation, s.locals.change_polarity, s.locals.timeout_latch))
        = [(0, [LIGHTS_OFF], 0, 1, 1), (0, [], 0, 1, 1), (0, [], 0, 1, 1), (360, [], 0, 1, 1),
            (720, [], 0, 1, 1), (1080, [], 0, 1, 1), (1440, [], 0, 1, 1),
            (1800, [1 <<< 1], 1, 0, 0)] := by
  have hb : (run_lights_supervisor_cycle st pulse_buf flash_flags).locals.p_widths
        = stored_widths st pulse_buf
      ∧ (run_lights_supervisor_cycle st pulse_buf flash_flags).locals.filt_p_width
        = cycle_average st pulse_buf
      ∧ (run_lights_supervisor_cycle st pulse_buf flash_flags).locals.buf_pointer.val
        = (st.buf_pointer.val + 1) % 5 := by
    by_cases h : cycle_average st pulse_buf = 0 ∧ st.timeout_latch = 0
    · rw [supervisor_cycle_lights_off st pulse_buf flash_flags h]
      exact ⟨rfl, rfl, rfl⟩
    · by_cases h2 : (cycle_average st pulse_buf > THRESHOLD_HIGH ∧ st.change_polarity ≠ 0)
          ∨ (cycle_average st pulse_buf < THRESHOLD_LOW ∧ st.change_polarity = 0)
      · rw [supervisor_cycle_next_pattern st pulse_buf flash_flags h h2]
        exact ⟨rfl, rfl, rfl⟩
      · rw [supervisor_cycle_no_change st pulse_buf flash_flags h h2]
        exact ⟨rfl, rfl, rfl⟩
  refine ⟨hb.1, hb.2.1, hb.2.2, ?_, ?_, ?_, by decide⟩
  · intro h
    rw [supervisor_cycle_lights_off st pulse_buf flash_flags h]
    exact ⟨rfl, rfl, rfl, rfl, rfl, rfl⟩
  · intro h h2
    rw [supervisor_cycle_next_pattern st pulse_buf flash_flags h h2]
    refine ⟨rfl, rfl, ?_, rfl, rfl, rfl⟩
    intro k
    show (osEventFlagsSet flash_flags (1 <<< ((st.which_animation + 1) % 4))).testBit k = _
    rw [testBit_osEventFlagsSet, Nat.one_shiftLeft, Nat.testBit_two_pow]
    by_cases hk : k = (st.which_animation + 1) % 4
    · simp [hk]
    · have hk2 : ¬ (st.which_animation + 1) % 4 = k := fun e => hk e.symm
      simp [hk, hk2]
  · intro h h2
    rw [supervisor_cycle_no_change st pulse_buf flash_flags h h2]
    exact ⟨rfl, rfl, rfl, rfl, rfl, rfl⟩

theorem supervisor_cycle_contract_witness :
    (run_lights_supervisor_cycle run_lights_supervisor_entry (pulse_env 0).pulse_buf 0).set_calls
        = [LIGHTS_OFF]
    ∧ (run_lights_supervisor_cycle run_lights_supervisor_entry
        (pulse_env 0).pulse_buf 0).locals.timeout_latch = 1 :=
  ⟨((supervisor_cycle_contract run_lights_supervisor_entry (pulse_env 0).pulse_buf 0).2.2.2.1
      (by decide)).1,
   ((supervisor_cycle_contract run_lights_supervisor_entry (pulse_env 0).pulse_buf 0).2.2.2.1
      (by decide)).2.2.2.1⟩

/-! ## Light supervisor: loss of signal and hysteresis -/

theorem supervisor_cycle_cases (st : SupervisorLocals) (q : MsgQueue Nat) (f : Nat) :
    ((run_lights_supervisor_cycle st q f).branch = SupervisorBranch.lights_off
      ∧ (run_lights_supervisor_cycle st q f).locals.filt_p_width = 0
      ∧ st.timeout_latch = 0
      ∧ (run_lights_supervisor_cycle st q f).locals.timeout_latch = 1
      ∧ (run_lights_supervisor_cycle st q f).locals.change_polarity = st.change_polarity
      ∧ (run_lights_supervisor_cycle st q f).set_calls = [LIGHTS_OFF])
    ∨ ((run_lights_supervisor_cycle st q f).branch = SupervisorBranch.next_pattern
      ∧ ((1700 < (run_lights_supervisor_cycle st q f).locals.filt_p_width
            ∧ st.change_polarity ≠ 0
            ∧ (run_lights_supervisor_cycle st q f).locals.change_polarity = 0)
          ∨ ((run_lights_supervisor_cycle st q f).locals.filt_p_width < 1300
            ∧ st.change_polarity = 0
            ∧ (run_lights_supervisor_cycle st q f).locals.change_polarity = 1))
      ∧ ¬ ((run_lights_supervisor_cycle st q f).locals.filt_p_width = 0
            ∧ st.timeout_latch = 0)
      ∧ (run_lights_supervisor_cycle st q f).locals.timeout_latch = 0
      ∧ (run_lights_supervisor_cycle st q f).set_calls
          = [1 <<< ((st.which_animation + 1) % 4)])
    ∨ ((run_lights_supervisor_cycle st q f).branch = SupervisorBranch.no_change
      ∧ ¬ ((run_lights_supervisor_cycle st q f).locals.filt_p_width = 0
            ∧ st.timeout_latch = 0)
      ∧ ¬ ((1700 < (run_lights_supervisor_cycle st q f).locals.filt_p_width
            ∧ st.change_polarity ≠ 0)
          ∨ ((run_lights_supervisor_cycle st q f).locals.filt_p_width < 1300
            ∧ st.change_polarity = 0))
      ∧ (run_lights_supervisor_cycle st q f).locals.timeout_latch = st.timeout_latch
      ∧ (run_lights_supervisor_cycle st q f).locals.change_polarity = st.change_polarity
      ∧ (run_lights_supervisor_cycle st q f).set_calls = []) := by
  by_cases h : cycle_average st q = 0 ∧ st.timeout_latch = 0
  · left
    rw [supervisor_cycle_lights_off st q f h]
    exact ⟨rfl, h.1, h.2, rfl, rfl, rfl⟩
  · by_cases h2 : (cycle_average st q > THRESHOLD_HIGH ∧ st.change_polarity ≠ 0)
        ∨ (cycle_average st q < THRESHOLD_LOW ∧ st.change_polarity = 0)
    · right; left
      rw [supervisor_cycle_next_pattern st q f h h2]
      refine ⟨rfl, ?_, h, rfl, rfl⟩
      rcases h2 with ⟨ha, hp⟩ | ⟨ha, hp⟩
      · left
        exact ⟨ha, hp, if_neg hp⟩
      · right
        exact ⟨ha, hp, if_pos hp⟩
    · right; right
      rw [supervisor_cycle_no_change st q f h h2]
      exact ⟨rfl, h, h2, rfl, rfl, rfl⟩

theorem supervisor_cycles_cons (st : SupervisorLocals) (env : SupervisorEnv)
    (rest : List SupervisorEnv) :
    run_lights_supervisor_cycles st (env :: rest)
      = run_lights_supervisor_cycle st env.pulse_buf env.flash_flags
        :: run_lights_supervisor_cycles
            (run_lights_supervisor_cycle st env.pulse_buf env.flash_flags).locals rest := rfl

theorem supervisor_cycles_length (st : SupervisorLocals) (envs : List SupervisorEnv) :
    (run_lights_supervisor_cycles st envs).length = envs.length := by
  induction envs generalizing st with
  | nil => rfl
  | cons env rest ih => rw [supervisor_cycles_cons, List.length_cons, ih, List.length_cons]

/-- While the latch is set and the polarity is rising, cycles of average 0 set no flag. -/
theorem zero_run_latched (st : SupervisorLocals) (envs : List SupervisorEnv)
    (hl : st.timeout_latch ≠ 0) (hp : st.change_polarity ≠ 0)
    (h0 : ∀ s ∈ run_lights_supervisor_cycles st envs, s.locals.filt_p_width = 0) :
    (run_lights_supervisor_cycles st envs).map (fun s => s.set_calls)
      = envs.map (fun _ => []) := by
  induction envs generalizing st with
  | nil => rfl
  | cons env rest ih =>
    rw [supervisor_cycles_cons] at h0 ⊢
    have ha := h0 _ (List.mem_cons_self _ _)
    have hr := fun s hs => h0 s (List.mem_cons_of_mem _ hs)
    rcases supervisor_cycle_cases st env.pulse_buf env.flash_flags with
      ⟨-, -, h, -⟩ | ⟨-, hc, -⟩ | ⟨-, -, -, hl2, hp2, hs⟩
    · exact absurd h hl
    · rcases hc with ⟨hgt, -, -⟩ | ⟨-, hpz, -⟩
      · omega
      · exact absurd hpz hp
    · rw [List.map_cons, List.map_cons, hs, ih _ (by rw [hl2]; exact hl) (by rw [hp2]; exact hp) hr]

/-- While the latch is set and the pattern index is not incremented, no flag is set and the
latch stays as it is. -/
theorem latched_until_increment (st : SupervisorLocals) (envs : List SupervisorEnv)
    (hl : st.timeout_latch ≠ 0)
    (hn : ∀ s ∈ run_lights_supervisor_cycles st envs,
      s.branch ≠ SupervisorBranch.next_pattern) :
    ∀ s ∈ run_lights_supervisor_cycles st envs,
      s.set_calls = [] ∧ s.locals.timeout_latch = st.timeout_latch := by
  induction envs generalizing st with
  | nil => intro s hs; cases hs
  | cons env rest ih =>
    rw [supervisor_cycles_cons] at hn ⊢
    have hb := hn _ (List.mem_cons_self _ _)
    have hr := fun s hs => hn s (List.mem_cons_of_mem _ hs)
    rcases supervisor_cycle_cases st env.pulse_buf env.flash_flags with
      ⟨-, -, h, -⟩ | ⟨hc, -⟩ | ⟨-, -, -, hl2, -, hs⟩
    · exact absurd h hl
    · exact absurd hc hb
    · intro s hmem
      rcases List.mem_cons.1 hmem with e | hmem
      · rw [e]; exact ⟨hs, hl2⟩
      · have := ih _ (by rw [hl2]; exact hl) hr s hmem
        exact ⟨this.1, by rw [this.2, hl2]⟩

/-- While the debounced average is not 0, a clear latch stays clear. -/
theorem latch_clear_after (st : SupervisorLocals) (envs : List SupervisorEnv)
    (hl : st.timeout_latch = 0)
    (h0 : ∀ s ∈ run_lights_supervisor_cycles st envs, s.locals.filt_p_width ≠ 0) :
    (supervisor_locals_after st envs).timeout_latch = 0 := by
  induction envs generalizing st with
  | nil => exact hl
  | cons env rest ih =>
    rw [supervisor_cycles_cons] at h0
    have ha := h0 _ (List.mem_cons_self _ _)
    have hr := fun s hs => h0 s (List.mem_cons_of_mem _ hs)
    show (supervisor_locals_after
      (run_lights_supervisor_cycle st env.pulse_buf env.flash_flags).locals rest).timeout_latch = 0
    rcases supervisor_cycle_cases st env.pulse_buf env.flash_flags with
      ⟨-, hz, -⟩ | ⟨-, -, -, hl2, -⟩ | ⟨-, -, -, hl2, -, -⟩
    · exact absurd hz ha
    · exact ih _ hl2 hr
    · exact ih _ (by rw [hl2]; exact hl) hr

theorem supervisor_step_of_mem (st : SupervisorLocals) (envs : List SupervisorEnv)
    (s : SupervisorStep) (hs : s ∈ run_lights_supervisor_cycles st envs) :
    ∃ st1 q f, s = run_lights_supervisor_cycle st1 q f := by
  induction envs generalizing st with
  | nil => cases hs
  | cons env rest ih =>
    rw [supervisor_cycles_cons] at hs
    rcases List.mem_cons.1 hs with e | hmem
    · exact ⟨st, env.pulse_buf, env.flash_flags, e⟩
    · exact ih _ hmem

/-- C22, as stated, fails: from the entry state, a signal that is lost (one cycle of average 0,
in which LIGHTS_OFF is asserted), returns at width 1000 (averages 200 .. 1000, none of which
increments the pattern index with the polarity rising) and is lost again has a second maximal
run of zero averages, of two cycles, in which LIGHTS_OFF is asserted in no cycle. -/
theorem lights_off_not_reasserted :
    step_averages (run_lights_supervisor_cycles run_lights_supervisor_entry signal_lost_twice)
        = [0, 200, 400, 600, 800, 1000, 800, 600, 400, 200, 0, 0, 200]
    ∧ (loss_runs (run_lights_supervisor_cycles run_lights_supervisor_entry
          signal_lost_twice)).map (fun run => (run.length, lights_off_count run))
        = [(1, 1), (2, 0)]
    ∧ (run_lights_supervisor_cycles run_lights_supervisor_entry signal_lost_twice).map
          (fun s => s.set_calls)
        = [[LIGHTS_OFF], [], [], [], [], [], [], [], [], [], [], [], []] := by
  decide

/-- C22, amended: in a run of consecutive cycles whose debounced average is 0 and at whose
start the polarity is rising, LIGHTS_OFF is asserted in the first cycle if the loss latch is
clear there, and nothing else is asserted in any cycle of the run. The latch is not released by
the return of the signal: while the latch is set and the pattern index is not incremented, no
cycle asserts a flag and the latch stays set, whatever the averages; a cycle that increments the
pattern index clears the latch; and once the latch is clear it stays clear while the averages
are not 0, so that the next cycle of average 0 asserts LIGHTS_OFF. -/
theorem lights_off_latched (st : SupervisorLocals) (env : SupervisorEnv)
    (rest : List SupervisorEnv) :
    ((∀ s ∈ run_lights_supervisor_cycles st (env :: rest), s.locals.filt_p_width = 0) →
      st.change_polarity ≠ 0 →
      (run_lights_supervisor_cycles st (env :: rest)).map (fun s => s.set_calls)
        = (if st.timeout_latch = 0 then [LIGHTS_OFF] else []) :: rest.map (fun _ => []))
    ∧ (st.timeout_latch ≠ 0 →
        (∀ s ∈ run_lights_supervisor_cycles st (env :: rest),
          s.branch ≠ SupervisorBranch.next_pattern) →
        ∀ s ∈ run_lights_supervisor_cycles st (env :: rest),
          s.set_calls = [] ∧ s.locals.timeout_latch = st.timeout_latch)
    ∧ (∀ s ∈ run_lights_supervisor_cycles st (env :: rest),
        s.branch = SupervisorBranch.next_pattern → s.locals.timeout_latch = 0)
    ∧ (st.timeout_latch = 0 →
        (∀ s ∈ run_lights_supervisor_cycles st (env :: rest), s.locals.filt_p_width ≠ 0) →
        ∀ e : SupervisorEnv,
          cycle_average (supervisor_locals_after st (env :: rest)) e.pulse_buf = 0 →
          (run_lights_supervisor_cycle (supervisor_locals_after st (env :: rest))
            e.pulse_buf e.flash_flags).set_calls = [LIGHTS_OFF]) := by
  refine ⟨?_, ?_, ?_, ?_⟩
  · intro h0 hp
    by_cases hl : st.timeout_latch = 0
    · rw [if_pos hl]
      rw [supervisor_cycles_cons] at h0 ⊢
      have ha := h0 _ (List.mem_cons_self _ _)
      have hr := fun s hs => h0 s (List.mem_cons_of_mem _ hs)
      rcases supervisor_cycle_cases st env.pulse_buf env.flash_flags with
        ⟨-, -, -, hl2, hp2, hs⟩ | ⟨-, hc, -⟩ | ⟨-, hn, -⟩
      · rw [List.map_cons, hs,
          zero_run_latched _ rest (by rw [hl2]; decide) (by rw [hp2]; exact hp) hr]
      · rcases hc with ⟨hgt, -, -⟩ | ⟨-, hpz, -⟩
        · omega
        · exact absurd hpz hp
      · exact absurd ⟨ha, hl⟩ hn
    · rw [if_neg hl]
      exact zero_run_latched st (env :: rest) hl hp h0
  · intro hl hn
    exact latched_until_increment st (env :: rest) hl hn
  · intro s hs hb
    obtain ⟨st1, q, f, e⟩ := supervisor_step_of_mem st (env :: rest) s hs
    rw [e] at hb ⊢
    rcases supervisor_cycle_cases st1 q f with ⟨hc, -⟩ | ⟨-, -, -, hl2, -⟩ | ⟨hc, -⟩
    · rw [hc] at hb; cases hb
    · exact hl2
    · rw [hc] at hb; cases hb
  · intro hl h0 e ha
    have hl2 := latch_clear_after st (env :: rest) hl h0
    rw [supervisor_cycle_lights_off _ e.pulse_buf e.flash_flags ⟨ha, hl2⟩]

theorem lights_off_latched_witness :
    (run_lights_supervisor_cycles run_lights_supervisor_entry
        (pulse_env 0 :: [pulse_env 0, pulse_env 0])).map (fun s => s.set_calls)
      = [[LIGHTS_OFF], [], []] :=
  (lights_off_latched run_lights_supervisor_entry (pulse_env 0)
    [pulse_env 0, pulse_env 0]).1 (by decide) (by decide)

/-- A loss of signal with the polarity falling (after one pulse of width 9000): the cycle after
the one that asserts LIGHTS_OFF increments the pattern index, since 0 < 1300, and the cycle
after that asserts LIGHTS_OFF again. -/
theorem loss_with_falling_polarity :
    (run_lights_supervisor_cycles run_lights_supervisor_entry
        ([9000, 0, 0, 0, 0, 0, 0, 0, 0].map pulse_env)).map
          (fun s => (s.locals.filt_p_width, s.set_calls))
      = [(1800, [1 <<< 1]), (1800, []), (1800, []), (1800, []), (1800, []),
          (0, [LIGHTS_OFF]), (0, [1 <<< 1]), (0, [LIGHTS_OFF]), (0, [])] := by
  decide

theorem increment_count_cons (s : SupervisorStep) (l : List SupervisorStep) :
    increment_count (s :: l)
      = increment_count l + (if s.branch = SupervisorBranch.next_pattern then 1 else 0) := by
  unfold increment_count
  rw [List.countP_cons]
  simp

theorem increment_averages_cons (s : SupervisorStep) (l : List SupervisorStep) :
    increment_averages (s :: l)
      = if s.branch = SupervisorBranch.next_pattern then
          s.locals.filt_p_width :: increment_averages l
        else increment_averages l := by
  unfold increment_averages
  by_cases h : s.branch = SupervisorBranch.next_pattern
  · simp [h]
  · simp [h]

/-- With the polarity falling and the averages at or above 1300, no cycle increments the
pattern index. -/
theorem no_increment_high (st : SupervisorLocals) (envs : List SupervisorEnv)
    (hp : st.change_polarity = 0)
    (ha : ∀ s ∈ run_lights_supervisor_cycles st envs, 1300 ≤ s.locals.filt_p_width) :
    increment_count (run_lights_supervisor_cycles st envs) = 0 := by
  induction envs generalizing st with
  | nil => rfl
  | cons env rest ih =>
    rw [supervisor_cycles_cons] at ha ⊢
    have h1 := ha _ (List.mem_cons_self _ _)
    have hr := fun s hs => ha s (List.mem_cons_of_mem _ hs)
    rw [increment_count_cons]
    rcases supervisor_cycle_cases st env.pulse_buf env.flash_flags with
      ⟨hb, -, -, -, hp2, -⟩ | ⟨-, hc, -⟩ | ⟨hb, -, -, -, hp2, -⟩
    · rw [ih _ (by rw [hp2]; exact hp) hr, hb]; rfl
    · rcases hc with ⟨-, hpn, -⟩ | ⟨hlt, -, -⟩
      · exact absurd hp hpn
      · omega
    · rw [ih _ (by rw [hp2]; exact hp) hr, hb]; rfl

/-- With the polarity rising and the averages at or below 1700, no cycle increments the
pattern index. -/
theorem no_increment_low (st : SupervisorLocals) (envs : List SupervisorEnv)
    (hp : st.change_polarity ≠ 0)
    (ha : ∀ s ∈ run_lights_supervisor_cycles st envs, s.locals.filt_p_width ≤ 1700) :
    increment_count (run_lights_supervisor_cycles st envs) = 0 := by
  induction envs generalizing st with
  | nil => rfl
  | cons env rest ih =>
    rw [supervisor_cycles_cons] at ha ⊢
    have h1 := ha _ (List.mem_cons_self _ _)
    have hr := fun s hs => ha s (List.mem_cons_of_mem _ hs)
    rw [increment_count_cons]
    rcases supervisor_cycle_cases st env.pulse_buf env.flash_flags with
      ⟨hb, -, -, -, hp2, -⟩ | ⟨-, hc, -⟩ | ⟨hb, -, -, -, hp2, -⟩
    · rw [ih _ (by rw [hp2]; exact hp) hr, hb]; rfl
    · rcases hc with ⟨hgt, -, -⟩ | ⟨-, hpz, -⟩
      · omega
      · exact absurd hpz hp
    · rw [ih _ (by rw [hp2]; exact hp) hr, hb]; rfl

theorem one_increment_high (st : SupervisorLocals) (envs : List SupervisorEnv)
    (ha : ∀ s ∈ run_lights_supervisor_cycles st envs, 1300 ≤ s.locals.filt_p_width) :
    increment_count (run_lights_supervisor_cycles st envs) ≤ 1 := by
  induction envs generalizing st with
  | nil => exact Nat.zero_le _
  | cons env rest ih =>
    rw [supervisor_cycles_cons] at ha ⊢
    have h1 := ha _ (List.mem_cons_self _ _)
    have hr := fun s hs => ha s (List.mem_cons_of_mem _ hs)
    rw [increment_count_cons]
    rcases supervisor_cycle_cases st env.pulse_buf env.flash_flags with
      ⟨hb, -⟩ | ⟨hb, hc, -⟩ | ⟨hb, -⟩
    · rw [hb]; simpa using ih _ hr
    · rcases hc with ⟨-, -, hp2⟩ | ⟨hlt, -, -⟩
      · rw [no_increment_high _ rest hp2 hr, hb]; simp
      · omega
    · rw [hb]; simpa using ih _ hr

theorem one_increment_low (st : SupervisorLocals) (envs : List SupervisorEnv)
    (ha : ∀ s ∈ run_lights_supervisor_cycles st envs, s.locals.filt_p_width ≤ 1700) :
    increment_count (run_lights_supervisor_cycles st envs) ≤ 1 := by
  induction envs generalizing st with
  | nil => exact Nat.zero_le _
  | cons env rest ih =>
    rw [supervisor_cycles_cons] at ha ⊢
    have h1 := ha _ (List.mem_cons_self _ _)
    have hr := fun s hs => ha s (List.mem_cons_of_mem _ hs)
    rw [increment_count_cons]
    rcases supervisor_cycle_cases st env.pulse_buf env.flash_flags with
      ⟨hb, -⟩ | ⟨hb, hc, -⟩ | ⟨hb, -⟩
    · rw [hb]; simpa using ih _ hr
    · rcases hc with ⟨hgt, -, -⟩ | ⟨-, -, hp2⟩
      · omega
      · rw [no_increment_low _ rest (by rw [hp2]; decide) hr, hb]; simp
    · rw [hb]; simpa using ih _ hr

/-- The averages at which the index is incremented alternate, and the first of them is above
1700 when the polarity is rising and below 1300 when it is falling. -/
theorem increments_alternate (st : SupervisorLocals) (envs : List SupervisorEnv) :
    List.Chain' (fun x y => (1700 < x ∧ y < 1300) ∨ (x < 1300 ∧ 1700 < y))
        (increment_averages (run_lights_supervisor_cycles st envs))
    ∧ ∀ x ∈ (increment_averages (run_lights_supervisor_cycles st envs)).head?,
        (st.change_polarity ≠ 0 → 1700 < x) ∧ (st.change_polarity = 0 → x < 1300) := by
  induction envs generalizing st with
  | nil => exact ⟨List.chain'_nil, by intro x hx; cases hx⟩
  | cons env rest ih =>
    rw [supervisor_cycles_cons, increment_averages_cons]
    have ih1 := ih (run_lights_supervisor_cycle st env.pulse_buf env.flash_flags).locals
    rcases supervisor_cycle_cases st env.pulse_buf env.flash_flags with
      ⟨hb, -, -, -, hp2, -⟩ | ⟨hb, hc, -⟩ | ⟨hb, -, -, -, hp2, -⟩
    · rw [hb, if_neg (by decide)]
      rw [hp2] at ih1
      exact ih1
    · rw [hb, if_pos rfl]
      refine ⟨?_, ?_⟩
      · rw [List.chain'_cons']
        refine ⟨?_, ih1.1⟩
        intro y hy
        have hy2 := ih1.2 y hy
        rcases hc with ⟨hgt, -, hp2⟩ | ⟨hlt, -, hp2⟩
        · left; exact ⟨hgt, hy2.2 hp2⟩
        · right; exact ⟨hlt, hy2.1 (by rw [hp2]; decide)⟩
      · intro x hx
        rw [List.head?_cons, Option.mem_def, Option.some.injEq] at hx
        rw [← hx]
        rcases hc with ⟨hgt, hpn, -⟩ | ⟨hlt, hpz, -⟩
        · exact ⟨fun _ => hgt, fun h => absurd h hpn⟩
        · exact ⟨fun h => absurd hpz h, fun _ => hlt⟩
    · rw [hb, if_neg (by decide)]
      rw [hp2] at ih1
      exact ih1

/-- C23: from every supervisor state and for every input sequence, if the debounced averages of
all cycles are at or above 1300 the pattern index is incremented in at most one cycle, and if
they are all at or below 1700 it is incremented in at most one cycle; and in every sequence the
averages of the cycles that increment the index alternate between above 1700 and below 1300. -/
theorem hysteresis_one_increment (st : SupervisorLocals) (envs : List SupervisorEnv) :
    ((∀ s ∈ run_lights_supervisor_cycles st envs, 1300 ≤ s.locals.filt_p_width) →
      increment_count (run_lights_supervisor_cycles st envs) ≤ 1)
    ∧ ((∀ s ∈ run_lights_supervisor_cycles st envs, s.locals.filt_p_width ≤ 1700) →
      increment_count (run_lights_supervisor_cycles st envs) ≤ 1)
    ∧ List.Chain' (fun x y => (1700 < x ∧ y < 1300) ∨ (x < 1300 ∧ 1700 < y))
        (increment_averages (run_lights_supervisor_cycles st envs)) :=
  ⟨one_increment_high st envs, one_increment_low st envs, (increments_alternate st envs).1⟩

theorem hysteresis_one_increment_witness :
    step_averages (run_lights_supervisor_cycles hovering_start hovering_pulses)
        = [1670, 1700, 1730, 1760, 1790, 1770, 1740, 1710, 1680, 1650, 1680, 1710, 1740]
    ∧ increment_count (run_lights_supervisor_cycles hovering_start hovering_pulses) ≤ 1
    ∧ increment_averages (run_lights_supervisor_cycles hovering_start hovering_pulses)
        = [1730] :=
  ⟨by decide,
   (hysteresis_one_increment hovering_start hovering_pulses).1 (by decide), by decide⟩

/-! ## Light animator and LED task: the dispatch step -/

theorem low_nibble_bit (x : Nat) (h : x &&& 0x0F ≠ 0) :
    x.testBit 0 = true ∨ x.testBit 1 = true ∨ x.testBit 2 = true ∨ x.testBit 3 = true := by
  by_contra hc
  simp only [not_or, Bool.not_eq_true] at hc
  apply h
  apply Nat.eq_of_testBit_eq
  intro i
  have h15 : (0x0F : Nat) = 2 ^ 4 - 1 := by decide
  rw [Nat.testBit_and, h15, Nat.testBit_two_pow_sub_one, Nat.zero_testBit]
  by_cases hi : i < 4
  · interval_cases i
    · simp [hc.1]
    · simp [hc.2.1]
    · simp [hc.2.2.1]
    · simp [hc.2.2.2]
  · simp [hi]

theorem wait_any_pending (flags : Nat) (h : flags &&& 0x0F ≠ 0) :
    osEventFlagsWait flags 0x0F true osWaitForever 0 = (flags, flags &&& 0x0F)
    ∧ flags &&& 0x0F ≠ osFlagsErrorTimeout := by
  constructor
  · unfold osEventFlagsWait
    have hw : ¬ osWaitForever = 0 := by decide
    simp only [if_neg hw, Nat.or_zero]
    rw [if_pos h]
    rfl
  · have hle : flags &&& 0x0F ≤ 0x0F := Nat.and_le_right
    intro e
    rw [e] at hle
    exact absurd hle (by decide)

theorem run_board_lights_step_pending (flags : Nat) (h : flags &&& ALL_LIGHTS_FLAGS ≠ 0) :
    run_board_lights_step flags 0 = some (run_board_lights_dispatch flags) := by
  have hw := wait_any_pending flags h
  unfold run_board_lights_step
  show (if (osEventFlagsWait flags 0x0F true osWaitForever 0).2 = osFlagsErrorTimeout then none
    else some (run_board_lights_dispatch (osEventFlagsWait flags 0x0F true osWaitForever 0).1))
      = _
  rw [hw.1]
  exact if_neg hw.2

theorem led_thread_step_pending (flags : Nat) (h : flags &&& BIT_LED_ALL ≠ 0) :
    led_thread_step flags 0 = some (led_thread_dispatch flags) := by
  have hw := wait_any_pending flags h
  unfold led_thread_step
  show (if (osEventFlagsWait flags 0x0F true osWaitForever 0).2 = osFlagsErrorTimeout then none
    else some (led_thread_dispatch (osEventFlagsWait flags 0x0F true osWaitForever 0).1))
      = _
  rw [hw.1]
  exact if_neg hw.2

theorem testBit_clear_other (flags k j : Nat) (hj : j < 32) :
    (osEventFlagsClear flags (1 <<< k)).testBit j = (flags.testBit j && decide (j ≠ k)) := by
  rw [testBit_clear_bit flags k j hj]
  by_cases e : k = j
  · simp [e]
  · have e2 : ¬ j = k := fun h => e h.symm
    simp [e, e2]

theorem run_board_lights_dispatch_eq (flags : Nat) :
    run_board_lights_dispatch flags =
      if flags.testBit 0 = true then
        (osEventFlagsClear flags (1 <<< 0), [LightsCall.clear (1 <<< 0), lights_routine 0])
      else if flags.testBit 1 = true then
        (osEventFlagsClear flags (1 <<< 1), [LightsCall.clear (1 <<< 1), lights_routine 1])
      else if flags.testBit 2 = true then
        (osEventFlagsClear flags (1 <<< 2), [LightsCall.clear (1 <<< 2), lights_routine 2])
      else if flags.testBit 3 = true then
        (osEventFlagsClear flags (1 <<< 3), [LightsCall.clear (1 <<< 3), lights_routine 3])
      else (flags, []) := by
  unfold run_board_lights_dispatch osEventFlagsGet LIGHTS_OFF TAILLIGHT_ONLY TAIL_SOLID_HEAD
    TAIL_AND_HEAD
  simp only [and_bit_ne_zero_iff]
  rfl

theorem led_thread_dispatch_eq (flags : Nat) :
    led_thread_dispatch flags =
      if flags.testBit 3 = true then
        (osEventFlagsClear flags (1 <<< 3), [led_routine 3, LedCall.clear (1 <<< 3)])
      else if flags.testBit 2 = true then
        (osEventFlagsClear flags (1 <<< 2), [LedCall.clear (1 <<< 2), led_routine 2])
      else if flags.testBit 0 = true then
        (osEventFlagsClear flags (1 <<< 0), [led_routine 0, LedCall.clear (1 <<< 0)])
      else if flags.testBit 1 = true then
        (osEventFlagsClear flags (1 <<< 1), [led_routine 1, LedCall.clear (1 <<< 1)])
      else (flags, []) := by
  unfold led_thread_dispatch osEventFlagsGet BIT_LED_FLASH BIT_LED_FADE BIT_LED_ON BIT_LED_OFF
  simp only [and_bit_ne_zero_iff]
  rfl

/-- C24: for every pattern-flag word with at least one of bits 0..3 set, and nothing arriving
during the step, the dispatch step of the light animator returns; with k the lowest-numbered
set bit, it clears bit k and then runs the routine of bit k and makes no other call, and
afterwards every bit other than k is as it was and bit k is clear. -/
theorem lights_dispatch_priority (flash_flags : Nat)
    (h : flash_flags &&& ALL_LIGHTS_FLAGS ≠ 0) :
    ∃ k, k < 4 ∧ flash_flags.testBit k = true
      ∧ (∀ j, j < k → flash_flags.testBit j = false)
      ∧ run_board_lights_step flash_flags 0
          = some (osEventFlagsClear flash_flags (1 <<< k),
              [LightsCall.clear (1 <<< k), lights_routine k])
      ∧ ∀ j, j < 32 →
          (osEventFlagsClear flash_flags (1 <<< k)).testBit j
            = (flash_flags.testBit j && decide (j ≠ k)) := by
  rw [run_board_lights_step_pending flash_flags h, run_board_lights_dispatch_eq]
  by_cases h0 : flash_flags.testBit 0 = true
  · refine ⟨0, by decide, h0, fun j hj => absurd hj (Nat.not_lt_zero j), ?_,
      fun j hj => testBit_clear_other flash_flags 0 j hj⟩
    rw [if_pos h0]
  · by_cases h1 : flash_flags.testBit 1 = true
    · refine ⟨1, by decide, h1, ?_, ?_, fun j hj => testBit_clear_other flash_flags 1 j hj⟩
      · intro j hj
        interval_cases j
        simpa using h0
      · rw [if_neg h0, if_pos h1]
    · by_cases h2 : flash_flags.testBit 2 = true
      · refine ⟨2, by decide, h2, ?_, ?_, fun j hj => testBit_clear_other flash_flags 2 j hj⟩
        · intro j hj
          interval_cases j
          · simpa using h0
          · simpa using h1
        · rw [if_neg h0, if_neg h1, if_pos h2]
      · have h3 : flash_flags.testBit 3 = true := by
          rcases low_nibble_bit flash_flags h with e | e | e | e
          · exact absurd e h0
          · exact absurd e h1
          · exact absurd e h2
          · exact e
        refine ⟨3, by decide, h3, ?_, ?_, fun j hj => testBit_clear_other flash_flags 3 j hj⟩
        · intro j hj
          interval_cases j
          · simpa using h0
          · simpa using h1
          · simpa using h2
        · rw [if_neg h0, if_neg h1, if_neg h2, if_pos h3]

theorem lights_dispatch_priority_witness :
    0x0E &&& ALL_LIGHTS_FLAGS ≠ 0
    ∧ ∃ k, k < 4 ∧ (0x0E : Nat).testBit k = true
      ∧ (∀ j, j < k → (0x0E : Nat).testBit j = false)
      ∧ run_board_lights_step 0x0E 0
          = some (osEventFlagsClear 0x0E (1 <<< k),
              [LightsCall.clear (1 <<< k), lights_routine k])
      ∧ ∀ j, j < 32 →
          (osEventFlagsClear 0x0E (1 <<< k)).testBit j
            = ((0x0E : Nat).testBit j && decide (j ≠ k)) :=
  ⟨by decide, lights_dispatch_priority 0x0E (by decide)⟩

/-- C29: for every LED command-flag word with at least one of bits 0..3 set, and nothing
arriving during the step, the dispatch step of the LED task returns; with k the set command bit
of the highest priority in the order flash > fade > on > off, the only routine it performs is
that of command k, the only bit it clears is bit k, and afterwards every bit other than k is as
it was and bit k is clear. -/
theorem led_dispatch_priority (led_action_flags : Nat)
    (h : led_action_flags &&& BIT_LED_ALL ≠ 0) :
    ∃ k calls, k < 4 ∧ led_action_flags.testBit k = true
      ∧ (∀ j, j < 4 → led_rank j < led_rank k → led_action_flags.testBit j = false)
      ∧ led_thread_step led_action_flags 0
          = some (osEventFlagsClear led_action_flags (1 <<< k), calls)
      ∧ led_routines_run calls = [led_routine k]
      ∧ led_masks_cleared calls = [1 <<< k]
      ∧ ∀ j, j < 32 →
          (osEventFlagsClear led_action_flags (1 <<< k)).testBit j
            = (led_action_flags.testBit j && decide (j ≠ k)) := by
  rw [led_thread_step_pending led_action_flags h, led_thread_dispatch_eq]
  by_cases h3 : led_action_flags.testBit 3 = true
  · refine ⟨3, [led_routine 3, LedCall.clear (1 <<< 3)], by decide, h3, ?_, by rw [if_pos h3], rfl, rfl,
      fun j hj => testBit_clear_other led_action_flags 3 j hj⟩
    intro j hj hr
    interval_cases j <;> simp [led_rank] at hr
  · by_cases h2 : led_action_flags.testBit 2 = true
    · refine ⟨2, [LedCall.clear (1 <<< 2), led_routine 2], by decide, h2, ?_, by rw [if_neg h3, if_pos h2], rfl, rfl,
        fun j hj => testBit_clear_other led_action_flags 2 j hj⟩
      intro j hj hr
      interval_cases j <;> simp [led_rank] at hr
      simpa using h3
    · by_cases h0 : led_action_flags.testBit 0 = true
      · refine ⟨0, [led_routine 0, LedCall.clear (1 <<< 0)], by decide, h0, ?_, by rw [if_neg h3, if_neg h2, if_pos h0], rfl, rfl,
          fun j hj => testBit_clear_other led_action_flags 0 j hj⟩
        intro j hj hr
        interval_cases j <;> simp [led_rank] at hr
        · simpa using h2
        · simpa using h3
      · have h1 : led_action_flags.testBit 1 = true := by
          rcases low_nibble_bit led_action_flags h with e | e | e | e
          · exact absurd e h0
          · exact e
          · exact absurd e h2
          · exact absurd e h3
        refine ⟨1, [led_routine 1, LedCall.clear (1 <<< 1)], by decide, h1, ?_, by rw [if_neg h3, if_neg h2, if_neg h0, if_pos h1],
          rfl, rfl, fun j hj => testBit_clear_other led_action_flags 1 j hj⟩
        intro j hj hr
        interval_cases j <;> simp [led_rank] at hr
        · simpa using h0
        · simpa using h2
        · simpa using h3

theorem led_dispatch_priority_witness :
    0x07 &&& BIT_LED_ALL ≠ 0
    ∧ led_thread_step 0x07 0 = some (0x03, [LedCall.clear BIT_LED_FADE, LedCall.do_led_fade])
    ∧ ∃ k calls, k < 4 ∧ (0x07 : Nat).testBit k = true
      ∧ (∀ j, j < 4 → led_rank j < led_rank k → (0x07 : Nat).testBit j = false)
      ∧ led_thread_step 0x07 0 = some (osEventFlagsClear 0x07 (1 <<< k), calls)
      ∧ led_routines_run calls = [led_routine k]
      ∧ led_masks_cleared calls = [1 <<< k]
      ∧ ∀ j, j < 32 →
          (osEventFlagsClear 0x07 (1 <<< k)).testBit j
            = ((0x07 : Nat).testBit j && decide (j ≠ k)) :=
  ⟨by decide, by decide, led_dispatch_priority 0x07 (by decide)⟩

/-! ## Button classifier -/

theorem button_cycle_unstable (st : ButtonLocals) (flags : Nat) (env : ButtonEnv)
    (h : env.current_button_state ≠ st.last_state) :
    button_thread_cycle st flags env
      = { locals := { st with last_state := env.current_button_state }
          pushbutton_flags := flags
          set_calls := [] } := by
  unfold button_thread_cycle
  rw [if_neg h]

theorem button_cycles_cons (st : ButtonLocals) (flags : Nat) (env : ButtonEnv)
    (rest : List ButtonEnv) :
    button_thread_cycles st flags (env :: rest)
      = button_thread_cycle st flags env
        :: button_thread_cycles (button_thread_cycle st flags env).locals
            (button_thread_cycle st flags env).pushbutton_flags rest := rfl

theorem button_cycles_append (st : ButtonLocals) (flags : Nat) (l1 l2 : List ButtonEnv) :
    button_thread_cycles st flags (l1 ++ l2)
      = button_thread_cycles st flags l1
        ++ button_thread_cycles (button_state_after st flags l1).1
            (button_state_after st flags l1).2 l2 := by
  induction l1 generalizing st flags with
  | nil => rfl
  | cons env rest ih =>
    rw [List.cons_append, button_cycles_cons, button_cycles_cons, ih, List.cons_append]
    rfl

/-- C25: a button-task cycle whose sampled level differs from the level sampled in the cycle
before sets no button flag, leaves the flag word alone and leaves the pressed memory, the
short and long latches and the press timestamp unchanged; it records the sampled level.
Hence for a single-sample glitch (the last sample was a, then b different from a is sampled,
then a again) neither of the two cycles sets a flag, and after both the press-tracking state and
the flag word are what they were. -/
theorem glitch_sets_no_flag (st : ButtonLocals) (pushbutton_flags : Nat) (env env2 : ButtonEnv)
    (h : env.current_button_state ≠ st.last_state) :
    (button_thread_cycle st pushbutton_flags env).set_calls = []
    ∧ (button_thread_cycle st pushbutton_flags env).pushbutton_flags = pushbutton_flags
    ∧ (button_thread_cycle st pushbutton_flags env).locals
        = { st with last_state := env.current_button_state }
    ∧ (env2.current_button_state = st.last_state →
        button_thread_cycles st pushbutton_flags [env, env2]
          = [{ locals := { st with last_state := env.current_button_state }
               pushbutton_flags := pushbutton_flags
               set_calls := [] },
             { locals := st
               pushbutton_flags := pushbutton_flags
               set_calls := [] }]) := by
  have h1 := button_cycle_unstable st pushbutton_flags env h
  refine ⟨by rw [h1], by rw [h1], by rw [h1], ?_⟩
  intro h2
  rw [button_cycles_cons, button_cycles_cons, h1]
  have h3 : env2.current_button_state
      ≠ ({ st with last_state := env.current_button_state } : ButtonLocals).last_state := by
    show env2.current_button_state ≠ env.current_button_state
    rw [h2]
    exact fun e => h e.symm
  rw [button_cycle_unstable _ pushbutton_flags env2 h3]
  show [_, ({ locals := { st with last_state := env2.current_button_state }
              pushbutton_flags := pushbutton_flags
              set_calls := [] } : ButtonStep)] = _
  rw [h2]

theorem glitch_sets_no_flag_witness :
    (button_thread_cycles
        { last_state := true, last_button := true, short_press := false, long_press := false,
          push_time := 100 } 0 [at_tick false 1200, at_tick true 1225]).map
          (fun s => s.set_calls) = [[], []] :=
  congrArg (List.map (fun s => s.set_calls))
    ((glitch_sets_no_flag
      { last_state := true, last_button := true, short_press := false, long_press := false,
        push_time := 100 } 0 (at_tick false 1200) (at_tick true 1225) (by decide)).2.2.2 rfl)

theorem uint32_sub_mod_right (a b : Nat) : uint32_sub a (b % 2 ^ 32) = uint32_sub a b := by
  unfold uint32_sub
  rw [Nat.mod_mod]

theorem uint32_sub_self (a : Nat) : uint32_sub a a = 0 := by
  unfold uint32_sub
  have h : a % 2 ^ 32 < 2 ^ 32 := Nat.mod_lt _ (by decide)
  omega

theorem first_marks_false {α : Type} (p : α → Bool) (xs : List α) (h : ∀ x, p x = false) :
    first_marks p xs = xs.map (fun _ => false) := by
  induction xs with
  | nil => rfl
  | cons x xs ih => simp [first_marks, h x, ih]

theorem first_marks_map {α β : Type} (p : β → Bool) (f : α → β) (xs : List α) :
    first_marks p (xs.map f) = first_marks (fun x => p (f x)) xs := by
  induction xs with
  | nil => rfl
  | cons x xs ih =>
    simp only [List.map_cons, first_marks, ih, List.map_map]
    rfl

theorem button_cycle_held (sp lp : Bool) (p flags t : Nat) :
    button_thread_cycle (button_held_state sp lp p) flags (at_tick true t)
      = { locals := button_held_state
            (sp || (!sp && decide (BUTTON_SHORT_PRESS_TIME < uint32_sub t p)))
            (lp || (!lp && decide (BUTTON_LONG_PRESS_TIME < uint32_sub t p))) p
          pushbutton_flags :=
            if (!lp && decide (BUTTON_LONG_PRESS_TIME < uint32_sub t p)) = true then
              osEventFlagsSet
                (if (!sp && decide (BUTTON_SHORT_PRESS_TIME < uint32_sub t p)) = true then
                  osEventFlagsSet flags BUTTON_SHORT_PRESSED else flags) BUTTON_LONG_PRESSED
            else
              (if (!sp && decide (BUTTON_SHORT_PRESS_TIME < uint32_sub t p)) = true then
                osEventFlagsSet flags BUTTON_SHORT_PRESSED else flags)
          set_calls := press_calls (!sp && decide (BUTTON_SHORT_PRESS_TIME < uint32_sub t p))
            (!lp && decide (BUTTON_LONG_PRESS_TIME < uint32_sub t p)) } := by
  unfold button_thread_cycle
  simp [button_held_state, at_tick, press_calls]

theorem button_cycle_first_held (st : ButtonLocals) (flags t : Nat)
    (h1 : st.last_state = true) (h2 : st.last_button = false)
    (h3 : st.short_press = false) (h4 : st.long_press = false) :
    button_thread_cycle st flags (at_tick true t)
      = { locals := button_held_state false false (t % 2 ^ 32)
          pushbutton_flags := flags
          set_calls := [] } := by
  have hz : uint32_sub t (t % 4294967296) = 0 := by
    have e := uint32_sub_mod_right t t
    rw [uint32_sub_self] at e
    exact e
  unfold button_thread_cycle
  simp [button_held_state, at_tick, h1, h2, h3, h4, hz,
    BUTTON_SHORT_PRESS_TIME, BUTTON_LONG_PRESS_TIME]

theorem pressed_run (sp lp : Bool) (p flags : Nat) (ts : List Nat) :
    (button_thread_cycles (button_held_state sp lp p) flags (ts.map (at_tick true))).map
        (fun s => s.set_calls)
      = List.zipWith press_calls
          (first_marks (fun t => !sp && decide (BUTTON_SHORT_PRESS_TIME < uint32_sub t p)) ts)
          (first_marks (fun t => !lp && decide (BUTTON_LONG_PRESS_TIME < uint32_sub t p)) ts) := by
  induction ts generalizing sp lp flags with
  | nil => rfl
  | cons t rest ih =>
    rw [List.map_cons, button_cycles_cons, List.map_cons, button_cycle_held]
    simp only []
    rw [ih]
    cases sp <;> cases lp <;>
      by_cases hs : BUTTON_SHORT_PRESS_TIME < uint32_sub t p <;>
      by_cases hl : BUTTON_LONG_PRESS_TIME < uint32_sub t p <;>
      simp [first_marks, hs, hl, first_marks_false]

theorem set_count_cons (m : Nat) (s : ButtonStep) (l : List ButtonStep) :
    set_count m (s :: l) = set_count m l + (if m ∈ s.set_calls then 1 else 0) := by
  unfold set_count
  rw [List.countP_cons]
  simp

theorem pressed_count_short (sp lp : Bool) (p flags : Nat) (ts : List Nat) :
    set_count BUTTON_SHORT_PRESSED
        (button_thread_cycles (button_held_state sp lp p) flags (ts.map (at_tick true)))
      = if sp = false ∧ ∃ t ∈ ts, BUTTON_SHORT_PRESS_TIME < uint32_sub t p then 1 else 0 := by
  induction ts generalizing sp lp flags with
  | nil => simp [button_thread_cycles, set_count]
  | cons t rest ih =>
    rw [List.map_cons, button_cycles_cons, set_count_cons, button_cycle_held]
    simp only []
    rw [ih]
    cases sp <;> cases lp <;>
      by_cases hs : BUTTON_SHORT_PRESS_TIME < uint32_sub t p <;>
      by_cases hl : BUTTON_LONG_PRESS_TIME < uint32_sub t p <;>
      simp [press_calls, hs, hl, BUTTON_SHORT_PRESSED, BUTTON_LONG_PRESSED]

theorem pressed_count_long (sp lp : Bool) (p flags : Nat) (ts : List Nat) :
    set_count BUTTON_LONG_PRESSED
        (button_thread_cycles (button_held_state sp lp p) flags (ts.map (at_tick true)))
      = if lp = false ∧ ∃ t ∈ ts, BUTTON_LONG_PRESS_TIME < uint32_sub t p then 1 else 0 := by
  induction ts generalizing sp lp flags with
  | nil => simp [button_thread_cycles, set_count]
  | cons t rest ih =>
    rw [List.map_cons, button_cycles_cons, set_count_cons, button_cycle_held]
    simp only []
    rw [ih]
    cases sp <;> cases lp <;>
      by_cases hs : BUTTON_SHORT_PRESS_TIME < uint32_sub t p <;>
      by_cases hl : BUTTON_LONG_PRESS_TIME < uint32_sub t p <;>
      simp [press_calls, hs, hl, BUTTON_SHORT_PRESSED, BUTTON_LONG_PRESSED]

/-- C26: a press is a run of stable pressed cycles (the sample before the first was pressed
too) that starts with no press remembered and both latches clear; the press start is the tick
t0 of its first cycle, and the elapsed time of a cycle is (tick - t0) mod 2^32. The flags set in
each cycle of the press are: SHORT_PRESSED in the first cycle whose elapsed time exceeds 1000
and in no other, LONG_PRESSED in the first cycle whose elapsed time exceeds 3000 and in no
other, and nothing else. So each is set in exactly one cycle if the elapsed time ever exceeds
its limit during the press, and in none otherwise. Scenario D: a press held 1200 ticks, sampled
every 25 ticks and then released sets SHORT_PRESSED once (at tick 2050, the press start being
1025) and RELEASED at the stable released sample, and sets no other flag. -/
theorem press_flags_once (st : ButtonLocals) (pushbutton_flags t0 : Nat) (ts : List Nat)
    (h1 : st.last_state = true) (h2 : st.last_button = false)
    (h3 : st.short_press = false) (h4 : st.long_press = false) :
    (button_thread_cycles st pushbutton_flags ((t0 :: ts).map (at_tick true))).map
        (fun s => s.set_calls)
      = List.zipWith press_calls
          (first_marks (fun e => decide (1000 < e)) ((t0 :: ts).map (fun t => uint32_sub t t0)))
          (first_marks (fun e => decide (3000 < e)) ((t0 :: ts).map (fun t => uint32_sub t t0)))
    ∧ set_count BUTTON_SHORT_PRESSED
          (button_thread_cycles st pushbutton_flags ((t0 :: ts).map (at_tick true)))
        = (if ∃ t ∈ t0 :: ts, 1000 < uint32_sub t t0 then 1 else 0)
    ∧ set_count BUTTON_LONG_PRESSED
          (button_thread_cycles st pushbutton_flags ((t0 :: ts).map (at_tick true)))
        = (if ∃ t ∈ t0 :: ts, 3000 < uint32_sub t t0 then 1 else 0)
    ∧ flag_events (press_of 1000 1200)
          (button_thread_cycles button_released_state 0 (press_of 1000 1200))
        = [(2050, [BUTTON_SHORT_PRESSED]), (2250, [BUTTON_RELEASED])] := by
  have hc := button_cycle_first_held st pushbutton_flags t0 h1 h2 h3 h4
  have hm : ∀ a, uint32_sub a (t0 % 4294967296) = uint32_sub a t0 :=
    fun a => uint32_sub_mod_right a t0
  refine ⟨?_, ?_, ?_, by decide⟩
  · rw [List.map_cons, button_cycles_cons, List.map_cons, hc]
    simp only []
    rw [pressed_run, first_marks_map, first_marks_map]
    simp [first_marks, uint32_sub_self, hm, BUTTON_SHORT_PRESS_TIME,
      BUTTON_LONG_PRESS_TIME, press_calls]
  · rw [List.map_cons, button_cycles_cons, set_count_cons, hc]
    simp only []
    rw [pressed_count_short]
    simp [uint32_sub_self, hm, BUTTON_SHORT_PRESS_TIME]
  · rw [List.map_cons, button_cycles_cons, set_count_cons, hc]
    simp only []
    rw [pressed_count_long]
    simp [uint32_sub_self, hm, BUTTON_LONG_PRESS_TIME]

theorem press_flags_once_witness :
    set_count BUTTON_SHORT_PRESSED
        (button_thread_cycles
          { last_state := true, last_button := false, short_press := false,
            long_press := false, push_time := 0 } 0
          ((1025 :: [1050, 2025, 2050, 2075, 4025, 4050, 4075]).map (at_tick true)))
      = (if ∃ t ∈ (1025 :: [1050, 2025, 2050, 2075, 4025, 4050, 4075] : List Nat),
          1000 < uint32_sub t 1025 then 1 else 0)
    ∧ (if ∃ t ∈ (1025 :: [1050, 2025, 2050, 2075, 4025, 4050, 4075] : List Nat),
          1000 < uint32_sub t 1025 then 1 else 0) = 1 :=
  ⟨(press_flags_once
      { last_state := true, last_button := false, short_press := false,
        long_press := false, push_time := 0 } 0 1025
      [1050, 2025, 2050, 2075, 4025, 4050, 4075] rfl rfl rfl rfl).2.1, by decide⟩

/-! ## Button classifier: release and bump -/

theorem button_cycle_release (st : ButtonLocals) (flags : Nat) (env : ButtonEnv)
    (h1 : env.current_button_state = false) (h2 : st.last_state = false)
    (h3 : st.last_button = true) :
    button_thread_cycle st flags env
      = { locals :=
            { last_state := false
              last_button := false
              short_press := false
              long_press := false
              push_time := st.push_time }
          pushbutton_flags :=
            osEventFlagsSet
              (if uint32_sub env.tick_at_release st.push_time < BUTTON_SHORT_PRESS_TIME then
                osEventFlagsSet flags BUTTON_BUMPED else flags) BUTTON_RELEASED
          set_calls :=
            (if uint32_sub env.tick_at_release st.push_time < BUTTON_SHORT_PRESS_TIME then
              [BUTTON_BUMPED] else []) ++ [BUTTON_RELEASED] } := by
  unfold button_thread_cycle
  simp [h1, h2, h3]

theorem button_cycle_idle (st : ButtonLocals) (flags : Nat) (env : ButtonEnv)
    (hb : st.last_button = false)
    (hn : ¬ (env.current_button_state = true ∧ st.last_state = true)) :
    button_thread_cycle st flags env
      = { locals := { st with last_state := env.current_button_state }
          pushbutton_flags := flags
          set_calls := [] } := by
  by_cases h : env.current_button_state = st.last_state
  · have hl : env.current_button_state = false := by
      cases hc : env.current_button_state
      · rfl
      · exact absurd ⟨hc, by rw [← h, hc]⟩ hn
    unfold button_thread_cycle
    rw [if_pos h, if_neg (by rw [hl]; decide), hb]
    simp only [Bool.false_eq_true, if_false]
  · exact button_cycle_unstable st flags env h

theorem idle_run (st : ButtonLocals) (flags : Nat) (envs : List ButtonEnv)
    (hb : st.last_button = false)
    (hn : no_stable_press st.last_state (envs.map (fun e => e.current_button_state))) :
    ∀ s ∈ button_thread_cycles st flags envs,
      s.set_calls = [] ∧ s.pushbutton_flags = flags := by
  induction envs generalizing st with
  | nil => intro s hs; cases hs
  | cons env rest ih =>
    rw [button_cycles_cons]
    have hn1 : ¬ (env.current_button_state = true ∧ st.last_state = true) := hn.1
    have hn2 : no_stable_press env.current_button_state
        (rest.map (fun e => e.current_button_state)) := hn.2
    rw [button_cycle_idle st flags env hb hn1]
    intro s hs
    rcases List.mem_cons.1 hs with e | hmem
    · rw [e]; exact ⟨rfl, rfl⟩
    · exact ih { st with last_state := env.current_button_state } hb hn2 s hmem

/-- C27: in the first stable released cycle after a press (the last sample was released and a
press is remembered) RELEASED is always set, BUMPED is set if and only if (tick - press start)
mod 2^32 is less than 1000 at that cycle, no other flag is set, both latches are reset and the
press is forgotten; and in the cycles after it, as long as none of them is a stable pressed
cycle, no button flag is set and the flag word stays as that cycle left it. -/
theorem release_flags (st : ButtonLocals) (pushbutton_flags : Nat) (env : ButtonEnv)
    (later : List ButtonEnv)
    (h1 : env.current_button_state = false) (h2 : st.last_state = false)
    (h3 : st.last_button = true) :
    (button_thread_cycle st pushbutton_flags env).set_calls
        = (if uint32_sub env.tick_at_release st.push_time < 1000 then [BUTTON_BUMPED] else [])
            ++ [BUTTON_RELEASED]
    ∧ BUTTON_RELEASED ∈ (button_thread_cycle st pushbutton_flags env).set_calls
    ∧ (BUTTON_BUMPED ∈ (button_thread_cycle st pushbutton_flags env).set_calls
        ↔ uint32_sub env.tick_at_release st.push_time < 1000)
    ∧ (∀ k, (button_thread_cycle st pushbutton_flags env).pushbutton_flags.testBit k
        = (pushbutton_flags.testBit k || decide (k = 0)
            || (decide (k = 1)
                && decide (uint32_sub env.tick_at_release st.push_time < 1000))))
    ∧ (button_thread_cycle st pushbutton_flags env).locals.short_press = false
    ∧ (button_thread_cycle st pushbutton_flags env).locals.long_press = false
    ∧ (button_thread_cycle st pushbutton_flags env).locals.last_button = false
    ∧ (no_stable_press false (later.map (fun e => e.current_button_state)) →
        ∀ s ∈ button_thread_cycles (button_thread_cycle st pushbutton_flags env).locals
            (button_thread_cycle st pushbutton_flags env).pushbutton_flags later,
          s.set_calls = []
          ∧ s.pushbutton_flags
              = (button_thread_cycle st pushbutton_flags env).pushbutton_flags) := by
  have hc := button_cycle_release st pushbutton_flags env h1 h2 h3
  rw [hc]
  refine ⟨rfl, by simp, ?_, ?_, rfl, rfl, rfl, ?_⟩
  · by_cases hb : uint32_sub env.tick_at_release st.push_time < 1000
    · simp [hb, BUTTON_SHORT_PRESS_TIME]
    · simp [hb, BUTTON_SHORT_PRESS_TIME, BUTTON_BUMPED, BUTTON_RELEASED]
  · intro k
    simp only []
    by_cases hb : uint32_sub env.tick_at_release st.push_time < 1000
    · simp only [BUTTON_SHORT_PRESS_TIME, hb, if_true, testBit_osEventFlagsSet, BUTTON_BUMPED,
        BUTTON_RELEASED, Nat.one_shiftLeft, Nat.testBit_two_pow, decide_True, Bool.and_true]
      by_cases h0 : k = 0
      · simp [h0]
      · by_cases h1 : k = 1
        · simp [h1]
        · have e0 : ¬ 0 = k := fun e => h0 e.symm
          have e1 : ¬ 1 = k := fun e => h1 e.symm
          simp [h0, h1, e0, e1]
    · simp only [BUTTON_SHORT_PRESS_TIME, hb, if_false, testBit_osEventFlagsSet,
        BUTTON_RELEASED, Nat.one_shiftLeft, Nat.testBit_two_pow, decide_False, Bool.and_false,
        Bool.or_false]
      by_cases h0 : k = 0
      · simp [h0]
      · have e0 : ¬ 0 = k := fun e => h0 e.symm
        simp [h0, e0]
  · intro hn
    exact idle_run _ _ later rfl hn

theorem release_flags_witness :
    (button_thread_cycle
        { last_state := false, last_button := true, short_press := true, long_press := false,
          push_time := 1025 } 4 (at_tick false 2250)).set_calls
      = (if uint32_sub (at_tick false 2250).tick_at_release 1025 < 1000 then [BUTTON_BUMPED]
          else []) ++ [BUTTON_RELEASED]
    ∧ ∀ s ∈ button_thread_cycles
          (button_thread_cycle
            { last_state := false, last_button := true, short_press := true,
              long_press := false, push_time := 1025 } 4 (at_tick false 2250)).locals
          (button_thread_cycle
            { last_state := false, last_button := true, short_press := true,
              long_press := false, push_time := 1025 } 4 (at_tick false 2250)).pushbutton_flags
          [at_tick false 2275, at_tick true 2300, at_tick false 2325],
        s.set_calls = []
        ∧ s.pushbutton_flags
            = (button_thread_cycle
                { last_state := false, last_button := true, short_press := true,
                  long_press := false, push_time := 1025 } 4
                (at_tick false 2250)).pushbutton_flags :=
  ⟨(release_flags
      { last_state := false, last_button := true, short_press := true, long_press := false,
        push_time := 1025 } 4 (at_tick false 2250)
      [at_tick false 2275, at_tick true 2300, at_tick false 2325] rfl rfl rfl).1,
   (release_flags
      { last_state := false, last_button := true, short_press := true, long_press := false,
        push_time := 1025 } 4 (at_tick false 2250)
      [at_tick false 2275, at_tick true 2300, at_tick false 2325] rfl rfl rfl).2.2.2.2.2.2.2
      (by simp [no_stable_press, at_tick])⟩

theorem set_count_append (m : Nat) (a b : List ButtonStep) :
    set_count m (a ++ b) = set_count m a + set_count m b := by
  unfold set_count
  rw [List.countP_append]

theorem pressed_state_after (sp lp : Bool) (p flags : Nat) (ts : List Nat) :
    ∃ sp1 lp1 f1, button_state_after (button_held_state sp lp p) flags (ts.map (at_tick true))
      = (button_held_state sp1 lp1 p, f1) := by
  induction ts generalizing sp lp flags with
  | nil => exact ⟨sp, lp, flags, rfl⟩
  | cons t rest ih =>
    rw [List.map_cons]
    unfold button_state_after
    rw [button_cycle_held]
    exact ih _ _ _

theorem pressed_count_other (m : Nat) (hs : m ≠ BUTTON_SHORT_PRESSED)
    (hl : m ≠ BUTTON_LONG_PRESSED) (sp lp : Bool) (p flags : Nat) (ts : List Nat) :
    set_count m
      (button_thread_cycles (button_held_state sp lp p) flags (ts.map (at_tick true))) = 0 := by
  induction ts generalizing sp lp flags with
  | nil => rfl
  | cons t rest ih =>
    rw [List.map_cons, button_cycles_cons, set_count_cons, button_cycle_held]
    simp only []
    rw [ih]
    have hn : m ∉ press_calls (!sp && decide (BUTTON_SHORT_PRESS_TIME < uint32_sub t p))
        (!lp && decide (BUTTON_LONG_PRESS_TIME < uint32_sub t p)) := by
      unfold press_calls
      intro hmem
      rcases List.mem_append.1 hmem with h | h
      · split at h
        · exact hs (List.mem_singleton.1 h)
        · cases h
      · split at h
        · exact hl (List.mem_singleton.1 h)
        · cases h
    rw [if_neg hn]

/-- C28, as stated, fails: a press held 2000 ticks (sampled every 25 ticks, press start 1025)
and then released is released 2025 ticks after the press start, before LONG_PRESS_TIME has
elapsed; it sets SHORT_PRESSED at tick 2050 and RELEASED at the stable released sample at tick
3050, and BUMPED in no cycle. -/
theorem bump_not_raised_after_short :
    flag_events (press_of 1000 2000)
        (button_thread_cycles button_released_state 0 (press_of 1000 2000))
      = [(2050, [BUTTON_SHORT_PRESSED]), (3050, [BUTTON_RELEASED])]
    ∧ uint32_sub 3050 1025 < BUTTON_LONG_PRESS_TIME
    ∧ set_count BUTTON_BUMPED
        (button_thread_cycles button_released_state 0 (press_of 1000 2000)) = 0 := by
  decide

/-- C28, amended: for a press (a run of stable pressed cycles from a state with no press
remembered and the latches clear, press start t0) followed by its release (a first released
sample, then the stable released sample at tick t), BUMPED is raised, once, if and only if
(t - t0) mod 2^32 is less than SHORT_PRESS_TIME = 1000, and RELEASED is raised once in either
case. A press held 500 ticks and then released raises BUMPED and RELEASED in the same cycle. -/
theorem bumped_iff_short_press (st : ButtonLocals) (pushbutton_flags t0 : Nat) (ts : List Nat)
    (env_u env_r : ButtonEnv)
    (h1 : st.last_state = true) (h2 : st.last_button = false)
    (h3 : st.short_press = false) (h4 : st.long_press = false)
    (hu : env_u.current_button_state = false) (hr : env_r.current_button_state = false) :
    set_count BUTTON_BUMPED
        (button_thread_cycles st pushbutton_flags
          ((t0 :: ts).map (at_tick true) ++ [env_u, env_r]))
      = (if uint32_sub env_r.tick_at_release t0 < 1000 then 1 else 0)
    ∧ set_count BUTTON_RELEASED
        (button_thread_cycles st pushbutton_flags
          ((t0 :: ts).map (at_tick true) ++ [env_u, env_r])) = 1
    ∧ flag_events (press_of 1000 500)
          (button_thread_cycles button_released_state 0 (press_of 1000 500))
        = [(1550, [BUTTON_BUMPED, BUTTON_RELEASED])] := by
  have hc := button_cycle_first_held st pushbutton_flags t0 h1 h2 h3 h4
  obtain ⟨sp1, lp1, f1, ha⟩ :=
    pressed_state_after false false (t0 % 2 ^ 32) pushbutton_flags ts
  have hafter : button_state_after st pushbutton_flags ((t0 :: ts).map (at_tick true))
      = (button_held_state sp1 lp1 (t0 % 2 ^ 32), f1) := by
    rw [List.map_cons]
    unfold button_state_after
    rw [hc]
    exact ha
  have hun : button_thread_cycle (button_held_state sp1 lp1 (t0 % 2 ^ 32)) f1 env_u
      = { locals := { button_held_state sp1 lp1 (t0 % 2 ^ 32) with last_state := false }
          pushbutton_flags := f1
          set_calls := [] } := by
    rw [button_cycle_unstable _ f1 env_u (by rw [hu]; exact Bool.false_ne_true), hu]
  have hrel := button_cycle_release
    { button_held_state sp1 lp1 (t0 % 2 ^ 32) with last_state := false } f1 env_r hr rfl rfl
  have htail : (button_thread_cycles (button_held_state sp1 lp1 (t0 % 2 ^ 32)) f1
      [env_u, env_r]).map (fun s => s.set_calls)
        = [[], (if uint32_sub env_r.tick_at_release t0 < 1000 then [BUTTON_BUMPED] else [])
            ++ [BUTTON_RELEASED]] := by
    rw [button_cycles_cons, button_cycles_cons, hun]
    simp only []
    rw [hrel]
    simp only [List.map_cons, List.map_nil, button_thread_cycles]
    rw [show ({ button_held_state sp1 lp1 (t0 % 2 ^ 32) with
      last_state := false } : ButtonLocals).push_time = t0 % 2 ^ 32 from rfl,
      uint32_sub_mod_right]
    rfl
  have hcount : ∀ m, set_count m (button_thread_cycles (button_held_state sp1 lp1
      (t0 % 2 ^ 32)) f1 [env_u, env_r])
        = ((button_thread_cycles (button_held_state sp1 lp1 (t0 % 2 ^ 32)) f1
            [env_u, env_r]).map (fun s => s.set_calls)).countP (fun c => decide (m ∈ c)) := by
    intro m
    unfold set_count
    rw [List.countP_map]
    rfl
  have hpress : ∀ m, m ≠ BUTTON_SHORT_PRESSED → m ≠ BUTTON_LONG_PRESSED →
      set_count m (button_thread_cycles st pushbutton_flags ((t0 :: ts).map (at_tick true)))
        = 0 := by
    intro m hs hl
    rw [List.map_cons, button_cycles_cons, set_count_cons, hc]
    simp only []
    rw [pressed_count_other m hs hl]
    simp
  refine ⟨?_, ?_, by decide⟩
  · rw [button_cycles_append, set_count_append, hafter,
      hpress BUTTON_BUMPED (by decide) (by decide), hcount, htail]
    by_cases hb : uint32_sub env_r.tick_at_release t0 < 1000
    · simp [hb]
    · simp [hb, BUTTON_BUMPED, BUTTON_RELEASED]
  · rw [button_cycles_append, set_count_append, hafter,
      hpress BUTTON_RELEASED (by decide) (by decide), hcount, htail]
    by_cases hb : uint32_sub env_r.tick_at_release t0 < 1000
    · simp [hb]
    · simp [hb]

theorem bumped_iff_short_press_witness :
    set_count BUTTON_BUMPED
        (button_thread_cycles
          { last_state := true, last_button := false, short_press := false,
            long_press := false, push_time := 0 } 0
          ((1025 :: [1050, 1075, 1500]).map (at_tick true)
            ++ [at_tick false 1525, at_tick false 1550]))
      = (if uint32_sub (at_tick false 1550).tick_at_release 1025 < 1000 then 1 else 0)
    ∧ (if uint32_sub (at_tick false 1550).tick_at_release 1025 < 1000 then 1 else 0) = 1 :=
  ⟨(bumped_iff_short_press
      { last_state := true, last_button := false, short_press := false,
        long_press := false, push_time := 0 } 0 1025 [1050, 1075, 1500]
      (at_tick false 1525) (at_tick false 1550) rfl rfl rfl rfl rfl rfl).1, by decide⟩

/-! ## Bargraph: the multiplexed drawer -/

theorem testBit_2AA (i : Nat) : (0x2AA : Nat).testBit i = decide (i < 10 ∧ i % 2 = 1) := by
  by_cases h : i < 10
  · interval_cases i <;> rfl
  · have h2 : (0x2AA : Nat) < 2 ^ i :=
      Nat.lt_of_lt_of_le (by decide : (0x2AA : Nat) < 2 ^ 10)
        (Nat.pow_le_pow_right (by decide) (Nat.le_of_not_lt h))
    rw [Nat.testBit_lt_two_pow h2]
    simp [h]

theorem testBit_155 (i : Nat) : (0x155 : Nat).testBit i = decide (i < 10 ∧ i % 2 = 0) := by
  by_cases h : i < 10
  · interval_cases i <;> rfl
  · have h2 : (0x155 : Nat) < 2 ^ i :=
      Nat.lt_of_lt_of_le (by decide : (0x155 : Nat) < 2 ^ 10)
        (Nat.pow_le_pow_right (by decide) (Nat.le_of_not_lt h))
    rw [Nat.testBit_lt_two_pow h2]
    simp [h]

theorem testBit_3FF (i : Nat) : (0x3FF : Nat).testBit i = decide (i < 10) := by
  have h : (0x3FF : Nat) = 2 ^ 10 - 1 := by decide
  rw [h, Nat.testBit_two_pow_sub_one]

theorem half_cycle_mask_succ (p : Bool) (i : Nat) :
    half_cycle_mask (!p) i = half_cycle_mask p (i + 1) := by
  unfold half_cycle_mask
  have h := Nat.mod_two_eq_zero_or_one i
  cases p <;> rcases h with h | h <;> simp [h, Nat.add_mod]

theorem draw_cycle_no_update (st : DrawLocals) (q : MsgQueue Nat) (hq : q.msgs = []) :
    draw_bargraph_cycle st q
      = ({ draw_buffer := st.draw_buffer, polarity := !st.polarity }, q,
          st.draw_buffer &&& half_cycle_mask st.polarity 0) := by
  unfold draw_bargraph_cycle draw_bargraph_read osMessageQueueGetCount half_cycle_mask
  cases hp : st.polarity <;> simp [hq]

theorem draw_cycle_update (st : DrawLocals) (q : MsgQueue Nat) (b : Nat)
    (hc : 0 < q.capacity) :
    draw_bargraph_cycle st (Q_UPDATE q b).1
      = ({ draw_buffer := b, polarity := !st.polarity }, { q with msgs := [] },
          b &&& half_cycle_mask st.polarity 0) := by
  unfold draw_bargraph_cycle draw_bargraph_read osMessageQueueGetCount osMessageQueueGet
    Q_UPDATE osMessageQueuePut osMessageQueueReset half_cycle_mask
  cases hp : st.polarity <;> simp [hc]

theorem draw_cycles_no_update (st : DrawLocals) (q : MsgQueue Nat) (hq : q.msgs = [])
    (n : Nat) :
    draw_bargraph_cycles st q (List.replicate n none)
      = (List.range n).map (fun i => st.draw_buffer &&& half_cycle_mask st.polarity i) := by
  induction n generalizing st with
  | zero => rfl
  | succ n ih =>
    rw [List.replicate_succ, List.range_succ_eq_map, List.map_cons, List.map_map]
    unfold draw_bargraph_cycles
    simp only []
    rw [draw_cycle_no_update st q hq]
    simp only []
    rw [ih]
    congr 1
    apply List.map_congr_left
    intro i _
    simp only [Function.comp]
    rw [half_cycle_mask_succ]

theorem bargraph_output_eq (states : Nat) (i : Fin 10) :
    bargraph_output states i = states.testBit i.val := by
  unfold bargraph_output
  cases h : states.testBit i.val
  · rw [decide_eq_false_iff_not, not_not]
    exact (and_bit_eq_zero_iff states i.val).2 h
  · rw [decide_eq_true_iff]
    exact (and_bit_ne_zero_iff states i.val).2 h

/-- C30: after the drawer's first resume, with the display buffer b written by the animator
before the first cycle and no update after it, the outputs of consecutive cycles are b & 0x2AA,
b & 0x155, b & 0x2AA, ... in strict alternation; from any drawer state the outputs alternate in
the same way, starting with the mask the polarity selects, and without an update the drawer
keeps using the buffer it holds. The two outputs share no set bit, neither has two adjacent
bits set, their bitwise OR is b & 0x3FF, and each LED i < 10 whose bit is set in b is driven in
exactly one of the two half-cycles (an LED whose bit is clear in neither). -/
theorem drawer_alternates (b n : Nat) (st : DrawLocals) (q : MsgQueue Nat) :
    draw_bargraph_cycles draw_bargraph_entry (osMessageQueueNew Nat 1)
        (some b :: List.replicate n none)
      = (List.range (n + 1)).map (fun i => if i % 2 = 0 then b &&& 0x2AA else b &&& 0x155)
    ∧ (0 < q.capacity →
        draw_bargraph_cycles st q (some b :: List.replicate n none)
          = (List.range (n + 1)).map (fun i => b &&& half_cycle_mask st.polarity i))
    ∧ (q.msgs = [] →
        draw_bargraph_cycles st q (List.replicate n none)
          = (List.range n).map (fun i => st.draw_buffer &&& half_cycle_mask st.polarity i))
    ∧ (b &&& 0x2AA) &&& (b &&& 0x155) = 0
    ∧ (b &&& 0x2AA) ||| (b &&& 0x155) = b &&& 0x3FF
    ∧ (∀ i, ¬ ((b &&& 0x2AA).testBit i = true ∧ (b &&& 0x2AA).testBit (i + 1) = true))
    ∧ (∀ i, ¬ ((b &&& 0x155).testBit i = true ∧ (b &&& 0x155).testBit (i + 1) = true))
    ∧ (∀ i : Fin 10, b.testBit i.val = true →
        (bargraph_output (b &&& 0x2AA) i = true ∧ bargraph_output (b &&& 0x155) i = false)
        ∨ (bargraph_output (b &&& 0x2AA) i = false ∧ bargraph_output (b &&& 0x155) i = true))
    ∧ (∀ i : Fin 10, b.testBit i.val = false →
        bargraph_output (b &&& 0x2AA) i = false ∧ bargraph_output (b &&& 0x155) i = false) := by
  have hgen : ∀ (st : DrawLocals) (q : MsgQueue Nat), 0 < q.capacity →
      draw_bargraph_cycles st q (some b :: List.replicate n none)
        = (List.range (n + 1)).map (fun i => b &&& half_cycle_mask st.polarity i) := by
    intro st q hc
    rw [List.range_succ_eq_map, List.map_cons, List.map_map]
    unfold draw_bargraph_cycles
    simp only []
    rw [draw_cycle_update st q b hc]
    simp only []
    rw [draw_cycles_no_update _ _ rfl]
    congr 1
    apply List.map_congr_left
    intro i _
    simp only [Function.comp]
    rw [half_cycle_mask_succ]
  refine ⟨?_, hgen st q, fun hq => draw_cycles_no_update st q hq n, ?_, ?_, ?_, ?_, ?_, ?_⟩
  · rw [hgen draw_bargraph_entry (osMessageQueueNew Nat 1) (by decide)]
    apply List.map_congr_left
    intro i _
    unfold half_cycle_mask draw_bargraph_entry
    by_cases h : i % 2 = 0 <;> simp [h]
  · apply Nat.eq_of_testBit_eq
    intro i
    simp only [Nat.testBit_and, testBit_2AA, testBit_155, Nat.zero_testBit]
    cases b.testBit i <;> simp
    omega
  · apply Nat.eq_of_testBit_eq
    intro i
    simp only [Nat.testBit_and, Nat.testBit_or, testBit_2AA, testBit_155, testBit_3FF]
    by_cases h10 : i < 10 <;> cases b.testBit i <;> simp [h10]
    omega
  · intro i
    simp only [Nat.testBit_and, testBit_2AA, Bool.and_eq_true, decide_eq_true_eq]
    omega
  · intro i
    simp only [Nat.testBit_and, testBit_155, Bool.and_eq_true, decide_eq_true_eq]
    omega
  · intro i hb
    rw [bargraph_output_eq, bargraph_output_eq, Nat.testBit_and, Nat.testBit_and, hb,
      testBit_2AA, testBit_155]
    have hi := i.isLt
    rcases Nat.mod_two_eq_zero_or_one i.val with h | h
    · right; simp [h, hi]
    · left; simp [h, hi]
  · intro i hb
    rw [bargraph_output_eq, bargraph_output_eq, Nat.testBit_and, Nat.testBit_and, hb]
    simp

theorem drawer_alternates_witness :
    draw_bargraph_cycles { draw_buffer := 0x3E0, polarity := true } (osMessageQueueNew Nat 1)
        (List.replicate 4 none)
      = (List.range 4).map (fun i => 0x3E0 &&& half_cycle_mask true i)
    ∧ (List.range 4).map (fun i => 0x3E0 &&& half_cycle_mask true i)
      = [0x140, 0x2A0, 0x140, 0x2A0] :=
  ⟨(drawer_alternates 0 4 { draw_buffer := 0x3E0, polarity := true }
      (osMessageQueueNew Nat 1)).2.2.1 rfl, by decide⟩

/-! ## Bargraph: requesting an animation -/

theorem bargraph_draw_soc_eq (sh : BargraphShared) :
    bargraph_draw_soc sh
      = if sh.animator_run_flags.testBit 0 = true then
          { sh with animator_run_flags := osEventFlagsSet sh.animator_run_flags RUN_ANIMATION }
        else sh := by
  unfold bargraph_draw_soc osEventFlagsGet ANIMATOR_READY
  simp only [and_bit_ne_zero_iff]

theorem animate_bargraph_wake_bits (flags arrived f : Nat)
    (h : animate_bargraph_wake flags arrived = some f) :
    f.testBit 0 = false ∧ f.testBit 1 = false := by
  unfold animate_bargraph_wake at h
  simp only [] at h
  rw [show RUN_ANIMATION = 1 <<< 1 from rfl, osEventFlagsWait_bit] at h
  split at h
  · simp only [] at h
    rw [if_neg (by decide)] at h
    have e := Option.some.inj h
    rw [← e, show ANIMATOR_READY = 1 <<< 0 from rfl]
    constructor
    · rw [testBit_clear_bit _ _ _ (by decide)]
      simp
    · rw [testBit_clear_bit _ _ _ (by decide), testBit_clear_bit _ _ _ (by decide)]
      simp
  · simp at h

/-- C31: `bargraph_draw_soc` sets RUN_ANIMATION if and only if ANIMATOR_READY is set when it is
called: afterwards RUN_ANIMATION is set iff it was set before or ANIMATOR_READY was set. When
ANIMATOR_READY is clear the call leaves the flag word and the draw-buffer mailbox exactly as
they are (the request is dropped); when it is set the call is the one flag write
`osEventFlagsSet(animator_run_flags, RUN_ANIMATION)`: the mailbox and every flag bit other than
RUN_ANIMATION are unchanged. After the animator has woken for an animation ANIMATOR_READY and
RUN_ANIMATION are both clear, so a call made while the animation runs changes nothing. -/
theorem draw_soc_only_when_ready (sh : BargraphShared) (arrived : Nat) :
    (bargraph_draw_soc sh).animator_run_flags.testBit 1
        = (sh.animator_run_flags.testBit 1 || sh.animator_run_flags.testBit 0)
    ∧ (sh.animator_run_flags.testBit 0 = false → bargraph_draw_soc sh = sh)
    ∧ (sh.animator_run_flags.testBit 0 = true →
        (bargraph_draw_soc sh).drawbuf_queue = sh.drawbuf_queue
        ∧ (bargraph_draw_soc sh).animator_run_flags
            = osEventFlagsSet sh.animator_run_flags RUN_ANIMATION
        ∧ ∀ k, k ≠ 1 →
            (bargraph_draw_soc sh).animator_run_flags.testBit k
              = sh.animator_run_flags.testBit k)
    ∧ (∀ f, animate_bargraph_wake sh.animator_run_flags arrived = some f →
        f.testBit 0 = false ∧ f.testBit 1 = false
        ∧ bargraph_draw_soc { sh with animator_run_flags := f }
            = { sh with animator_run_flags := f }) := by
  have t21 : Nat.testBit 2 1 = true := by decide
  have hrun : ∀ k, k ≠ 1 → RUN_ANIMATION.testBit k = false := by
    intro k hk
    rw [show RUN_ANIMATION = 2 ^ 1 from rfl, Nat.testBit_two_pow]
    simp
    omega
  rw [bargraph_draw_soc_eq]
  refine ⟨?_, ?_, ?_, ?_⟩
  · by_cases h0 : sh.animator_run_flags.testBit 0 = true
    · rw [if_pos h0, h0]
      show (osEventFlagsSet sh.animator_run_flags RUN_ANIMATION).testBit 1 = _
      rw [testBit_osEventFlagsSet]
      simp [RUN_ANIMATION, t21]
    · rw [if_neg h0]
      have h0f : sh.animator_run_flags.testBit 0 = false := by simpa using h0
      rw [h0f]
      simp
  · intro h0
    rw [if_neg (by rw [h0]; decide)]
  · intro h0
    rw [if_pos h0]
    refine ⟨rfl, rfl, ?_⟩
    intro k hk
    show (osEventFlagsSet sh.animator_run_flags RUN_ANIMATION).testBit k = _
    rw [testBit_osEventFlagsSet, hrun k hk]
    simp
  · intro f hf
    obtain ⟨h0, h1⟩ := animate_bargraph_wake_bits _ _ _ hf
    refine ⟨h0, h1, ?_⟩
    rw [bargraph_draw_soc_eq]
    exact if_neg (by rw [show ({ sh with animator_run_flags := f } :
      BargraphShared).animator_run_flags = f from rfl, h0]; decide)

theorem draw_soc_only_when_ready_witness :
    bargraph_draw_soc { animator_run_flags := 0, drawbuf_queue := osMessageQueueNew Nat 1 }
      = { animator_run_flags := 0, drawbuf_queue := osMessageQueueNew Nat 1 }
    ∧ (bargraph_draw_soc { animator_run_flags := 1, drawbuf_queue := osMessageQueueNew Nat 1 })
        = { animator_run_flags := 3, drawbuf_queue := osMessageQueueNew Nat 1 }
    ∧ animate_bargraph_wake 3 0 = some 0 :=
  ⟨(draw_soc_only_when_ready
      { animator_run_flags := 0, drawbuf_queue := osMessageQueueNew Nat 1 } 0).2.1 rfl,
   by decide, by decide⟩

/-! ## Flag accessors: the contract of the seven accessors -/

theorem latch_accessor_generic (acc : Nat → Bool → Bool × Nat) (k : Nat) (hk : k < 32)
    (he : ∀ f c, acc f c
      = (f.testBit k, if f.testBit k && c then osEventFlagsClear f (1 <<< k) else f))
    (flags : Nat) (clear_flag : Bool) :
    (acc flags clear_flag).1 = flags.testBit k
    ∧ (clear_flag = true → flags.testBit k = true →
        ∀ j, j < 32 →
          (acc flags clear_flag).2.testBit j = (flags.testBit j && decide (j ≠ k)))
    ∧ (¬ (clear_flag = true ∧ flags.testBit k = true) → (acc flags clear_flag).2 = flags)
    ∧ ¬ ((acc flags true).1 = true ∧ (acc (acc flags true).2 true).1 = true) := by
  refine ⟨by rw [he], ?_, ?_, ?_⟩
  · intro hc hb j hj
    rw [he, hc, hb]
    exact testBit_clear_other flags k j hj
  · intro hn
    rw [he]
    cases hc : clear_flag <;> cases hb : flags.testBit k <;> simp_all
  · rintro ⟨h1, h2⟩
    rw [he] at h1
    rw [he, he] at h2
    simp only [] at h1 h2
    rw [h1] at h2
    simp only [Bool.and_self, if_true] at h2
    rw [testBit_clear_other flags k k hk] at h2
    simp at h2

/-- C32: for each of the seven latch accessors, with k its own flag bit, and for every flag
word: the result is true iff bit k is set; when `clear_flag` is true and bit k is set, bit k is
cleared and every other bit of the 32-bit flag word is unchanged; in every other case the flag
word is unchanged. Hence of two consecutive calls with `clear_flag` true, with nothing set in
between, at most one returns true. -/
theorem latch_accessor_contract (acc : Nat → Bool → Bool × Nat) (k : Nat)
    (h : (acc, k) ∈ latch_accessors) (flags : Nat) (clear_flag : Bool) :
    (acc flags clear_flag).1 = flags.testBit k
    ∧ (clear_flag = true → flags.testBit k = true →
        ∀ j, j < 32 →
          (acc flags clear_flag).2.testBit j = (flags.testBit j && decide (j ≠ k)))
    ∧ (¬ (clear_flag = true ∧ flags.testBit k = true) → (acc flags clear_flag).2 = flags)
    ∧ ¬ ((acc flags true).1 = true ∧ (acc (acc flags true).2 true).1 = true) := by
  simp only [latch_accessors, List.mem_cons, Prod.mk.injEq, List.mem_singleton,
    List.mem_nil_iff, or_false] at h
  rcases h with ⟨ha, hk⟩ | ⟨ha, hk⟩ | ⟨ha, hk⟩ | ⟨ha, hk⟩ | ⟨ha, hk⟩ | ⟨ha, hk⟩ | ⟨ha, hk⟩ <;>
    subst ha <;> subst hk
  · exact latch_accessor_generic _ 2 (by decide) (fun f c => accessor_core f 2 c) flags clear_flag
  · exact latch_accessor_generic _ 3 (by decide) (fun f c => accessor_core f 3 c) flags clear_flag
  · exact latch_accessor_generic _ 4 (by decide) (fun f c => accessor_core f 4 c) flags clear_flag
  · exact latch_accessor_generic _ 0 (by decide) (fun f c => accessor_core f 0 c) flags clear_flag
  · exact latch_accessor_generic _ 1 (by decide) (fun f c => accessor_core f 1 c) flags clear_flag
  · exact latch_accessor_generic _ 2 (by decide) (fun f c => accessor_core f 2 c) flags clear_flag
  · exact latch_accessor_generic _ 3 (by decide) (fun f c => accessor_core f 3 c) flags clear_flag

theorem latch_accessor_contract_witness :
    (pushbutton_bumped 0x0B true).1 = (0x0B : Nat).testBit 1
    ∧ (pushbutton_bumped 0x0B true).2 = 0x09
    ∧ (pushbutton_bumped (pushbutton_bumped 0x0B true).2 true).1 = false :=
  ⟨(latch_accessor_contract pushbutton_bumped 1 (by simp [latch_accessors]) 0x0B true).1,
   by decide, by decide⟩

/-! ## Bargraph: the display buffer has ten bits -/

theorem frames_below_1024 :
    ∀ L, L < 20 → ∀ f ∈ animate_bargraph_frames L, f.1 < 2 ^ 10 := by
  decide

theorem animate_bargraph_pass_frames (soc_queue : MsgQueue ℚ) (soc : ℚ) :
    (animate_bargraph_pass soc_queue soc).2.2
      = (0, 0) :: animate_bargraph_frames
          (animate_bargraph_scaled_soc (animate_bargraph_read soc_queue soc).2) := rfl

/-- C33: for every SOC queue and every SOC held by the animator, every display-buffer value
written during one animation (the blank frame included) is less than 2^10, so only the pins of
LEDs 0..9 are driven; and when the SOC used for the animation is at least 0.96, values of 1 and
above included, the level is 19, the last frame written is 0x3FF held for 4000 ticks, and
0x3FF lights all ten LEDs. -/
theorem display_buffer_ten_bits (soc_queue : MsgQueue ℚ) (soc : ℚ) :
    (∀ f ∈ (animate_bargraph_pass soc_queue soc).2.2, f.1 < 2 ^ 10)
    ∧ (96 / 100 ≤ (animate_bargraph_read soc_queue soc).2 →
        animate_bargraph_scaled_soc (animate_bargraph_read soc_queue soc).2 = 19
        ∧ (animate_bargraph_pass soc_queue soc).2.2.getLast?
            = some (0x3FF, FLASH_DELAY * FLASH_COUNT * 2)
        ∧ (animate_bargraph_pass soc_queue soc).2.2
            = [(0, 0), (1, 50), (3, 50), (7, 50), (15, 50), (31, 50), (63, 50), (127, 50),
                (255, 50), (511, 50), (1023, 4000)])
    ∧ (∀ i : Fin 10, bargraph_output 0x3FF i = true) := by
  rw [animate_bargraph_pass_frames]
  refine ⟨?_, ?_, by decide⟩
  · intro f hf
    rcases List.mem_cons.1 hf with e | hmem
    · rw [e]; decide
    · exact frames_below_1024 _
        (Nat.lt_succ_of_le (scaled_soc_le (animate_bargraph_read soc_queue soc).2)) f hmem
  · intro hs
    have h19 := scaled_soc_full _ hs
    rw [h19]
    exact ⟨rfl, by decide, by decide⟩

theorem display_buffer_ten_bits_witness :
    animate_bargraph_scaled_soc
        (animate_bargraph_read { capacity := 1, msgs := [3 / 2] } 0).2 = 19
    ∧ (animate_bargraph_pass { capacity := 1, msgs := [3 / 2] } 0).2.2.getLast?
        = some (0x3FF, FLASH_DELAY * FLASH_COUNT * 2) :=
  ⟨((display_buffer_ten_bits { capacity := 1, msgs := [3 / 2] } 0).2.1
      (by simp [animate_bargraph_read, osMessageQueueGetCount, osMessageQueueGet]; norm_num)).1,
   ((display_buffer_ten_bits { capacity := 1, msgs := [3 / 2] } 0).2.1
      (by simp [animate_bargraph_read, osMessageQueueGetCount, osMessageQueueGet]; norm_num)).2.1⟩

/-! ## LED task: the fade loop -/

theorem fade_step_wave (st : FadeState) (n : Nat) (hc : st.ccr1 = fade_wave n)
    (hup : 1 ≤ n % 82 → n % 82 ≤ 40 → st.count_amount = 25)
    (hdown : 42 ≤ n % 82 → st.count_amount = -25) :
    (do_led_fade_step st).ccr1 = fade_wave (n + 1)
    ∧ (1 ≤ (n + 1) % 82 → (n + 1) % 82 ≤ 40 → (do_led_fade_step st).count_amount = 25)
    ∧ (42 ≤ (n + 1) % 82 → (do_led_fade_step st).count_amount = -25) := by
  unfold do_led_fade_step
  simp only [COUNT_STEP]
  unfold fade_wave at hc ⊢
  have hm : n % 82 < 82 := Nat.mod_lt _ (by decide)
  by_cases h0 : n % 82 = 0
  · have e : st.ccr1 = 0 := by rw [hc]; simp [h0]
    have h1 : (n + 1) % 82 = 1 := by omega
    rw [e, h1]
    simp
  · by_cases h40 : n % 82 ≤ 40
    · have hu := hup (by omega) h40
      have e : st.ccr1 = 25 * (n % 82) := by rw [hc, if_pos (by omega)]
      have h1 : (n + 1) % 82 = n % 82 + 1 := by omega
      rw [h1, e, hu]
      have g1 : ¬ 25 * (n % 82) > 1000 := by omega
      have g2 : ¬ 25 * (n % 82) < 25 := by omega
      rw [if_neg g1, if_neg g2, if_pos (by omega)]
      refine ⟨by omega, fun _ _ => rfl, fun h => by omega⟩
    · by_cases h41 : n % 82 = 41
      · have e : st.ccr1 = 1025 := by rw [hc, if_pos (by omega), h41]
        have h1 : (n + 1) % 82 = 42 := by omega
        rw [h1, e]
        simp
      · have hd := hdown (by omega)
        have e : st.ccr1 = 25 * (82 - n % 82) := by rw [hc, if_neg (by omega)]
        have g1 : ¬ 25 * (82 - n % 82) > 1000 := by omega
        have g2 : ¬ 25 * (82 - n % 82) < 25 := by omega
        rw [e, hd, if_neg g1, if_neg g2]
        by_cases h81 : n % 82 = 81
        · have h1 : (n + 1) % 82 = 0 := by omega
          rw [h1, h81]
          simp
        · have h1 : (n + 1) % 82 = n % 82 + 1 := by omega
          rw [h1, if_neg (by omega)]
          refine ⟨by omega, fun _ h => by omega, fun _ => rfl⟩

theorem fade_steps_cons (f : Nat) (rest : List Nat) :
    fade_steps (f :: rest) = if f = 0 then fade_steps rest + 1 else 1 := by
  unfold fade_steps
  by_cases h : f = 0
  · simp [h, List.takeWhile]
    omega
  · simp [h, List.takeWhile]

theorem fade_loop_wave (obs : List Nat) (st : FadeState) (n : Nat)
    (hc : st.ccr1 = fade_wave n)
    (hup : 1 ≤ n % 82 → n % 82 ≤ 40 → st.count_amount = 25)
    (hdown : 42 ≤ n % 82 → st.count_amount = -25) :
    (do_led_fade_loop st obs).1
        = (List.range (fade_steps obs)).map (fun i => fade_wave (n + i + 1))
    ∧ ((do_led_fade_loop st obs).2 = true ↔ ∃ f ∈ obs, f ≠ 0) := by
  induction obs generalizing st n with
  | nil => exact ⟨rfl, by simp [do_led_fade_loop]⟩
  | cons f rest ih =>
    obtain ⟨s1, s2, s3⟩ := fade_step_wave st n hc hup hdown
    unfold do_led_fade_loop
    rw [fade_steps_cons]
    by_cases h : f = 0
    · have hg : ¬ osEventFlagsGet f ≠ 0 := by simp [osEventFlagsGet, h]
      simp only []
      rw [if_neg hg, if_pos h]
      obtain ⟨i1, i2⟩ := ih (do_led_fade_step st) (n + 1) s1 s2 s3
      constructor
      · simp only []
        rw [i1, s1, List.range_succ_eq_map, List.map_cons, List.map_map]
        congr 1
        apply List.map_congr_left
        intro i _
        simp only [Function.comp]
        congr 1
        omega
      · simp only []
        rw [i2]
        simp [h]
    · have hg : osEventFlagsGet f ≠ 0 := by simpa [osEventFlagsGet] using h
      simp only []
      rw [if_pos hg, if_neg h]
      constructor
      · simp only []
        rw [s1]
        rfl
      · simp [h]

theorem fade_wave_facts (n : Nat) :
    fade_wave n ≤ 1025 ∧ 25 ∣ fade_wave n
    ∧ (n % 82 = 0 → fade_wave n = 0)
    ∧ (n % 82 ≤ 40 → fade_wave n ≤ 1000 ∧ fade_wave (n + 1) = fade_wave n + 25)
    ∧ (n % 82 = 41 → fade_wave n = 1025)
    ∧ (41 ≤ n % 82 → 25 ≤ fade_wave n ∧ fade_wave (n + 1) + 25 = fade_wave n) := by
  have hm : n % 82 < 82 := Nat.mod_lt _ (by decide)
  unfold fade_wave
  refine ⟨?_, ?_, ?_, ?_, ?_, ?_⟩
  · split <;> omega
  · split
    · exact Dvd.intro _ rfl
    · exact Dvd.intro _ rfl
  · intro h
    rw [h]
    rfl
  · intro h
    have h1 : (n + 1) % 82 = n % 82 + 1 := by omega
    rw [h1, if_pos (by omega), if_pos (by omega)]
    omega
  · intro h
    rw [h]
    rfl
  · intro h
    by_cases h41 : n % 82 = 41
    · have h1 : (n + 1) % 82 = 42 := by omega
      rw [h1, h41]
      simp
    · by_cases h81 : n % 82 = 81
      · have h1 : (n + 1) % 82 = 0 := by omega
        rw [h1, h81]
        simp
      · have h1 : (n + 1) % 82 = n % 82 + 1 := by omega
        rw [h1, if_neg (show ¬ n % 82 ≤ 41 by omega),
          if_neg (show ¬ n % 82 + 1 ≤ 41 by omega)]
        constructor <;> omega

/-- C34: the fade loop starts from compare value 0, whatever the uninitialised `count_amount`
holds. The compare value after its n-th step is the triangle wave: it is a multiple of 25, at
most 1025 (so the 32-bit addition never wraps below 0), it rises by 25 per step while it is at
most 1000, reaching 1025 after 41 steps, then falls by 25 per step down to 0 after 82 steps,
and repeats. With `flags_read` the flag words read after the successive steps, the loop performs
one step more than the number of leading zero words (at least one step), and it has exited iff
a non-zero word was read. -/
theorem fade_triangle (count_amount : Int) (flags_read : List Nat) :
    (do_led_fade count_amount flags_read).1
        = (List.range (fade_steps flags_read)).map (fun i => fade_wave (i + 1))
    ∧ (∀ v ∈ (do_led_fade count_amount flags_read).1, 25 ∣ v ∧ v ≤ 1025)
    ∧ (flags_read ≠ [] → 1 ≤ (do_led_fade count_amount flags_read).1.length)
    ∧ ((do_led_fade count_amount flags_read).2 = true ↔ ∃ f ∈ flags_read, f ≠ 0)
    ∧ (∀ zeros f rest, (∀ z ∈ zeros, z = 0) → f ≠ 0 → flags_read = zeros ++ f :: rest →
        (do_led_fade count_amount flags_read).1.length = zeros.length + 1
        ∧ (do_led_fade count_amount flags_read).2 = true)
    ∧ (∀ n, fade_wave n ≤ 1025 ∧ 25 ∣ fade_wave n
        ∧ (n % 82 = 0 → fade_wave n = 0)
        ∧ (n % 82 ≤ 40 → fade_wave n ≤ 1000 ∧ fade_wave (n + 1) = fade_wave n + 25)
        ∧ (n % 82 = 41 → fade_wave n = 1025)
        ∧ (41 ≤ n % 82 → 25 ≤ fade_wave n ∧ fade_wave (n + 1) + 25 = fade_wave n)) := by
  have hl := fade_loop_wave flags_read (do_led_fade_entry count_amount) 0 rfl
    (fun h => absurd h (by decide)) (fun h => absurd h (by decide))
  have h1 : (do_led_fade count_amount flags_read).1
      = (List.range (fade_steps flags_read)).map (fun i => fade_wave (i + 1)) := by
    unfold do_led_fade
    rw [hl.1]
    apply List.map_congr_left
    intro i _
    simp
  refine ⟨h1, ?_, ?_, hl.2, ?_, fade_wave_facts⟩
  · intro v hv
    rw [h1] at hv
    obtain ⟨i, -, e⟩ := List.mem_map.1 hv
    rw [← e]
    exact ⟨(fade_wave_facts (i + 1)).2.1, (fade_wave_facts (i + 1)).1⟩
  · intro hne
    rw [h1, List.length_map, List.length_range]
    cases flags_read with
    | nil => exact absurd rfl hne
    | cons f rest =>
      rw [fade_steps_cons]
      split <;> omega
  · intro zeros f rest hz hf he
    refine ⟨?_, hl.2.2 ⟨f, by rw [he]; simp, hf⟩⟩
    rw [h1, List.length_map, List.length_range, he]
    clear he h1 hl
    induction zeros with
    | nil => rw [List.nil_append, fade_steps_cons, if_neg hf]; rfl
    | cons z zs ih =>
      rw [List.cons_append, fade_steps_cons, if_pos (hz z (List.mem_cons_self _ _)),
        ih (fun y hy => hz y (List.mem_cons_of_mem _ hy)), List.length_cons]

theorem fade_triangle_witness :
    (do_led_fade 7 [0, 0, 0, 2, 0]).1.length = [0, 0, 0].length + 1
    ∧ (do_led_fade 7 [0, 0, 0, 2, 0]).2 = true
    ∧ (do_led_fade 7 [0, 0, 0, 2, 0]).1 = [25, 50, 75, 100] :=
  ⟨((fade_triangle 7 [0, 0, 0, 2, 0]).2.2.2.2.1 [0, 0, 0] 2 [0]
      (by decide) (by decide) rfl).1,
   ((fade_triangle 7 [0, 0, 0, 2, 0]).2.2.2.2.1 [0, 0, 0] 2 [0]
      (by decide) (by decide) rfl).2, by decide⟩

/-! ## Button classifier: consistency of the flags of one press -/

theorem uint32_sub_of_le (a b : Nat) (h : b ≤ a) (hd : a - b < 2 ^ 32) :
    uint32_sub a b = a - b := by
  unfold uint32_sub
  omega

theorem press_release_counts (st : ButtonLocals) (flags t0 : Nat) (ts : List Nat)
    (env_u env_r : ButtonEnv)
    (h1 : st.last_state = true) (h2 : st.last_button = false)
    (h3 : st.short_press = false) (h4 : st.long_press = false)
    (hu : env_u.current_button_state = false) (hr : env_r.current_button_state = false) :
    set_count BUTTON_SHORT_PRESSED
        (button_thread_cycles st flags ((t0 :: ts).map (at_tick true) ++ [env_u, env_r]))
      = (if ∃ t ∈ t0 :: ts, 1000 < uint32_sub t t0 then 1 else 0)
    ∧ set_count BUTTON_LONG_PRESSED
        (button_thread_cycles st flags ((t0 :: ts).map (at_tick true) ++ [env_u, env_r]))
      = (if ∃ t ∈ t0 :: ts, 3000 < uint32_sub t t0 then 1 else 0)
    ∧ set_count BUTTON_BUMPED
        (button_thread_cycles st flags ((t0 :: ts).map (at_tick true) ++ [env_u, env_r]))
      = (if uint32_sub env_r.tick_at_release t0 < 1000 then 1 else 0)
    ∧ set_count BUTTON_RELEASED
        (button_thread_cycles st flags ((t0 :: ts).map (at_tick true) ++ [env_u, env_r]))
      = 1 := by
  have hc := button_cycle_first_held st flags t0 h1 h2 h3 h4
  have hm : ∀ a, uint32_sub a (t0 % 4294967296) = uint32_sub a t0 :=
    fun a => uint32_sub_mod_right a t0
  obtain ⟨sp1, lp1, f1, ha⟩ := pressed_state_after false false (t0 % 2 ^ 32) flags ts
  have hafter : button_state_after st flags ((t0 :: ts).map (at_tick true))
      = (button_held_state sp1 lp1 (t0 % 2 ^ 32), f1) := by
    rw [List.map_cons]
    unfold button_state_after
    rw [hc]
    exact ha
  have hun : button_thread_cycle (button_held_state sp1 lp1 (t0 % 2 ^ 32)) f1 env_u
      = { locals := { button_held_state sp1 lp1 (t0 % 2 ^ 32) with last_state := false }
          pushbutton_flags := f1
          set_calls := [] } := by
    rw [button_cycle_unstable _ f1 env_u (by rw [hu]; exact Bool.false_ne_true), hu]
  have hrel := button_cycle_release
    { button_held_state sp1 lp1 (t0 % 2 ^ 32) with last_state := false } f1 env_r hr rfl rfl
  have htail : (button_thread_cycles (button_held_state sp1 lp1 (t0 % 2 ^ 32)) f1
      [env_u, env_r]).map (fun s => s.set_calls)
        = [[], (if uint32_sub env_r.tick_at_release t0 < 1000 then [BUTTON_BUMPED] else [])
            ++ [BUTTON_RELEASED]] := by
    rw [button_cycles_cons, button_cycles_cons, hun]
    simp only []
    rw [hrel]
    simp only [List.map_cons, List.map_nil, button_thread_cycles]
    rw [show ({ button_held_state sp1 lp1 (t0 % 2 ^ 32) with
      last_state := false } : ButtonLocals).push_time = t0 % 2 ^ 32 from rfl,
      uint32_sub_mod_right]
    rfl
  have hcount : ∀ m, set_count m (button_thread_cycles (button_held_state sp1 lp1
      (t0 % 2 ^ 32)) f1 [env_u, env_r])
        = ((button_thread_cycles (button_held_state sp1 lp1 (t0 % 2 ^ 32)) f1
            [env_u, env_r]).map (fun s => s.set_calls)).countP (fun c => decide (m ∈ c)) := by
    intro m
    unfold set_count
    rw [List.countP_map]
    rfl
  have hpress : ∀ m, m ≠ BUTTON_SHORT_PRESSED → m ≠ BUTTON_LONG_PRESSED →
      set_count m (button_thread_cycles st flags ((t0 :: ts).map (at_tick true))) = 0 := by
    intro m hs hl
    rw [List.map_cons, button_cycles_cons, set_count_cons, hc]
    simp only []
    rw [pressed_count_other m hs hl]
    simp
  have hshort : set_count BUTTON_SHORT_PRESSED
      (button_thread_cycles st flags ((t0 :: ts).map (at_tick true)))
        = (if ∃ t ∈ t0 :: ts, 1000 < uint32_sub t t0 then 1 else 0) := by
    rw [List.map_cons, button_cycles_cons, set_count_cons, hc]
    simp only []
    rw [pressed_count_short]
    simp [uint32_sub_self, hm, BUTTON_SHORT_PRESS_TIME]
  have hlong : set_count BUTTON_LONG_PRESSED
      (button_thread_cycles st flags ((t0 :: ts).map (at_tick true)))
        = (if ∃ t ∈ t0 :: ts, 3000 < uint32_sub t t0 then 1 else 0) := by
    rw [List.map_cons, button_cycles_cons, set_count_cons, hc]
    simp only []
    rw [pressed_count_long]
    simp [uint32_sub_self, hm, BUTTON_LONG_PRESS_TIME]
  refine ⟨?_, ?_, ?_, ?_⟩
  · rw [button_cycles_append, set_count_append, hafter, hshort, hcount, htail]
    by_cases hb : uint32_sub env_r.tick_at_release t0 < 1000
    · simp [hb, BUTTON_SHORT_PRESSED, BUTTON_BUMPED, BUTTON_RELEASED]
    · simp [hb, BUTTON_SHORT_PRESSED, BUTTON_RELEASED]
  · rw [button_cycles_append, set_count_append, hafter, hlong, hcount, htail]
    by_cases hb : uint32_sub env_r.tick_at_release t0 < 1000
    · simp [hb, BUTTON_LONG_PRESSED, BUTTON_BUMPED, BUTTON_RELEASED]
    · simp [hb, BUTTON_LONG_PRESSED, BUTTON_RELEASED]
  · rw [button_cycles_append, set_count_append, hafter,
      hpress BUTTON_BUMPED (by decide) (by decide), hcount, htail]
    by_cases hb : uint32_sub env_r.tick_at_release t0 < 1000
    · simp [hb]
    · simp [hb, BUTTON_BUMPED, BUTTON_RELEASED]
  · rw [button_cycles_append, set_count_append, hafter,
      hpress BUTTON_RELEASED (by decide) (by decide), hcount, htail]
    by_cases hb : uint32_sub env_r.tick_at_release t0 < 1000
    · simp [hb]
    · simp [hb]

theorem long_implies_short_cycle (st : ButtonLocals) (flags : Nat) (level : Bool) (t : Nat)
    (h : BUTTON_LONG_PRESSED ∈ (button_thread_cycle st flags (at_tick level t)).set_calls) :
    BUTTON_SHORT_PRESSED ∈ (button_thread_cycle st flags (at_tick level t)).set_calls
      ∨ st.short_press = true := by
  unfold button_thread_cycle at h ⊢
  simp only [at_tick] at h ⊢
  by_cases hs : level = st.last_state
  · rw [if_pos hs] at h ⊢
    by_cases hl : level = true
    · rw [if_pos hl] at h ⊢
      simp only [] at h ⊢
      generalize uint32_sub t (if st.last_button = false then t % 2 ^ 32 else st.push_time)
        = e at h ⊢
      cases hsp : st.short_press
      · left
        have hlong : BUTTON_LONG_PRESS_TIME < e := by
          by_contra hc
          simp [hsp, hc, BUTTON_SHORT_PRESSED, BUTTON_LONG_PRESSED] at h
        have hshort : BUTTON_SHORT_PRESS_TIME < e := by
          unfold BUTTON_SHORT_PRESS_TIME
          unfold BUTTON_LONG_PRESS_TIME at hlong
          omega
        simp [hsp, hshort]
      · right; rfl
    · rw [if_neg hl] at h
      split at h
      · simp only [] at h
        split at h <;> simp [BUTTON_LONG_PRESSED, BUTTON_BUMPED, BUTTON_RELEASED] at h
      · simp at h
  · rw [if_neg hs] at h
    simp at h

theorem short_latch_cycle (st : ButtonLocals) (flags : Nat) (env : ButtonEnv)
    (h : (button_thread_cycle st flags env).locals.short_press = true) :
    st.short_press = true
      ∨ BUTTON_SHORT_PRESSED ∈ (button_thread_cycle st flags env).set_calls := by
  unfold button_thread_cycle at h ⊢
  by_cases hs : env.current_button_state = st.last_state
  · rw [if_pos hs] at h ⊢
    by_cases hl : env.current_button_state = true
    · rw [if_pos hl] at h ⊢
      simp only [] at h ⊢
      generalize uint32_sub env.tick_at_short
        (if st.last_button = false then env.tick_at_push % 2 ^ 32 else st.push_time) = e at h ⊢
      cases hsp : st.short_press
      · right
        rw [hsp] at h
        simp only [Bool.false_or, Bool.not_false, Bool.true_and] at h
        simp [hsp, h]
      · left; rfl
    · rw [if_neg hl] at h
      split at h
      · simp at h
      · left; exact h
  · rw [if_neg hs] at h
    left; exact h

theorem short_latch_origin (envs : List ButtonEnv) (st : ButtonLocals) (flags : Nat)
    (h : (button_state_after st flags envs).1.short_press = true) :
    st.short_press = true
      ∨ 0 < set_count BUTTON_SHORT_PRESSED (button_thread_cycles st flags envs) := by
  induction envs generalizing st flags with
  | nil => left; exact h
  | cons env rest ih =>
    rw [button_cycles_cons, set_count_cons]
    rcases ih _ _ h with h1 | h1
    · rcases short_latch_cycle st flags env h1 with h2 | h2
      · left; exact h2
      · right
        rw [if_pos h2]
        omega
    · right
      omega

/-- C35: a press is a run of stable pressed cycles from a state with no press remembered and
both latches clear, each cycle reading one tick value, followed by its release (a first
released sample, then the stable released sample). Under a monotonic tick (every tick of the
press between the press start t0 and the release tick, the release less than 2^32 ticks after
t0) BUMPED and SHORT_PRESSED are not both raised. Whenever a cycle raises LONG_PRESSED,
SHORT_PRESSED is raised in that cycle or was raised in an earlier cycle of the press; so a press
that raises LONG_PRESSED raises SHORT_PRESSED. A press whose hold time is exactly 1000 at the
release and never exceeded 1000 while held raises RELEASED once and no other flag. -/
theorem press_flags_consistent (st : ButtonLocals) (pushbutton_flags t0 : Nat) (ts : List Nat)
    (env_u env_r : ButtonEnv)
    (h1 : st.last_state = true) (h2 : st.last_button = false)
    (h3 : st.short_press = false) (h4 : st.long_press = false)
    (hu : env_u.current_button_state = false) (hr : env_r.current_button_state = false) :
    ((∀ t ∈ t0 :: ts, t0 ≤ t ∧ t ≤ env_r.tick_at_release) →
      env_r.tick_at_release - t0 < 2 ^ 32 →
      ¬ (0 < set_count BUTTON_BUMPED
            (button_thread_cycles st pushbutton_flags
              ((t0 :: ts).map (at_tick true) ++ [env_u, env_r]))
          ∧ 0 < set_count BUTTON_SHORT_PRESSED
            (button_thread_cycles st pushbutton_flags
              ((t0 :: ts).map (at_tick true) ++ [env_u, env_r]))))
    ∧ (∀ (earlier : List Nat) (t : Nat),
        BUTTON_LONG_PRESSED ∈ (button_thread_cycle
            (button_state_after st pushbutton_flags (earlier.map (at_tick true))).1
            (button_state_after st pushbutton_flags (earlier.map (at_tick true))).2
            (at_tick true t)).set_calls →
        0 < set_count BUTTON_SHORT_PRESSED
          (button_thread_cycles st pushbutton_flags ((earlier ++ [t]).map (at_tick true))))
    ∧ (0 < set_count BUTTON_LONG_PRESSED
          (button_thread_cycles st pushbutton_flags
            ((t0 :: ts).map (at_tick true) ++ [env_u, env_r])) →
        0 < set_count BUTTON_SHORT_PRESSED
          (button_thread_cycles st pushbutton_flags
            ((t0 :: ts).map (at_tick true) ++ [env_u, env_r])))
    ∧ (uint32_sub env_r.tick_at_release t0 = 1000 →
        (∀ t ∈ t0 :: ts, uint32_sub t t0 ≤ 1000) →
        set_count BUTTON_RELEASED
            (button_thread_cycles st pushbutton_flags
              ((t0 :: ts).map (at_tick true) ++ [env_u, env_r])) = 1
        ∧ set_count BUTTON_BUMPED
            (button_thread_cycles st pushbutton_flags
              ((t0 :: ts).map (at_tick true) ++ [env_u, env_r])) = 0
        ∧ set_count BUTTON_SHORT_PRESSED
            (button_thread_cycles st pushbutton_flags
              ((t0 :: ts).map (at_tick true) ++ [env_u, env_r])) = 0
        ∧ set_count BUTTON_LONG_PRESSED
            (button_thread_cycles st pushbutton_flags
              ((t0 :: ts).map (at_tick true) ++ [env_u, env_r])) = 0) := by
  obtain ⟨cs, cl, cb, cr⟩ :=
    press_release_counts st pushbutton_flags t0 ts env_u env_r h1 h2 h3 h4 hu hr
  refine ⟨?_, ?_, ?_, ?_⟩
  · intro hmono hspan
    rw [cs, cb]
    rintro ⟨hb, hsh⟩
    have hb2 : uint32_sub env_r.tick_at_release t0 < 1000 := by
      by_contra hc
      rw [if_neg hc] at hb
      exact absurd hb (by decide)
    have hs2 : ∃ t ∈ t0 :: ts, 1000 < uint32_sub t t0 := by
      by_contra hc
      rw [if_neg hc] at hsh
      exact absurd hsh (by decide)
    obtain ⟨t, ht, hgt⟩ := hs2
    obtain ⟨hle1, hle2⟩ := hmono t ht
    rw [uint32_sub_of_le _ _ hle1 (by omega)] at hgt
    rw [uint32_sub_of_le _ _ (Nat.le_trans hle1 hle2) hspan] at hb2
    omega
  · intro earlier t hlong
    rw [List.map_append, button_cycles_append, set_count_append]
    rcases long_implies_short_cycle _ _ true t hlong with hsc | hlatch
    · have : set_count BUTTON_SHORT_PRESSED
          (button_thread_cycles
            (button_state_after st pushbutton_flags (earlier.map (at_tick true))).1
            (button_state_after st pushbutton_flags (earlier.map (at_tick true))).2
            ([t].map (at_tick true))) = 1 := by
        rw [List.map_cons, List.map_nil, button_cycles_cons, set_count_cons, if_pos hsc]
        rfl
      omega
    · rcases short_latch_origin _ st pushbutton_flags hlatch with hst | hcnt
      · rw [h3] at hst
        cases hst
      · omega
  · rw [cs, cl]
    intro hl
    have hl2 : ∃ t ∈ t0 :: ts, 3000 < uint32_sub t t0 := by
      by_contra hc
      rw [if_neg hc] at hl
      exact absurd hl (by decide)
    obtain ⟨t, ht, hgt⟩ := hl2
    rw [if_pos ⟨t, ht, by omega⟩]
    decide
  · intro he hall
    refine ⟨cr, ?_, ?_, ?_⟩
    · rw [cb, he]
      rfl
    · rw [cs, if_neg]
      rintro ⟨t, ht, hgt⟩
      have := hall t ht
      omega
    · rw [cl, if_neg]
      rintro ⟨t, ht, hgt⟩
      have := hall t ht
      omega

theorem press_flags_consistent_witness :
    set_count BUTTON_RELEASED
        (button_thread_cycles
          { last_state := true, last_button := false, short_press := false,
            long_press := false, push_time := 0 } 0
          ((1025 :: [1050, 1500, 2000]).map (at_tick true)
            ++ [at_tick false 2000, at_tick false 2025])) = 1
    ∧ set_count BUTTON_BUMPED
        (button_thread_cycles
          { last_state := true, last_button := false, short_press := false,
            long_press := false, push_time := 0 } 0
          ((1025 :: [1050, 1500, 2000]).map (at_tick true)
            ++ [at_tick false 2000, at_tick false 2025])) = 0
    ∧ set_count BUTTON_SHORT_PRESSED
        (button_thread_cycles
          { last_state := true, last_button := false, short_press := false,
            long_press := false, push_time := 0 } 0
          ((1025 :: [1050, 1500, 2000]).map (at_tick true)
            ++ [at_tick false 2000, at_tick false 2025])) = 0
    ∧ set_count BUTTON_LONG_PRESSED
        (button_thread_cycles
          { last_state := true, last_button := false, short_press := false,
            long_press := false, push_time := 0 } 0
          ((1025 :: [1050, 1500, 2000]).map (at_tick true)
            ++ [at_tick false 2000, at_tick false 2025])) = 0 :=
  (press_flags_consistent
    { last_state := true, last_button := false, short_press := false,
      long_press := false, push_time := 0 } 0 1025 [1050, 1500, 2000]
    (at_tick false 2000) (at_tick false 2025) rfl rfl rfl rfl rfl rfl).2.2.2
    (by decide) (by decide)

/-! ## Orchestrator: the unarmed deadline -/

theorem long_pressed_observed (pb : Nat) :
    (pushbutton_long_pressed (pushbutton_short_pressed (pushbutton_bumped pb true).2 true).2
      true).1 = pb.testBit 3 := by
  have hb : pushbutton_bumped pb true
      = (pb.testBit 1, if pb.testBit 1 && true then osEventFlagsClear pb (1 <<< 1) else pb) :=
    accessor_core pb 1 true
  have hs : ∀ f, pushbutton_short_pressed f true
      = (f.testBit 2, if f.testBit 2 && true then osEventFlagsClear f (1 <<< 2) else f) :=
    fun f => accessor_core f 2 true
  have hl : ∀ f, pushbutton_long_pressed f true
      = (f.testBit 3, if f.testBit 3 && true then osEventFlagsClear f (1 <<< 3) else f) :=
    fun f => accessor_core f 3 true
  rw [hl, hs, hb]
  simp only []
  rw [testBit_accessor_clear _ _ _ (by decide), testBit_accessor_clear _ _ _ (by decide)]
  simp

theorem poll_iteration_unarmed (s : PollState) (env : PollEnv)
    (ht : s.shutdown_tick = 0xFFFFFFFF) (hl : s.shutdown_latched = false)
    (h3 : s.monitor_util_flags.testBit 3 = false) (h4 : s.monitor_util_flags.testBit 4 = false)
    (e3 : env.monitor_arrived.testBit 3 = false) (e4 : env.monitor_arrived.testBit 4 = false) :
    ((poll_iteration s env).next = none
      ↔ (s.pb_flags.testBit 3 = true ∨ env.pb_arrived.testBit 3 = true))
    ∧ ∀ s1, (poll_iteration s env).next = some s1 →
        s1.shutdown_tick = 0xFFFFFFFF ∧ s1.shutdown_latched = false
        ∧ s1.monitor_util_flags.testBit 3 = false ∧ s1.monitor_util_flags.testBit 4 = false
        ∧ s1.pb_flags.testBit 3 = false := by
  obtain ⟨p1, p2, p3⟩ := poll_faults_spec
    (osEventFlagsSet s.monitor_util_flags env.monitor_arrived) s.shutdown_tick
    s.shutdown_latched env.tick_crit env.tick_fail
  have m3 : (osEventFlagsSet s.monitor_util_flags env.monitor_arrived).testBit 3 = false := by
    rw [testBit_osEventFlagsSet, h3, e3]; rfl
  have m4 : (osEventFlagsSet s.monitor_util_flags env.monitor_arrived).testBit 4 = false := by
    rw [testBit_osEventFlagsSet, h4, e4]; rfl
  have q1 : (poll_faults (osEventFlagsSet s.monitor_util_flags env.monitor_arrived)
      s.shutdown_tick s.shutdown_latched env.tick_crit env.tick_fail).2.2.1
        = s.shutdown_tick := by
    rw [p1, m3, m4]
    simp
  have q2 : (poll_faults (osEventFlagsSet s.monitor_util_flags env.monitor_arrived)
      s.shutdown_tick s.shutdown_latched env.tick_crit env.tick_fail).2.2.2 = false := by
    rw [p2, m3, m4, hl]
    rfl
  have hd : ¬ (env.tick_deadline % 2 ^ 32 >
      (poll_faults (osEventFlagsSet s.monitor_util_flags env.monitor_arrived) s.shutdown_tick
        s.shutdown_latched env.tick_crit env.tick_fail).2.2.1) := by
    rw [q1, ht]
    have := Nat.mod_lt env.tick_deadline (show 0 < 2 ^ 32 by decide)
    omega
  have hpb : (osEventFlagsSet s.pb_flags env.pb_arrived).testBit 3
      = (s.pb_flags.testBit 3 || env.pb_arrived.testBit 3) := testBit_osEventFlagsSet _ _ _
  rw [poll_iteration_next_eq, long_pressed_observed, hpb, if_neg hd]
  constructor
  · constructor
    · intro h
      split at h
      · rename_i hc
        simpa using hc
      · cases h
    · intro h
      rw [if_pos (by simpa using h)]
  · intro s1 h
    split at h
    · cases h
    · rename_i hc
      have hs := Option.some.inj h
      subst hs
      refine ⟨by rw [q1, ht], q2, ?_, ?_, ?_⟩
      · rw [p3 3 (by decide), m3]; rfl
      · rw [p3 4 (by decide), m4]; rfl
      · show (pushbutton_released (pushbutton_long_pressed (pushbutton_short_pressed
          (pushbutton_bumped (osEventFlagsSet s.pb_flags env.pb_arrived) true).2 true).2
            true).2 true).2.testBit 3 = false
        have hb : ∀ f, pushbutton_bumped f true
            = (f.testBit 1, if f.testBit 1 && true then osEventFlagsClear f (1 <<< 1) else f) :=
          fun f => accessor_core f 1 true
        have hs : ∀ f, pushbutton_short_pressed f true
            = (f.testBit 2, if f.testBit 2 && true then osEventFlagsClear f (1 <<< 2) else f) :=
          fun f => accessor_core f 2 true
        have hlp : ∀ f, pushbutton_long_pressed f true
            = (f.testBit 3, if f.testBit 3 && true then osEventFlagsClear f (1 <<< 3) else f) :=
          fun f => accessor_core f 3 true
        have hrl : ∀ f, pushbutton_released f true
            = (f.testBit 0, if f.testBit 0 && true then osEventFlagsClear f (1 <<< 0) else f) :=
          fun f => accessor_core f 0 true
        rw [hrl, hlp, hs, hb]
        simp only []
        rw [testBit_accessor_clear _ _ _ (by decide), testBit_accessor_clear _ _ _ (by decide)]
        simp

theorem poll_loop_unarmed (envs : List PollEnv) (s : PollState)
    (ht : s.shutdown_tick = 0xFFFFFFFF) (hl : s.shutdown_latched = false)
    (h3 : s.monitor_util_flags.testBit 3 = false) (h4 : s.monitor_util_flags.testBit 4 = false)
    (he : ∀ e ∈ envs, e.monitor_arrived.testBit 3 = false ∧ e.monitor_arrived.testBit 4 = false) :
    ((poll_loop s envs).next = none
      ↔ (envs ≠ [] ∧ s.pb_flags.testBit 3 = true) ∨ ∃ e ∈ envs, e.pb_arrived.testBit 3 = true)
    ∧ ∀ s1, (poll_loop s envs).next = some s1 →
        s1.shutdown_tick = 0xFFFFFFFF ∧ s1.shutdown_latched = false := by
  induction envs generalizing s with
  | nil =>
    refine ⟨?_, ?_⟩
    · simp [poll_loop]
    · intro s1 h
      have hs : s = s1 := Option.some.inj h
      subst hs
      exact ⟨ht, hl⟩
  | cons env rest ih =>
    obtain ⟨e3, e4⟩ := he env (List.mem_cons_self _ _)
    have hr := fun e hm => he e (List.mem_cons_of_mem _ hm)
    obtain ⟨i1, i2⟩ := poll_iteration_unarmed s env ht hl h3 h4 e3 e4
    cases hn : (poll_iteration s env).next with
    | none =>
      have hobs := i1.1 hn
      refine ⟨?_, ?_⟩
      · simp only [poll_loop, hn]
        constructor
        · intro _
          rcases hobs with h | h
          · exact Or.inl ⟨List.cons_ne_nil _ _, h⟩
          · exact Or.inr ⟨env, List.mem_cons_self _ _, h⟩
        · intro _; trivial
      · intro s1 h
        simp only [poll_loop, hn] at h
        cases h
    | some s2 =>
      obtain ⟨t2, l2, m3, m4, b3⟩ := i2 s2 hn
      obtain ⟨j1, j2⟩ := ih s2 t2 l2 m3 m4 hr
      have hnot : ¬ (s.pb_flags.testBit 3 = true ∨ env.pb_arrived.testBit 3 = true) := by
        intro hc
        rw [i1.2 hc] at hn
        cases hn
      refine ⟨?_, ?_⟩
      · simp only [poll_loop, hn]
        rw [j1]
        constructor
        · rintro (⟨-, hb⟩ | ⟨e, hm, hb⟩)
          · rw [b3] at hb
            cases hb
          · exact Or.inr ⟨e, List.mem_cons_of_mem _ hm, hb⟩
        · rintro (⟨-, hb⟩ | ⟨e, hm, hb⟩)
          · exact absurd (Or.inl hb) hnot
          · rcases List.mem_cons.1 hm with heq | hm2
            · rw [heq] at hb
              exact absurd (Or.inr hb) hnot
            · exact Or.inr ⟨e, hm2, hb⟩
      · intro s1 h
        simp only [poll_loop, hn] at h
        exact j2 s1 h

theorem start_unarmed (pb_arrived : Nat) (env : AdcEnv) (s0 : PollState)
    (h : (doStateMachine_start pb_arrived env).next = some s0) :
    s0.shutdown_tick = 0xFFFFFFFF ∧ s0.shutdown_latched = false := by
  unfold doStateMachine_start at h
  simp only [] at h
  split at h
  · cases h
  · split at h
    · cases h
    · have hs := Option.some.inj h
      subst hs
      exact ⟨rfl, rfl⟩

/-- C36: the poll loop is entered with the deadline 0xFFFFFFFF and the latch clear. From such a
state, as long as no iteration observes SOC_CRITICAL or READ_FAIL (the bits are clear on entry
and none arrives), the poll loop ends in shutdown if and only if an iteration observes
LONG_PRESSED, whatever the 32-bit tick values read; when it has not shut down, the deadline is
still 0xFFFFFFFF and the latch clear. No 32-bit tick value exceeds 0xFFFFFFFF. -/
theorem unarmed_deadline_never_fires (s : PollState) (envs : List PollEnv)
    (ht : s.shutdown_tick = 0xFFFFFFFF) (hl : s.shutdown_latched = false)
    (h3 : s.monitor_util_flags.testBit 3 = false) (h4 : s.monitor_util_flags.testBit 4 = false)
    (he : ∀ e ∈ envs, e.monitor_arrived.testBit 3 = false ∧ e.monitor_arrived.testBit 4 = false) :
    ((poll_loop s envs).next = none
      ↔ (envs ≠ [] ∧ s.pb_flags.testBit 3 = true) ∨ ∃ e ∈ envs, e.pb_arrived.testBit 3 = true)
    ∧ (∀ s1, (poll_loop s envs).next = some s1 →
        s1.shutdown_tick = 0xFFFFFFFF ∧ s1.shutdown_latched = false)
    ∧ (∀ tick : Nat, ¬ (tick % 2 ^ 32 > 0xFFFFFFFF))
    ∧ (∀ pb_arrived env s0, (doStateMachine_start pb_arrived env).next = some s0 →
        s0.shutdown_tick = 0xFFFFFFFF ∧ s0.shutdown_latched = false) := by
  obtain ⟨a, b⟩ := poll_loop_unarmed envs s ht hl h3 h4 he
  refine ⟨a, b, ?_, start_unarmed⟩
  intro tick
  have := Nat.mod_lt tick (show 0 < 2 ^ 32 by decide)
  omega

theorem unarmed_deadline_never_fires_witness :
    ((poll_loop poll_state_unarmed polls_without_fault).next = none
      ↔ (polls_without_fault ≠ [] ∧ poll_state_unarmed.pb_flags.testBit 3 = true)
        ∨ ∃ e ∈ polls_without_fault, e.pb_arrived.testBit 3 = true)
    ∧ (poll_loop poll_state_unarmed polls_without_fault).next ≠ none :=
  ⟨(unarmed_deadline_never_fires poll_state_unarmed polls_without_fault rfl rfl
      (by decide) (by decide) (by decide)).1, by decide⟩

/-! ## Battery monitor: the remaining bound of the DMA wait -/

theorem do_adc_dma_second_wait (flags timeout : Nat) (env : AdcEnv)
    (h : (osEventFlagsWait flags ADC_READY_FLAG false timeout
      (if env.ready_released then ADC_READY_FLAG else 0)).2 &&& (1 <<< 31) = 0) :
    do_adc_dma flags timeout env
      = (osEventFlagsSet
          (osEventFlagsWait
            (osEventFlagsClear (osEventFlagsWait flags ADC_READY_FLAG false timeout
              (if env.ready_released then ADC_READY_FLAG else 0)).1 DMA_COMPLETE_FLAG)
            DMA_COMPLETE_FLAG false (dma_wait_bound timeout env)
            (if env.dma_complete then DMA_COMPLETE_FLAG else 0)).1 ADC_READY_FLAG,
         (osEventFlagsWait
            (osEventFlagsClear (osEventFlagsWait flags ADC_READY_FLAG false timeout
              (if env.ready_released then ADC_READY_FLAG else 0)).1 DMA_COMPLETE_FLAG)
            DMA_COMPLETE_FLAG false (dma_wait_bound timeout env)
            (if env.dma_complete then DMA_COMPLETE_FLAG else 0)).2) := by
  unfold do_adc_dma
  simp only []
  rw [if_neg (not_not.2 h)]
  rfl

/-- C37: for every 32-bit timeout T, start tick s and tick n at which the ADC has been obtained,
with elapsed time e = (n - s) mod 2^32 at most T, the bound `(T + s) - n` that `do_adc_dma`
computes in 32-bit unsigned arithmetic and passes to its wait for DMA completion is T - e, also
when the tick counter wraps between s and n; so the elapsed time of the first wait and the bound
of the second add up to T. The timeout both callers pass, ADC_READ_TIMEOUT, is 100. -/
theorem dma_wait_bound_remaining (T : Nat) (env : AdcEnv) (hT : T < 2 ^ 32)
    (he : uint32_sub env.locked_tick env.start_tick ≤ T) :
    dma_wait_bound T env = T - uint32_sub env.locked_tick env.start_tick
    ∧ uint32_sub env.locked_tick env.start_tick + dma_wait_bound T env = T
    ∧ (∀ flags,
        (osEventFlagsWait flags ADC_READY_FLAG false T
          (if env.ready_released then ADC_READY_FLAG else 0)).2 &&& (1 <<< 31) = 0 →
        (do_adc_dma flags T env).2
          = (osEventFlagsWait
              (osEventFlagsClear (osEventFlagsWait flags ADC_READY_FLAG false T
                (if env.ready_released then ADC_READY_FLAG else 0)).1 DMA_COMPLETE_FLAG)
              DMA_COMPLETE_FLAG false (T - uint32_sub env.locked_tick env.start_tick)
              (if env.dma_complete then DMA_COMPLETE_FLAG else 0)).2)
    ∧ ADC_READ_TIMEOUT = 100 := by
  have hb : dma_wait_bound T env = T - uint32_sub env.locked_tick env.start_tick := by
    unfold dma_wait_bound
    unfold uint32_sub at he ⊢
    omega
  refine ⟨hb, by omega, ?_, rfl⟩
  intro flags h
  rw [do_adc_dma_second_wait flags T env h, hb]

theorem dma_wait_bound_remaining_witness :
    uint32_sub adc_wrap_env.locked_tick adc_wrap_env.start_tick = 32
    ∧ dma_wait_bound ADC_READ_TIMEOUT adc_wrap_env
        = ADC_READ_TIMEOUT - uint32_sub adc_wrap_env.locked_tick adc_wrap_env.start_tick
    ∧ dma_wait_bound ADC_READ_TIMEOUT adc_wrap_env = 68 :=
  ⟨by decide,
   (dma_wait_bound_remaining ADC_READ_TIMEOUT adc_wrap_env (by decide) (by decide)).1,
   by decide⟩

end EBoard
